import Mathlib

/-!
# Realtime conversation event reconciliation

A shallow embedding of `src/pages/AIConversation/components/use-realtime-msg-effect.js`
(the React hook `useRealtimeMsgEffect`) and of the JavaScript primitives it relies on.

* JavaScript values that `JSON.parse` can produce are the type `JSVal`.
* The conversation store and the playback device are an explicit state `World`;
  the hook body is a computation in the state-and-exception monad `Eff`, so an
  exception leaves in place whatever had been written before it was thrown.
* Console output (`console.info`) is not modelled.
* One run of the effect body processes one frame; React's dependency check,
  which skips a run when two consecutive payload texts are identical, is outside
  the model.
-/

namespace RealtimeMsg

/-! ## JavaScript values -/

/-- Exceptions that the hook body can throw. -/
inductive JSError where
  /-- `JSON.parse` rejected the payload text. -/
  | jsonSyntax
  /-- property read on `undefined`/`null`, call of a non-function, failed `ToPrimitive`. -/
  | typeError
  /-- `new Int16Array(buffer)` on a buffer whose byte length is odd. -/
  | rangeError
  /-- `base64ToArrayBuffer` on a corrupt base64 text. -/
  | decodeError
  deriving DecidableEq, Repr

/-- A JSON number, kept as the exact decimal value `(-1)^neg * digits * 10^exp`
that its literal denotes. Rounding to IEEE-754 binary64 is not modelled. -/
structure JSNum where
  neg : Bool
  digits : Nat
  exp : Int
  deriving DecidableEq, Repr

/-- Values produced by `JSON.parse`, together with `undefined`. Objects are
association lists in insertion order. -/
inductive JSVal where
  | undefined
  | null
  | bool (b : Bool)
  | num (n : JSNum)
  | str (s : String)
  | arr (xs : List JSVal)
  | obj (props : List (String × JSVal))
  deriving Repr

instance : Inhabited JSVal := ⟨JSVal.undefined⟩

/-- Numeric `===`: equal decimal values; `-0 === 0`. -/
def JSNum.same (a b : JSNum) : Bool :=
  let m := min a.exp b.exp
  (a.digits * 10 ^ (a.exp - m).toNat == b.digits * 10 ^ (b.exp - m).toNat)
    && (a.neg == b.neg || a.digits == 0)

/-- The operator `===`. Two arrays or two objects are compared by reference; the
operands compared in the hook come from different `JSON.parse` results or from
the store, so two of them are never the same reference. -/
def jsStrictEq : JSVal → JSVal → Bool
  | .undefined, .undefined => true
  | .null, .null => true
  | .bool a, .bool b => a == b
  | .num a, .num b => a.same b
  | .str a, .str b => a == b
  | _, _ => false

/-- Property read `v.k` for a key `k` that no built-in prototype defines (every
key the hook reads except `at`): a `TypeError` on `undefined` and `null`, the own
property on an object, `undefined` elsewhere. -/
def getProp (v : JSVal) (k : String) : Except JSError JSVal :=
  match v with
  | .undefined => .error .typeError
  | .null => .error .typeError
  | .obj props => .ok ((props.lookup k).getD .undefined)
  | _ => .ok .undefined

/-- The chain `content?.at(0).text`. `?.` short-circuits on `undefined`/`null`;
`at` exists on arrays and strings only, elsewhere the call is a `TypeError`;
`.text` is then read on the element (a string has no `text` property). -/
def optionalAt0Text (content : JSVal) : Except JSError JSVal :=
  match content with
  | .undefined => .ok .undefined
  | .null => .ok .undefined
  | .arr xs => getProp (xs.headD .undefined) "text"
  | .str s => getProp (match s.toList with | [] => .undefined | c :: _ => .str (String.singleton c)) "text"
  | _ => .error .typeError

/-- Removes trailing decimal zeros of a significand, at most `fuel` of them. -/
def stripZeros : Nat → Nat → Int → Nat × Int
  | 0, d, e => (d, e)
  | fuel + 1, d, e => if d % 10 = 0 ∧ d ≠ 0 then stripZeros fuel (d / 10) (e + 1) else (d, e)

/-- `Number::toString` (radix 10) on the exact decimal value. -/
def JSNum.toJSString (x : JSNum) : String :=
  if x.digits = 0 then "0" else
  let de := stripZeros x.digits x.digits x.exp
  let s := Nat.repr de.1
  let k : Nat := s.length
  let n : Int := (k : Int) + de.2
  let sign := if x.neg then "-" else ""
  let zeros (m : Int) : String := String.mk (List.replicate m.toNat '0')
  sign ++
    (if (k : Int) ≤ n ∧ n ≤ 21 then s ++ zeros (n - k)
     else if 0 < n ∧ n ≤ 21 then s.take n.toNat ++ "." ++ s.drop n.toNat
     else if -6 < n ∧ n ≤ 0 then "0." ++ zeros (-n) ++ s
     else
       let ex := n - 1
       let es := (if ex < 0 then "-" else "+") ++ Nat.repr ex.natAbs
       if k = 1 then s ++ "e" ++ es else s.take 1 ++ "." ++ s.drop 1 ++ "e" ++ es)

mutual
/-- The abstract operation `ToString`. An object from `JSON.parse` converts to
`[object Object]` unless it has an own (hence non-callable) `toString`
property, in which case `ToPrimitive` fails with a `TypeError`; an array is
joined with commas. -/
def jsToString : JSVal → Except JSError String
  | .undefined => .ok "undefined"
  | .null => .ok "null"
  | .bool b => .ok (if b then "true" else "false")
  | .num n => .ok n.toJSString
  | .str s => .ok s
  | .arr xs => jsJoin xs
  | .obj props => if props.any (fun kv => kv.1 == "toString") then .error .typeError
      else .ok "[object Object]"
/-- `Array.prototype.join` with the default separator. -/
def jsJoin : List JSVal → Except JSError String
  | [] => .ok ""
  | [x] => jsJoinElem x
  | x :: y :: rest => do
    let a ← jsJoinElem x
    let b ← jsJoin (y :: rest)
    pure (a ++ "," ++ b)
/-- One element inside `join`: `undefined` and `null` give the empty text. -/
def jsJoinElem : JSVal → Except JSError String
  | .undefined => .ok ""
  | .null => .ok ""
  | .bool b => .ok (if b then "true" else "false")
  | .num n => .ok n.toJSString
  | .str s => .ok s
  | .arr xs => jsJoin xs
  | .obj props => if props.any (fun kv => kv.1 == "toString") then .error .typeError
      else .ok "[object Object]"
end

/-- The expression `s + v` with a string left operand: concatenation with
`ToString(v)`. -/
def jsConcat (s : String) (v : JSVal) : Except JSError String := do
  let t ← jsToString v
  pure (s ++ t)

/-! ## `JSON.parse`

The payload text is read by a scanner that turns characters into tokens and a
pushdown recogniser that builds the value from the tokens; both advance one
character at a time, so the reader is a fold over the text. -/

namespace JSON

/-- Lexical tokens of JSON text. -/
inductive Token where
  | lbrace | rbrace | lbracket | rbracket | colon | comma
  | strLit (s : String)
  | numLit (n : JSNum)
  | trueLit | falseLit | nullLit

/-- Where the scanner stands inside a number literal
`-? (0 | [1-9][0-9]*) (. [0-9]+)? ([eE] [+-]? [0-9]+)?`. -/
inductive NumPhase where
  | minus | zero | int | dot | frac | e | esign | expo
  deriving DecidableEq

/-- The parts of a number literal read so far. -/
structure NumAcc where
  neg : Bool := false
  digits : Nat := 0
  fracLen : Nat := 0
  expNeg : Bool := false
  expo : Nat := 0

/-- The number denoted by the parts of a literal. -/
def NumAcc.toNum (a : NumAcc) : JSNum :=
  { neg := a.neg, digits := a.digits,
    exp := (if a.expNeg then -(a.expo : Int) else (a.expo : Int)) - (a.fracLen : Int) }

/-- Scanner state. Inside a string the UTF-16 code units read so far are kept in
reverse order. -/
inductive Scan where
  | start
  | word (expect : List Char) (tok : Token)
  | inStr (units : List Nat)
  | inEsc (units : List Nat)
  | inHex (units : List Nat) (hex : List Nat)
  | inNum (phase : NumPhase) (acc : NumAcc)

/-- UTF-16 code units of a character. -/
def utf16Units (c : Char) : List Nat :=
  let n := c.toNat
  if n < 65536 then [n] else [55296 + (n - 65536) / 1024, 56320 + (n - 65536) % 1024]

/-- Characters of a code-unit sequence, given the high surrogate that awaits its
low half, if any. A surrogate pair is one character; an unpaired surrogate,
which a Lean string cannot hold, is read as U+FFFD. -/
def utf16Chars : Option Nat → List Nat → List Char
  | none, [] => []
  | some _, [] => [Char.ofNat 65533]
  | none, u :: rest =>
    if 55296 ≤ u ∧ u < 56320 then utf16Chars (some u) rest
    else (if 56320 ≤ u ∧ u < 57344 then Char.ofNat 65533 else Char.ofNat u) :: utf16Chars none rest
  | some h, u :: rest =>
    if 56320 ≤ u ∧ u < 57344 then
      Char.ofNat (65536 + (h - 55296) * 1024 + (u - 56320)) :: utf16Chars none rest
    else if 55296 ≤ u ∧ u < 56320 then Char.ofNat 65533 :: utf16Chars (some u) rest
    else Char.ofNat 65533 :: Char.ofNat u :: utf16Chars none rest

/-- Value of a hexadecimal digit. -/
def hexDigit (c : Char) : Option Nat :=
  let n := c.toNat
  if 48 ≤ n ∧ n ≤ 57 then some (n - 48)
  else if 65 ≤ n ∧ n ≤ 70 then some (n - 55)
  else if 97 ≤ n ∧ n ≤ 102 then some (n - 87)
  else none

/-- Value of a decimal digit. -/
def decDigit (c : Char) : Option Nat :=
  let n := c.toNat
  if 48 ≤ n ∧ n ≤ 57 then some (n - 48) else none

/-- Is the number complete in this phase? -/
def NumPhase.complete : NumPhase → Bool
  | .zero => true
  | .int => true
  | .frac => true
  | .expo => true
  | _ => false

/-- One scanner step outside any token: the tokens emitted and the next state. -/
def scanStart (c : Char) : Except JSError (List Token × Scan) :=
  if c = ' ' ∨ c = '\t' ∨ c = '\n' ∨ c = '\r' then .ok ([], .start)
  else if c = '{' then .ok ([.lbrace], .start)
  else if c = '}' then .ok ([.rbrace], .start)
  else if c = '[' then .ok ([.lbracket], .start)
  else if c = ']' then .ok ([.rbracket], .start)
  else if c = ':' then .ok ([.colon], .start)
  else if c = ',' then .ok ([.comma], .start)
  else if c = '"' then .ok ([], .inStr [])
  else if c = 't' then .ok ([], .word ['r', 'u', 'e'] .trueLit)
  else if c = 'f' then .ok ([], .word ['a', 'l', 's', 'e'] .falseLit)
  else if c = 'n' then .ok ([], .word ['u', 'l', 'l'] .nullLit)
  else if c = '-' then .ok ([], .inNum .minus { neg := true })
  else if c = '0' then .ok ([], .inNum .zero {})
  else match decDigit c with
    | some d => .ok ([], .inNum .int { digits := d })
    | none => .error .jsonSyntax

/-- One scanner step inside a number literal; `none` when the character does not
continue the literal. -/
def scanNum (phase : NumPhase) (a : NumAcc) (c : Char) : Option (NumPhase × NumAcc) :=
  match phase, decDigit c with
  | .minus, some d => some (if d = 0 then .zero else .int, { a with digits := d })
  | .int, some d => some (.int, { a with digits := a.digits * 10 + d })
  | .dot, some d => some (.frac, { a with digits := a.digits * 10 + d, fracLen := a.fracLen + 1 })
  | .frac, some d => some (.frac, { a with digits := a.digits * 10 + d, fracLen := a.fracLen + 1 })
  | .e, some d => some (.expo, { a with expo := d })
  | .esign, some d => some (.expo, { a with expo := d })
  | .expo, some d => some (.expo, { a with expo := a.expo * 10 + d })
  | .zero, some _ => none
  | ph, none =>
    if c = '.' ∧ (ph = .zero ∨ ph = .int) then some (.dot, a)
    else if (c = 'e' ∨ c = 'E') ∧ (ph = .zero ∨ ph = .int ∨ ph = .frac) then some (.e, a)
    else if c = '+' ∧ ph = .e then some (.esign, a)
    else if c = '-' ∧ ph = .e then some (.esign, { a with expNeg := true })
    else none

/-- One scanner step. -/
def scanStep (st : Scan) (c : Char) : Except JSError (List Token × Scan) :=
  match st with
  | .start => scanStart c
  | .word [] _ => .error .jsonSyntax
  | .word [x] tok => if c = x then .ok ([tok], .start) else .error .jsonSyntax
  | .word (x :: y :: rest) tok => if c = x then .ok ([], .word (y :: rest) tok) else .error .jsonSyntax
  | .inStr units =>
    if c = '"' then .ok ([.strLit (String.mk (utf16Chars none units.reverse))], .start)
    else if c = '\\' then .ok ([], .inEsc units)
    else if c.toNat < 32 then .error .jsonSyntax
    else .ok ([], .inStr ((utf16Units c).reverse ++ units))
  | .inEsc units =>
    if c = '"' then .ok ([], .inStr (34 :: units))
    else if c = '\\' then .ok ([], .inStr (92 :: units))
    else if c = '/' then .ok ([], .inStr (47 :: units))
    else if c = 'b' then .ok ([], .inStr (8 :: units))
    else if c = 'f' then .ok ([], .inStr (12 :: units))
    else if c = 'n' then .ok ([], .inStr (10 :: units))
    else if c = 'r' then .ok ([], .inStr (13 :: units))
    else if c = 't' then .ok ([], .inStr (9 :: units))
    else if c = 'u' then .ok ([], .inHex units [])
    else .error .jsonSyntax
  | .inHex units hex =>
    match hexDigit c, hex with
    | none, _ => .error .jsonSyntax
    | some d, [h1, h2, h3] => .ok ([], .inStr ((((h1 * 16 + h2) * 16 + h3) * 16 + d) :: units))
    | some d, _ => .ok ([], .inHex units (hex ++ [d]))
  | .inNum phase acc =>
    match scanNum phase acc c with
    | some (phase1, acc1) => .ok ([], .inNum phase1 acc1)
    | none =>
      if phase.complete then
        match scanStart c with
        | .ok (toks, st1) => .ok (.numLit acc.toNum :: toks, st1)
        | .error err => .error err
      else .error .jsonSyntax

/-- Tokens still due when the text ends in this scanner state. -/
def scanEnd : Scan → Except JSError (List Token)
  | .start => .ok []
  | .inNum phase acc => if phase.complete then .ok [.numLit acc.toNum] else .error .jsonSyntax
  | _ => .error .jsonSyntax

/-- An open container: an array with its elements in reverse order, or an object
with its properties and the key whose value is awaited. -/
inductive Open where
  | arr (elems : List JSVal)
  | obj (props : List (String × JSVal)) (key : Option String)

/-- What the recogniser expects next. -/
inductive Expect where
  | value (closeOk : Bool)
  | key (closeOk : Bool)
  | colon
  | sep
  | done (v : JSVal)

/-- Recogniser state: what is expected and the stack of open containers. -/
structure Build where
  expect : Expect
  stack : List Open

/-- Writes a property: a repeated key keeps its place and takes the last value. -/
def setProp : List (String × JSVal) → String → JSVal → List (String × JSVal)
  | [], k, v => [(k, v)]
  | (k1, v1) :: rest, k, v => if k1 = k then (k1, v) :: rest else (k1, v1) :: setProp rest k v

/-- Hands a complete value to the innermost open container. -/
def deliver (v : JSVal) : List Open → Except JSError Build
  | [] => .ok { expect := .done v, stack := [] }
  | .arr elems :: up => .ok { expect := .sep, stack := .arr (v :: elems) :: up }
  | .obj props (some k) :: up => .ok { expect := .sep, stack := .obj (setProp props k v) none :: up }
  | .obj _ none :: _ => .error .jsonSyntax

/-- One recogniser step. -/
def buildStep (b : Build) (t : Token) : Except JSError Build :=
  match b.expect, t, b.stack with
  | .value _, .strLit s, stack => deliver (.str s) stack
  | .value _, .numLit n, stack => deliver (.num n) stack
  | .value _, .trueLit, stack => deliver (.bool true) stack
  | .value _, .falseLit, stack => deliver (.bool false) stack
  | .value _, .nullLit, stack => deliver .null stack
  | .value _, .lbracket, stack => .ok { expect := .value true, stack := .arr [] :: stack }
  | .value _, .lbrace, stack => .ok { expect := .key true, stack := .obj [] none :: stack }
  | .value true, .rbracket, .arr [] :: up => deliver (.arr []) up
  | .key _, .strLit k, .obj props _ :: up => .ok { expect := .colon, stack := .obj props (some k) :: up }
  | .key true, .rbrace, .obj props _ :: up => deliver (.obj props) up
  | .colon, .colon, stack => .ok { expect := .value false, stack := stack }
  | .sep, .comma, .arr elems :: up => .ok { expect := .value false, stack := .arr elems :: up }
  | .sep, .comma, .obj props key :: up => .ok { expect := .key false, stack := .obj props key :: up }
  | .sep, .rbracket, .arr elems :: up => deliver (.arr elems.reverse) up
  | .sep, .rbrace, .obj props _ :: up => deliver (.obj props) up
  | _, _, _ => .error .jsonSyntax

/-- Reader state: scanner and recogniser. -/
structure Reader where
  scan : Scan
  build : Build

/-- One character of payload text. -/
def readChar (r : Reader) (c : Char) : Except JSError Reader := do
  let (toks, scan1) ← scanStep r.scan c
  let build1 ← toks.foldlM buildStep r.build
  pure { scan := scan1, build := build1 }

/-- The built-in `JSON.parse` on a text: the value, or a `SyntaxError`. -/
def parse (text : String) : Except JSError JSVal := do
  let r ← text.toList.foldlM readChar { scan := .start, build := { expect := .value false, stack := [] } }
  let toks ← scanEnd r.scan
  let b ← toks.foldlM buildStep r.build
  match b.expect with
  | .done v => pure v
  | _ => .error .jsonSyntax

end JSON

/-! ## Audio helpers (`./audio-utils`) -/

/-- A PCM16 sample sequence (`Int16Array`): signed 16-bit samples in order. -/
abbrev Int16Array := List Int

/-- Value of one character of the base64 alphabet. -/
def base64Sextet (c : Char) : Option Nat :=
  let n := c.toNat
  if 65 ≤ n ∧ n ≤ 90 then some (n - 65)
  else if 97 ≤ n ∧ n ≤ 122 then some (n - 97 + 26)
  else if 48 ≤ n ∧ n ≤ 57 then some (n - 48 + 52)
  else if n = 43 then some 62
  else if n = 47 then some 63
  else none

/-- Bytes encoded by a sequence of sextets; a final group of two or three
sextets gives one or two bytes, a final single sextet is corrupt. -/
def base64Bytes : List Nat → Except JSError (List Nat)
  | a :: b :: c :: d :: rest => do
    let n := ((a * 64 + b) * 64 + c) * 64 + d
    let tail ← base64Bytes rest
    pure (n / 65536 :: n / 256 % 256 :: n % 256 :: tail)
  | [a, b, c] => pure [((a * 64 + b) * 64 + c) / 1024, ((a * 64 + b) * 64 + c) / 4 % 256]
  | [a, b] => pure [(a * 64 + b) / 16]
  | [_] => .error .decodeError
  | [] => pure []

/-- Drops the one or two `=` that may end a text whose length is a multiple of 4. -/
def stripPadding (cs : List Char) : List Char :=
  if cs.length % 4 = 0 then
    match cs.reverse with
    | '=' :: '=' :: r => r.reverse
    | '=' :: r => r.reverse
    | _ => cs
  else cs

/-- Base64 decoding as the browser's `atob` does it: ASCII whitespace is
skipped, padding is optional, any other character is corrupt. -/
def atob (s : String) : Except JSError (List Nat) := do
  let cs := s.toList.filter (fun c => !(c = ' ' ∨ c = '\t' ∨ c = '\n' ∨ c = '\r' ∨ c.toNat = 12))
  let sextets ← (stripPadding cs).mapM
    (fun c => match base64Sextet c with | some v => .ok v | none => .error JSError.decodeError)
  base64Bytes sextets

/-- Modelled from the spec: `base64ToArrayBuffer` of `./audio-utils`, whose source is
not in the repository snapshot. Given a base64 string it yields the decoded
bytes, the decoding being that of the browser (`atob`); a corrupt text fails
with a decode error. A value that is not a string is not a base64 string and
fails the same way. -/
def base64ToArrayBuffer (v : JSVal) : Except JSError (List Nat) :=
  match v with
  | .str s => atob s
  | _ => .error .decodeError

/-- Signed 16-bit little-endian samples of a byte sequence of even length. -/
def pcm16Samples : List Nat → List Int
  | lo :: hi :: rest =>
    (if lo + 256 * hi < 32768 then (lo + 256 * hi : Int) else (lo + 256 * hi : Int) - 65536)
      :: pcm16Samples rest
  | _ => []

/-- The constructor `new Int16Array(buffer)`: a `RangeError` when the byte length
is odd, otherwise the little-endian samples. -/
def newInt16Array (bytes : List Nat) : Except JSError Int16Array :=
  if bytes.length % 2 = 0 then .ok (pcm16Samples bytes) else .error .rangeError

/-- Modelled from the spec: `mergeInt16Arrays` of `./audio-utils`, whose source is not
in the repository snapshot. Given a previous PCM16 sample sequence (possibly
empty) and a new one, it produces a new sequence that is the concatenation of
the two, preserving sample order. -/
def mergeInt16Arrays (previous next : Int16Array) : Int16Array :=
  previous ++ next

/-- Decoding of one audio chunk as lines 126-127 of the hook do it. -/
def decodeChunk (delta : JSVal) : Except JSError Int16Array := do
  let audioArrayBuffer ← base64ToArrayBuffer delta
  newInt16Array audioArrayBuffer

/-! ## Store and device state -/

/-- One entry of `message`. The fields are those the hook writes; a field the
hook leaves out of an object literal, or sets to `undefined`, is `undefined`
or `none` here. `textDelta` is only ever written as a string concatenation and
the two audio fields as `Int16Array`s. -/
structure Item where
  msgType : JSVal
  eventId : JSVal
  eventName : JSVal
  itemId : JSVal
  previousItemId : JSVal
  role : JSVal
  isStreaming : Bool
  textFinal : JSVal := .undefined
  textDelta : Option String := none
  audioDelta : Option Int16Array := none
  audioFinal : Option Int16Array := none
  deriving Repr

/-- The session object `{ id, message }` held by the store. -/
structure Session where
  id : JSVal
  message : List Item
  deriving Repr

/-- The conversation store (`currentSessionId`, `currentSessionList`) and the
number of `wavStreamPlayer.interrupt()` calls made so far. -/
structure World where
  currentSessionId : JSVal
  currentSessionList : Session
  interruptCount : Nat
  deriving Repr

/-- Computations of the hook body: they read and write the `World` and may throw. -/
def Eff (α : Type) : Type := World → Except JSError α × World

instance : Monad Eff where
  pure a := fun w => (.ok a, w)
  bind m f := fun w =>
    match m w with
    | (.ok a, w1) => f a w1
    | (.error e, w1) => (.error e, w1)

instance : LawfulMonad Eff := LawfulMonad.mk' Eff
  (by
    intro α x
    funext w
    show (match x w with | (.ok a, w1) => (Except.ok (id a), w1) | (.error e, w1) => (.error e, w1)) = x w
    rcases hx : x w with ⟨r, w1⟩
    cases r <;> rfl)
  (by intros; rfl)
  (by
    intro α β γ x f g
    funext w
    show (match (match x w with | (.ok a, w1) => f a w1 | (.error e, w1) => (.error e, w1)) with
          | (.ok b, w2) => g b w2 | (.error e, w2) => (.error e, w2))
        = (match x w with
          | (.ok a, w1) => (match f a w1 with | (.ok b, w2) => g b w2 | (.error e, w2) => (.error e, w2))
          | (.error e, w1) => (.error e, w1))
    rcases hx : x w with ⟨r, w1⟩
    cases r <;> rfl)

/-- Evaluation of a pure expression that may throw. -/
def Eff.eval {α : Type} (x : Except JSError α) : Eff α := fun w => (x, w)

/-- Modelled from the spec: `setCurrentSessionId` of `./use-conversation-store`, whose
source is not in the repository snapshot; it records the session id. -/
def setCurrentSessionId (id : JSVal) : Eff Unit :=
  fun w => (.ok (), { w with currentSessionId := id })

/-- Modelled from the spec: `setCurrentSessionList` of `./use-conversation-store`, whose
source is not in the repository snapshot; a reducer-style update (previous
state to next state). When the updater throws nothing is stored. -/
def setCurrentSessionList (updater : Session → Except JSError Session) : Eff Unit :=
  fun w =>
    match updater w.currentSessionList with
    | .ok next => (.ok (), { w with currentSessionList := next })
    | .error e => (.error e, w)

/-- The call `wavStreamPlayer.interrupt()` on the playback device. -/
def interrupt : Eff Unit :=
  fun w => (.ok (), { w with interruptCount := w.interruptCount + 1 })

/-- The test `parsedData.type === name` that guards each handler. -/
def typeIs (parsedData : JSVal) (name : String) : Eff Bool := do
  let type ← Eff.eval (getProp parsedData "type")
  pure (jsStrictEq type (.str name))

/-- The guard `item.msgType === "realtime" && item.itemId === currentItemId`. -/
def Item.isTarget (item : Item) (currentItemId : JSVal) : Bool :=
  jsStrictEq item.msgType (.str "realtime") && jsStrictEq item.itemId currentItemId

/-! ## The hook `useRealtimeMsgEffect` -/

/-- Updater of the `conversation.item.created` handler: `[...prev.message, item]`. -/
def appendItem (item : Item) (prev : Session) : Except JSError Session :=
  .ok { prev with message := prev.message ++ [item] }

/-- `Array.prototype.map` with a callback that may throw: the entries are visited
in order and the first exception ends the call. -/
def arrayMap (callback : Item → Except JSError Item) : List Item → Except JSError (List Item)
  | [] => .ok []
  | item :: rest => do
    let head ← callback item
    let tail ← arrayMap callback rest
    pure (head :: tail)

/-- Updater of the update handlers: `prev.message.map(...)`, the transform being
applied to every entry that passes the guard. -/
def mapTargets (currentItemId : JSVal) (transform : Item → Except JSError Item)
    (prev : Session) : Except JSError Session := do
  let message ← arrayMap
    (fun item => if item.isTarget currentItemId then transform item else .ok item) prev.message
  pure { prev with message := message }

/-- Lines 13-19: handler of `session.created`. -/
def onSessionCreated (parsedData : JSVal) : Eff Unit := do
  let session ← Eff.eval (getProp parsedData "session")
  let id ← Eff.eval (getProp session "id")
  setCurrentSessionId id
  setCurrentSessionList (fun _ => do
    let session ← getProp parsedData "session"
    let id ← getProp session "id"
    pure { id := id, message := [] })

/-- Lines 21-66: handler of `conversation.item.created`. -/
def onItemCreated (parsedData : JSVal) : Eff Unit := do
  let currentEventId ← Eff.eval (getProp parsedData "event_id")
  let currentEventName ← Eff.eval (getProp parsedData "type")
  let item ← Eff.eval (getProp parsedData "item")
  let currentItemId ← Eff.eval (getProp item "id")
  let currentRole ← Eff.eval (getProp item "role")
  let content ← Eff.eval (getProp item "content")
  let userContent ← Eff.eval (optionalAt0Text content)
  let currentPreviousItemId ← Eff.eval (getProp parsedData "previous_item_id")
  if jsStrictEq currentRole (.str "assistant") then
    setCurrentSessionList (appendItem
      { msgType := .str "realtime"
        eventId := currentEventId
        eventName := currentEventName
        itemId := currentItemId
        previousItemId := currentPreviousItemId
        role := currentRole
        isStreaming := false })
  if jsStrictEq currentRole (.str "user") then
    setCurrentSessionList (appendItem
      { msgType := .str "realtime"
        eventId := currentEventId
        eventName := currentEventName
        itemId := currentItemId
        previousItemId := currentPreviousItemId
        role := currentRole
        isStreaming := false
        textFinal := userContent })

/-- Lines 68-91: handler of `response.audio_transcript.delta`. -/
def onTranscriptDelta (parsedData : JSVal) : Eff Unit := do
  let currentEventId ← Eff.eval (getProp parsedData "event_id")
  let currentEventName ← Eff.eval (getProp parsedData "type")
  let currentItemId ← Eff.eval (getProp parsedData "item_id")
  let currentDelta ← Eff.eval (getProp parsedData "delta")
  setCurrentSessionList (mapTargets currentItemId (fun item => do
    let textDelta ← jsConcat (item.textDelta.getD "") currentDelta
    pure { item with
      eventId := currentEventId
      eventName := currentEventName
      textDelta := some textDelta
      isStreaming := true }))

/-- Lines 93-117: handler of `response.audio_transcript.done`. -/
def onTranscriptDone (parsedData : JSVal) : Eff Unit := do
  let currentEventId ← Eff.eval (getProp parsedData "event_id")
  let currentEventName ← Eff.eval (getProp parsedData "type")
  let currentItemId ← Eff.eval (getProp parsedData "item_id")
  let currentTranscript ← Eff.eval (getProp parsedData "transcript")
  setCurrentSessionList (mapTargets currentItemId (fun item =>
    pure { item with
      eventId := currentEventId
      eventName := currentEventName
      textDelta := none
      textFinal := currentTranscript
      isStreaming := false }))

/-- Lines 119-149: handler of `response.audio.delta`. -/
def onAudioDelta (parsedData : JSVal) : Eff Unit := do
  let currentEventId ← Eff.eval (getProp parsedData "event_id")
  let currentEventName ← Eff.eval (getProp parsedData "type")
  let currentItemId ← Eff.eval (getProp parsedData "item_id")
  let currentDelta ← Eff.eval (getProp parsedData "delta")
  let audioArrayBuffer ← Eff.eval (base64ToArrayBuffer currentDelta)
  let audioInt16ArrayBuffer ← Eff.eval (newInt16Array audioArrayBuffer)
  setCurrentSessionList (mapTargets currentItemId (fun item =>
    pure { item with
      eventId := currentEventId
      eventName := currentEventName
      audioDelta := some audioInt16ArrayBuffer
      audioFinal := some (mergeInt16Arrays (item.audioFinal.getD []) audioInt16ArrayBuffer)
      isStreaming := true }))

/-- Lines 151-173: handler of `response.audio.done`. -/
def onAudioDone (parsedData : JSVal) : Eff Unit := do
  let currentEventId ← Eff.eval (getProp parsedData "event_id")
  let currentItemId ← Eff.eval (getProp parsedData "item_id")
  let currentEventName ← Eff.eval (getProp parsedData "type")
  setCurrentSessionList (mapTargets currentItemId (fun item =>
    pure { item with
      eventId := currentEventId
      eventName := currentEventName
      audioDelta := none
      isStreaming := false }))

/-- Lines 175-200: handler of
`conversation.item.input_audio_transcription.completed`. -/
def onInputTranscriptionCompleted (parsedData : JSVal) : Eff Unit := do
  let currentEventId ← Eff.eval (getProp parsedData "event_id")
  let currentItemId ← Eff.eval (getProp parsedData "item_id")
  let currentEventName ← Eff.eval (getProp parsedData "type")
  let currenttranscript ← Eff.eval (getProp parsedData "transcript")
  setCurrentSessionList (mapTargets currentItemId (fun item =>
    pure { item with
      eventId := currentEventId
      eventName := currentEventName
      textFinal := currenttranscript }))

/-- Lines 13-219: the effect body once `parsedData` is bound; one `if` per
event type, run in sequence. -/
def effectBody (parsedData : JSVal) : Eff Unit := do
  if ← typeIs parsedData "session.created" then
    onSessionCreated parsedData
  if ← typeIs parsedData "conversation.item.created" then
    onItemCreated parsedData
  if ← typeIs parsedData "response.audio_transcript.delta" then
    onTranscriptDelta parsedData
  if ← typeIs parsedData "response.audio_transcript.done" then
    onTranscriptDone parsedData
  if ← typeIs parsedData "response.audio.delta" then
    onAudioDelta parsedData
  if ← typeIs parsedData "response.audio.done" then
    onAudioDone parsedData
  if ← typeIs parsedData "conversation.item.input_audio_transcription.completed" then
    onInputTranscriptionCompleted parsedData
  if ← typeIs parsedData "input_audio_buffer.speech_started" then
    interrupt
  if ← typeIs parsedData "input_audio_buffer.speech_stopped" then
    pure ()
  if ← typeIs parsedData "response.created" then
    interrupt
  if ← typeIs parsedData "response.done" then
    pure ()

/-- The effect of `useRealtimeMsgEffect` for one value of
`wsInstance.lastMessage?.data`: `none` when there is no message or no data. -/
def useRealtimeMsgEffect (data : Option String) : Eff Unit := do
  let parsedData ← Eff.eval (JSON.parse (data.getD "{}"))
  effectBody parsedData

/-- Result of processing one frame: the state it leaves and the exception it
threw, if any. -/
structure Outcome where
  world : World
  raised : Option JSError
  deriving Repr

/-- Runs a computation from a state. -/
def Eff.outcome (m : Eff Unit) (w : World) : Outcome :=
  match m w with
  | (.ok _, w1) => { world := w1, raised := none }
  | (.error e, w1) => { world := w1, raised := some e }

/-- One run of the effect body, on one decoded event. -/
def processEvent (w : World) (parsedData : JSVal) : Outcome :=
  (effectBody parsedData).outcome w

/-- One run of the effect, on one value of `wsInstance.lastMessage?.data`. -/
def processFrame (w : World) (data : Option String) : Outcome :=
  (useRealtimeMsgEffect data).outcome w

/-- Successive runs of the effect body, one on each event of the list; the state
a run leaves, whether or not it threw, is the state the next run starts from. The
frames of a trace on which the effect runs are picked by the deps of the effect:
see `renders` and `ranEvents`. -/
def processEvents (w : World) (events : List JSVal) : World :=
  events.foldl (fun w1 ev => (processEvent w1 ev).world) w

/-- Does none of the successive runs of the effect body on the events throw? -/
def allProcessed : World → List JSVal → Bool
  | _, [] => true
  | w, ev :: rest =>
    match (processEvent w ev).raised with
    | none => allProcessed (processEvent w ev).world rest
    | some _ => false

/-- The mounted hook between two renders: the store, and the value that
`wsInstance.lastMessage?.data` had at the last render (`none` before the first
render). The value is the one the deps of the effect are compared with; two
payload texts are the same value when they are equal character by character, and
an absent message and absent data both count as the absent payload, on which the
effect does nothing. -/
structure Hook where
  world : World
  lastData : Option (Option String)

/-- The effect at one render at which `wsInstance.lastMessage?.data` is `data`. Its
deps are `[wsInstance.lastMessage?.data]` (line 220): the effect runs at the first
render, and then at each render at which the value is not the one of the render
before; a render with an unchanged value runs nothing. -/
def renderOutcome (h : Hook) (data : Option String) : Outcome :=
  if h.lastData = some data then { world := h.world, raised := none }
  else processFrame h.world data

/-- One render: the store the effect leaves, and the deps of this render. -/
def render (h : Hook) (data : Option String) : Hook :=
  { world := (renderOutcome h data).world, lastData := some data }

/-- The renders for a sequence of frames, in arrival order; the state a render
leaves, whether or not its effect threw, is the state the next one starts from. -/
def renders (h : Hook) (frames : List (Option String)) : Hook :=
  frames.foldl render h

/-- Does no render of the sequence throw? -/
def allRendered : Hook → List (Option String) → Bool
  | _, [] => true
  | h, data :: rest =>
    match (renderOutcome h data).raised with
    | none => allRendered (render h data) rest
    | some _ => false

/-- Does every frame of the sequence carry a payload that is not the one of the
frame before it (`lastData` for the first frame)? -/
def noRepeat : Option (Option String) → List (Option String) → Bool
  | _, [] => true
  | lastData, data :: rest => decide (lastData ≠ some data) && noRepeat (some data) rest

/-- The frames of the sequence at which the effect runs: those whose payload is not
the one of the frame before. -/
def ranFrames : Option (Option String) → List (Option String) → List (Option String)
  | _, [] => []
  | lastData, data :: rest =>
    if lastData = some data then ranFrames lastData rest else data :: ranFrames (some data) rest

/-- The event a payload decodes to, when it does. -/
def decodeFrame (data : Option String) : Option JSVal :=
  match JSON.parse (data.getD "{}") with
  | .ok parsedData => some parsedData
  | .error _ => none

/-- The events of the frames at which the effect runs and whose payload decodes. -/
def ranEvents (lastData : Option (Option String)) (frames : List (Option String)) : List JSVal :=
  (ranFrames lastData frames).filterMap decodeFrame

/-- Processes frames in arrival order from the store state `w`, the first frame
being one the effect runs on (the effect has not run before, or its last run saw
another payload); a later frame whose payload is the one of the frame before it is
not processed. -/
def processFrames (w : World) (frames : List (Option String)) : World :=
  (renders { world := w, lastData := none } frames).world

/-- Do all the frames process without an exception, in sequence? -/
def allFramesProcessed (w : World) (frames : List (Option String)) : Bool :=
  allRendered { world := w, lastData := none } frames

/-! ## Vocabulary of the statements -/

/-- A result that, when it is a failure, is a `SyntaxError`. -/
def JSON.OnlySyntax {α : Type} (x : Except JSError α) : Prop :=
  ∀ e, x = .error e → e = .jsonSyntax

/-- `parsedData.type` reads as the string `name`. -/
def HasType (parsedData : JSVal) (name : String) : Prop :=
  getProp parsedData "type" = .ok (.str name)

/-- The value `parsedData.key` of an event object (`undefined` when the read throws). -/
def fieldOf (parsedData : JSVal) (key : String) : JSVal :=
  match getProp parsedData key with
  | .ok v => v
  | .error _ => .undefined

/-- The items of the session. -/
def World.items (w : World) : List Item := w.currentSessionList.message

/-- The state in which every entry that passes the guard for `currentItemId` has
been replaced by its image under `g`. -/
def updateTargets (currentItemId : JSVal) (g : Item → Item) (w : World) : World :=
  { w with currentSessionList := { w.currentSessionList with
      message := w.currentSessionList.message.map
        (fun it => if it.isTarget currentItemId then g it else it) } }

/-- The state with one more item at the end of the list. -/
def pushItem (item : Item) (w : World) : World :=
  { w with currentSessionList := { w.currentSessionList with
      message := w.currentSessionList.message ++ [item] } }

/-- Content of a creation event in the wire form of the spec: absent (or `null`),
or a list that has a first entry (one that is not `null`). -/
def ContentOk (content : JSVal) : Prop :=
  content = .undefined ∨ content = .null ∨
  ∃ first rest, content = .arr (first :: rest) ∧ first ≠ .undefined ∧ first ≠ .null

/-- A `conversation.item.created` event whose `item` is an object with the given
role and id; nothing is asked of its content. -/
def IsCreation (parsedData : JSVal) (role : String) (id : JSVal) : Prop :=
  HasType parsedData "conversation.item.created" ∧
  ∃ props, fieldOf parsedData "item" = .obj props ∧
    fieldOf (.obj props) "id" = id ∧
    fieldOf (.obj props) "role" = .str role

/-- The value `parsedData.item.content` of a creation event. -/
def contentOf (parsedData : JSVal) : JSVal :=
  fieldOf (fieldOf parsedData "item") "content"

/-- A `conversation.item.created` event `{type, event_id, item:{id, role, content?},
previous_item_id}` with the given role and item id, in the wire form of the spec. -/
def IsItemCreated (parsedData : JSVal) (role : String) (id : JSVal) : Prop :=
  IsCreation parsedData role id ∧ ContentOk (contentOf parsedData)

/-- The value of `parsedData.item.content?.at(0).text` (`undefined` when it throws). -/
def userContentOf (parsedData : JSVal) : JSVal :=
  match optionalAt0Text (contentOf parsedData) with
  | .ok v => v
  | .error _ => .undefined

/-- A `response.audio_transcript.delta` event for item `itemId` carrying the text `delta`. -/
def IsTranscriptDelta (parsedData : JSVal) (itemId delta : String) : Prop :=
  HasType parsedData "response.audio_transcript.delta" ∧
  fieldOf parsedData "item_id" = .str itemId ∧ fieldOf parsedData "delta" = .str delta

/-- A `response.audio_transcript.done` event for item `itemId` carrying `transcript`. -/
def IsTranscriptDone (parsedData : JSVal) (itemId : String) (transcript : JSVal) : Prop :=
  HasType parsedData "response.audio_transcript.done" ∧
  fieldOf parsedData "item_id" = .str itemId ∧ fieldOf parsedData "transcript" = transcript

/-- A `response.audio.delta` event for item `itemId` carrying the base64 text `delta`. -/
def IsAudioDelta (parsedData : JSVal) (itemId delta : String) : Prop :=
  HasType parsedData "response.audio.delta" ∧
  fieldOf parsedData "item_id" = .str itemId ∧ fieldOf parsedData "delta" = .str delta

/-- An event of one of the five update types. -/
def IsUpdateEvent (parsedData : JSVal) : Prop :=
  HasType parsedData "response.audio.delta" ∨ HasType parsedData "response.audio.done" ∨
  HasType parsedData "response.audio_transcript.delta" ∨
  HasType parsedData "response.audio_transcript.done" ∨
  HasType parsedData "conversation.item.input_audio_transcription.completed"

/-- A state used to instantiate the statements: session `S0`, no items. -/
def emptyWorld : World :=
  { currentSessionId := .str "S0", currentSessionList := { id := .str "S0", message := [] },
    interruptCount := 0 }

/-- An assistant item as the creation handler makes it. -/
def sampleItem (id : String) : Item :=
  { msgType := .str "realtime", eventId := .str "E0", eventName := .str "conversation.item.created",
    itemId := .str id, previousItemId := .null, role := .str "assistant", isStreaming := false }

/-- A state used to instantiate the statements: session `S0` with the single item `I1`. -/
def oneItemWorld : World :=
  { currentSessionId := .str "S0",
    currentSessionList := { id := .str "S0", message := [sampleItem "I1"] },
    interruptCount := 0 }

/-! ## Wire forms of the events (spec section 6), used to instantiate the statements -/

/-- `{type, session:{id}}`. -/
def sessionCreatedEvent (id : String) : JSVal :=
  .obj [("type", .str "session.created"), ("session", .obj [("id", .str id)])]

/-- `{type, event_id, item:{id, role}, previous_item_id}`: a creation event that
carries no content. -/
def itemCreatedEvent (eventId id role : String) : JSVal :=
  .obj [("type", .str "conversation.item.created"), ("event_id", .str eventId),
    ("item", .obj [("id", .str id), ("role", .str role)]), ("previous_item_id", .null)]

/-- `{type, event_id, item:{id, role, content}, previous_item_id}`: a creation
event whose content is one inline text part. -/
def itemCreatedTextEvent (eventId id role text : String) : JSVal :=
  .obj [("type", .str "conversation.item.created"), ("event_id", .str eventId),
    ("item", .obj [("id", .str id), ("role", .str role),
      ("content", .arr [.obj [("type", .str "input_text"), ("text", .str text)]])]),
    ("previous_item_id", .null)]

/-- `{type, event_id, item_id, delta}` of type `response.audio_transcript.delta`. -/
def transcriptDeltaEvent (eventId itemId delta : String) : JSVal :=
  .obj [("type", .str "response.audio_transcript.delta"), ("event_id", .str eventId),
    ("item_id", .str itemId), ("delta", .str delta)]

/-- `{type, event_id, item_id, transcript}` of type `response.audio_transcript.done`. -/
def transcriptDoneEvent (eventId itemId transcript : String) : JSVal :=
  .obj [("type", .str "response.audio_transcript.done"), ("event_id", .str eventId),
    ("item_id", .str itemId), ("transcript", .str transcript)]

/-- `{type, event_id, item_id, delta}` of type `response.audio.delta`. -/
def audioDeltaEvent (eventId itemId delta : String) : JSVal :=
  .obj [("type", .str "response.audio.delta"), ("event_id", .str eventId),
    ("item_id", .str itemId), ("delta", .str delta)]

/-- `{type, event_id, item_id}` of type `response.audio.done`. -/
def audioDoneEvent (eventId itemId : String) : JSVal :=
  .obj [("type", .str "response.audio.done"), ("event_id", .str eventId), ("item_id", .str itemId)]

/-- The six frames of the end-to-end scenario of the spec, as payload texts (braces
are written as the escapes `x7b` and `x7d`):
`{"type":"session.created","session":{"id":"S1"}}`,
`{"type":"conversation.item.created","event_id":"E2","item":{"id":"I1","role":"user",
"content":[{"type":"input_text","text":"Hi"}]},"previous_item_id":null}`,
`{"type":"conversation.item.created","event_id":"E3","item":{"id":"I2","role":"assistant"},
"previous_item_id":"I1"}`,
`{"type":"response.audio.delta","event_id":"E4","item_id":"I2","delta":"AQACAA=="}`,
`{"type":"response.audio.delta","event_id":"E5","item_id":"I2","delta":"AwAEAA=="}`,
`{"type":"response.audio.done","event_id":"E6","item_id":"I2"}`.
The two audio chunks are the base64 forms of the bytes `01 00 02 00` and `03 00 04 00`. -/
def scenarioFrames : List (Option String) := [
  some "\x7b\"type\":\"session.created\",\"session\":\x7b\"id\":\"S1\"\x7d\x7d",
  some "\x7b\"type\":\"conversation.item.created\",\"event_id\":\"E2\",\"item\":\x7b\"id\":\"I1\",\"role\":\"user\",\"content\":[\x7b\"type\":\"input_text\",\"text\":\"Hi\"\x7d]\x7d,\"previous_item_id\":null\x7d",
  some "\x7b\"type\":\"conversation.item.created\",\"event_id\":\"E3\",\"item\":\x7b\"id\":\"I2\",\"role\":\"assistant\"\x7d,\"previous_item_id\":\"I1\"\x7d",
  some "\x7b\"type\":\"response.audio.delta\",\"event_id\":\"E4\",\"item_id\":\"I2\",\"delta\":\"AQACAA==\"\x7d",
  some "\x7b\"type\":\"response.audio.delta\",\"event_id\":\"E5\",\"item_id\":\"I2\",\"delta\":\"AwAEAA==\"\x7d",
  some "\x7b\"type\":\"response.audio.done\",\"event_id\":\"E6\",\"item_id\":\"I2\"\x7d"]

/-- `{type}`. -/
def bareEvent (type : String) : JSVal :=
  .obj [("type", .str type)]

/-- The value `parsedData.item.id` of a creation frame. -/
def creationIdOf (parsedData : JSVal) : JSVal :=
  fieldOf (fieldOf parsedData "item") "id"

/-- The identity fields of an item are those of an earlier version of it. -/
def SameIdentity (old new : Item) : Prop :=
  new.itemId = old.itemId ∧ new.role = old.role ∧
  new.previousItemId = old.previousItemId ∧ new.msgType = old.msgType

/-- The state after a `session.created` frame with session id `id`. -/
def resetSession (id : JSVal) (w : World) : World :=
  { currentSessionId := id, currentSessionList := { id := id, message := [] },
    interruptCount := w.interruptCount }

/-- The state with the given list of items. -/
def withItems (items : List Item) (w : World) : World :=
  { w with currentSessionList := { w.currentSessionList with message := items } }

/-- What an update frame may do to one entry: leave it as it is when it does not
pass the guard, or else rewrite it keeping its identity fields and keeping its
`audioFinal` as a prefix of the new one. -/
def UpdatedBy (currentItemId : JSVal) (old new : Item) : Prop :=
  (old.isTarget currentItemId = false ∧ new = old) ∨
  (old.isTarget currentItemId = true ∧ SameIdentity old new ∧
    old.audioFinal.getD [] <+: new.audioFinal.getD [])

/-- A `session.created` frame whose `session.id` reads as `id`. -/
def IsSessionCreated (parsedData : JSVal) (id : JSVal) : Prop :=
  HasType parsedData "session.created" ∧ getProp (fieldOf parsedData "session") "id" = .ok id

/-- Is the frame of type `conversation.item.created`? -/
def isCreationFrame (parsedData : JSVal) : Bool :=
  match getProp parsedData "type" with
  | .ok type => jsStrictEq type (.str "conversation.item.created")
  | .error _ => false

/-- The item ids carried by the creation frames of a sequence, in order. -/
def creationIds (events : List JSVal) : List JSVal :=
  (events.filter isCreationFrame).map creationIdOf

/-- No two ids of the list are the same (`===`). -/
def DistinctIds (ids : List JSVal) : Prop :=
  ids.Pairwise (fun a b => jsStrictEq a b = false)

/-- The item ids of the session, in order. -/
def World.itemIds (w : World) : List JSVal := w.items.map (fun it => it.itemId)

/-- A `response.audio.done` event for item `itemId`. -/
def IsAudioDone (parsedData : JSVal) (itemId : String) : Prop :=
  HasType parsedData "response.audio.done" ∧ fieldOf parsedData "item_id" = .str itemId

/-- A `conversation.item.input_audio_transcription.completed` event for item
`itemId` carrying `transcript`. -/
def IsInputTranscription (parsedData : JSVal) (itemId : String) (transcript : JSVal) : Prop :=
  HasType parsedData "conversation.item.input_audio_transcription.completed" ∧
  fieldOf parsedData "item_id" = .str itemId ∧ fieldOf parsedData "transcript" = transcript

/-- `{type, event_id, item_id, transcript}` of type
`conversation.item.input_audio_transcription.completed`. -/
def inputTranscriptionEvent (eventId itemId transcript : String) : JSVal :=
  .obj [("type", .str "conversation.item.input_audio_transcription.completed"),
    ("event_id", .str eventId), ("item_id", .str itemId), ("transcript", .str transcript)]

/-- The event types of the wire contract for which a frame that carries only its
`type` is processed without an exception. -/
def bareSafeTypes : List String :=
  ["response.audio_transcript.delta", "response.audio_transcript.done", "response.audio.done",
    "conversation.item.input_audio_transcription.completed", "input_audio_buffer.speech_started",
    "input_audio_buffer.speech_stopped", "response.created", "response.done"]

/-- A state used to instantiate the statements: item `I1` in the middle of both a
text and an audio episode. -/
def streamingWorld : World :=
  processEvents oneItemWorld
    [transcriptDeltaEvent "E2" "I1" "He", audioDeltaEvent "E3" "I1" "AQACAA=="]


/-! ## Whole-trace notions: channels, streaming flag, interrupts -/

/-- What an update frame does to an entry that passes its guard: the identity
fields are kept, the previous `audioFinal` is a prefix of the new one, and
`isStreaming` becomes true on a delta, false on a done event, and is kept by an
input transcription. -/
def Rewritten (parsedData : JSVal) (old new : Item) : Prop :=
  SameIdentity old new ∧
  old.audioFinal.getD [] <+: new.audioFinal.getD [] ∧
  ((HasType parsedData "response.audio_transcript.delta" ∨
      HasType parsedData "response.audio.delta") → new.isStreaming = true) ∧
  ((HasType parsedData "response.audio_transcript.done" ∨
      HasType parsedData "response.audio.done") → new.isStreaming = false) ∧
  (HasType parsedData "conversation.item.input_audio_transcription.completed" →
    new.isStreaming = old.isStreaming)

/-- What a frame other than `session.created` does to an entry already present: it
leaves it as it is, or (an update frame whose guard the entry passes) rewrites it. -/
def ItemStep (parsedData : JSVal) (old new : Item) : Prop :=
  new = old ∨
  (IsUpdateEvent parsedData ∧ old.isTarget (fieldOf parsedData "item_id") = true ∧
    Rewritten parsedData old new)

/-- Is the frame of type `type` and addressed to item `itemId`? -/
def frameIs (parsedData : JSVal) (type itemId : String) : Bool :=
  jsStrictEq (fieldOf parsedData "type") (.str type) &&
    jsStrictEq (fieldOf parsedData "item_id") (.str itemId)

/-- Following the spec's words: a channel of item `itemId` is open after `events`
when it "has received a delta with no later done event on that channel";
`deltaType` and `doneType` are the two event types of the channel. -/
def channelOpen (deltaType doneType itemId : String) (events : List JSVal) : Bool :=
  events.foldl (fun isOpen ev =>
    if frameIs ev deltaType itemId then true
    else if frameIs ev doneType itemId then false else isOpen) false

/-- A delta event of either channel for item `itemId`. -/
def isDeltaFor (parsedData : JSVal) (itemId : String) : Bool :=
  frameIs parsedData "response.audio_transcript.delta" itemId ||
    frameIs parsedData "response.audio.delta" itemId

/-- A done event of either channel for item `itemId`. -/
def isDoneFor (parsedData : JSVal) (itemId : String) : Bool :=
  frameIs parsedData "response.audio_transcript.done" itemId ||
    frameIs parsedData "response.audio.done" itemId

/-- Was the most recent delta or done event for item `itemId`, on either channel,
a delta?  `init` is the answer before the first of `events`. -/
def lastWasDelta (itemId : String) (init : Bool) (events : List JSVal) : Bool :=
  events.foldl (fun b ev =>
    if isDeltaFor ev itemId then true else if isDoneFor ev itemId then false else b) init

/-- Does the frame have one of the two types whose handler calls `interrupt()`? -/
def isInterruptFrame (parsedData : JSVal) : Bool :=
  jsStrictEq (fieldOf parsedData "type") (.str "input_audio_buffer.speech_started") ||
    jsStrictEq (fieldOf parsedData "type") (.str "response.created")

/-- The nine event types that have a handler with an effect. -/
def effectTypes : List String :=
  ["session.created", "conversation.item.created", "response.audio_transcript.delta",
    "response.audio_transcript.done", "response.audio.delta", "response.audio.done",
    "conversation.item.input_audio_transcription.completed",
    "input_audio_buffer.speech_started", "response.created"]

/-- `{type, event_id, item:{id, role, content: []}, previous_item_id}`: a creation
event whose content is present and is the empty list. -/
def itemCreatedEmptyContentEvent (eventId id role : String) : JSVal :=
  .obj [("type", .str "conversation.item.created"), ("event_id", .str eventId),
    ("item", .obj [("id", .str id), ("role", .str role), ("content", .arr [])]),
    ("previous_item_id", .null)]

/-- Payload text of a user creation frame with empty content (braces are written as
the escapes `x7b` and `x7d`):
`{"type":"conversation.item.created","event_id":"E1","item":{"id":"I1","role":"user",
"content":[]},"previous_item_id":null}`. -/
def emptyContentFrame : String :=
  "\x7b\"type\":\"conversation.item.created\",\"event_id\":\"E1\",\"item\":\x7b\"id\":\"I1\",\"role\":\"user\",\"content\":[]\x7d,\"previous_item_id\":null\x7d"

/-! ## Payload texts used to instantiate the statements -/

/-- Payload text of a JSON object whose values are strings free of escapes:
`{"k1":"v1","k2":"v2"}` for the fields `[(k1, v1), (k2, v2)]`. -/
def frameText (fields : List (String × String)) : String :=
  "\x7b" ++ ",".intercalate (fields.map (fun kv => "\"" ++ kv.1 ++ "\":\"" ++ kv.2 ++ "\"")) ++ "\x7d"

/-- The event `frameText fields` decodes to. -/
def frameEvent (fields : List (String × String)) : JSVal :=
  .obj (fields.map (fun kv => (kv.1, .str kv.2)))

/-- Payload text of a creation frame with an empty content list (braces are written
as the escapes `x7b` and `x7d`):
`{"type":"conversation.item.created","event_id":E,"item":{"id":I,"role":R,
"content":[]},"previous_item_id":null}`. -/
def emptyContentFrameText (eventId id role : String) : String :=
  "\x7b\"type\":\"conversation.item.created\",\"event_id\":\"" ++ eventId ++
    "\",\"item\":\x7b\"id\":\"" ++ id ++ "\",\"role\":\"" ++ role ++
    "\",\"content\":[]\x7d,\"previous_item_id\":null\x7d"

/-- Payload text of a creation frame without content:
`{"type":"conversation.item.created","event_id":E,"item":{"id":I,"role":R},
"previous_item_id":null}`. -/
def itemCreatedFrameText (eventId id role : String) : String :=
  "\x7b\"type\":\"conversation.item.created\",\"event_id\":\"" ++ eventId ++
    "\",\"item\":\x7b\"id\":\"" ++ id ++ "\",\"role\":\"" ++ role ++
    "\"\x7d,\"previous_item_id\":null\x7d"

/-- Payload text of a `session.created` frame: `{"type":"session.created",
"session":{"id":S}}`. -/
def sessionCreatedFrameText (id : String) : String :=
  "\x7b\"type\":\"session.created\",\"session\":\x7b\"id\":\"" ++ id ++ "\"\x7d\x7d"

/-! ## Laws of the effect monad -/

theorem Eff.eval_ok {α : Type} (a : α) : Eff.eval (Except.ok a) = (pure a : Eff α) := rfl

/-! ## Laws of the dispatch -/

theorem isObj_of_hasType {pd : JSVal} {name : String} (h : HasType pd name) :
    ∃ props, pd = .obj props := by
  cases pd <;> simp [HasType, getProp] at h
  exact ⟨_, rfl⟩

theorem getProp_of_hasType {pd : JSVal} {name : String} (h : HasType pd name) (k : String) :
    getProp pd k = .ok (fieldOf pd k) := by
  obtain ⟨props, rfl⟩ := isObj_of_hasType h
  rfl

theorem fieldOf_type {pd : JSVal} {name : String} (h : HasType pd name) :
    fieldOf pd "type" = .str name := by
  unfold fieldOf
  rw [h]

theorem typeIs_of_hasType {pd : JSVal} {name : String} (h : HasType pd name) (n : String) :
    typeIs pd n = pure (name == n) := by
  unfold typeIs
  rw [h]
  rfl

theorem effectBody_sessionCreated {pd : JSVal}
    (h : HasType pd "session.created") : effectBody pd = onSessionCreated pd := by
  simp [effectBody, typeIs_of_hasType h]

theorem effectBody_itemCreated {pd : JSVal}
    (h : HasType pd "conversation.item.created") : effectBody pd = onItemCreated pd := by
  simp [effectBody, typeIs_of_hasType h]

theorem effectBody_transcriptDelta {pd : JSVal}
    (h : HasType pd "response.audio_transcript.delta") : effectBody pd = onTranscriptDelta pd := by
  simp [effectBody, typeIs_of_hasType h]

theorem effectBody_transcriptDone {pd : JSVal}
    (h : HasType pd "response.audio_transcript.done") : effectBody pd = onTranscriptDone pd := by
  simp [effectBody, typeIs_of_hasType h]

theorem effectBody_audioDelta {pd : JSVal}
    (h : HasType pd "response.audio.delta") : effectBody pd = onAudioDelta pd := by
  simp [effectBody, typeIs_of_hasType h]

theorem effectBody_audioDone {pd : JSVal}
    (h : HasType pd "response.audio.done") : effectBody pd = onAudioDone pd := by
  simp [effectBody, typeIs_of_hasType h]

theorem effectBody_inputTranscription {pd : JSVal}
    (h : HasType pd "conversation.item.input_audio_transcription.completed") :
    effectBody pd = onInputTranscriptionCompleted pd := by
  simp [effectBody, typeIs_of_hasType h]

theorem effectBody_speechStarted {pd : JSVal}
    (h : HasType pd "input_audio_buffer.speech_started") : effectBody pd = interrupt := by
  simp [effectBody, typeIs_of_hasType h]

theorem effectBody_responseCreated {pd : JSVal}
    (h : HasType pd "response.created") : effectBody pd = interrupt := by
  simp [effectBody, typeIs_of_hasType h]

/-! ## The updater `prev.message.map` -/

theorem arrayMap_of_forall (g : Item → Except JSError Item) (f : Item → Item) (l : List Item)
    (h : ∀ x ∈ l, g x = .ok (f x)) : arrayMap g l = .ok (l.map f) := by
  induction l with
  | nil => rfl
  | cons x xs ih =>
    have hx := h x (List.mem_cons_self x xs)
    have hxs := ih (fun y hy => h y (List.mem_cons_of_mem x hy))
    simp only [arrayMap, hx, hxs, List.map_cons]
    rfl

theorem mapTargets_of_forall (i : JSVal) (transform : Item → Except JSError Item) (g : Item → Item)
    (prev : Session)
    (h : ∀ it ∈ prev.message, it.isTarget i = true → transform it = .ok (g it)) :
    mapTargets i transform prev
      = .ok { prev with message := prev.message.map (fun it => if it.isTarget i then g it else it) } := by
  unfold mapTargets
  rw [arrayMap_of_forall _ (fun it => if it.isTarget i then g it else it)]
  · rfl
  · intro it hit
    by_cases ht : it.isTarget i = true
    · simp [ht, h it hit ht]
    · simp [ht]

theorem mapTargets_no_target (i : JSVal) (transform : Item → Except JSError Item) (prev : Session)
    (h : ∀ it ∈ prev.message, jsStrictEq it.itemId i = false) :
    mapTargets i transform prev = .ok prev := by
  rw [mapTargets_of_forall i transform id prev]
  · have : prev.message.map (fun it => if it.isTarget i then id it else it) = prev.message := by
      conv_rhs => rw [← List.map_id prev.message]
      apply List.map_congr_left
      intro it _
      simp
    rw [this]
  · intro it hit ht
    simp [Item.isTarget, h it hit] at ht

/-- What a store update leaves when the updater returns. -/
theorem setCurrentSessionList_ok (u : Session → Except JSError Session) (w : World) (next : Session)
    (h : u w.currentSessionList = .ok next) :
    setCurrentSessionList u w = (.ok (), { w with currentSessionList := next }) := by
  unfold setCurrentSessionList
  rw [h]

/-! ## The update handlers, event type by event type -/

theorem onTranscriptDelta_eq {pd : JSVal} {name : String} (h : HasType pd name) :
    onTranscriptDelta pd = setCurrentSessionList (mapTargets (fieldOf pd "item_id") (fun item => do
      let textDelta ← jsConcat (item.textDelta.getD "") (fieldOf pd "delta")
      pure { item with
        eventId := fieldOf pd "event_id"
        eventName := fieldOf pd "type"
        textDelta := some textDelta
        isStreaming := true })) := by
  simp only [onTranscriptDelta, getProp_of_hasType h, Eff.eval_ok, pure_bind]

theorem onTranscriptDone_eq {pd : JSVal} {name : String} (h : HasType pd name) :
    onTranscriptDone pd = setCurrentSessionList (mapTargets (fieldOf pd "item_id") (fun item =>
      pure { item with
        eventId := fieldOf pd "event_id"
        eventName := fieldOf pd "type"
        textDelta := none
        textFinal := fieldOf pd "transcript"
        isStreaming := false })) := by
  simp only [onTranscriptDone, getProp_of_hasType h, Eff.eval_ok, pure_bind]

theorem onAudioDone_eq {pd : JSVal} {name : String} (h : HasType pd name) :
    onAudioDone pd = setCurrentSessionList (mapTargets (fieldOf pd "item_id") (fun item =>
      pure { item with
        eventId := fieldOf pd "event_id"
        eventName := fieldOf pd "type"
        audioDelta := none
        isStreaming := false })) := by
  simp only [onAudioDone, getProp_of_hasType h, Eff.eval_ok, pure_bind]

theorem onInputTranscriptionCompleted_eq {pd : JSVal} {name : String} (h : HasType pd name) :
    onInputTranscriptionCompleted pd
      = setCurrentSessionList (mapTargets (fieldOf pd "item_id") (fun item =>
      pure { item with
        eventId := fieldOf pd "event_id"
        eventName := fieldOf pd "type"
        textFinal := fieldOf pd "transcript" })) := by
  simp only [onInputTranscriptionCompleted, getProp_of_hasType h, Eff.eval_ok, pure_bind]

theorem onAudioDelta_eq {pd : JSVal} {name : String} (h : HasType pd name) :
    onAudioDelta pd = (do
      let audioInt16ArrayBuffer ← Eff.eval (decodeChunk (fieldOf pd "delta"))
      setCurrentSessionList (mapTargets (fieldOf pd "item_id") (fun item =>
        pure { item with
          eventId := fieldOf pd "event_id"
          eventName := fieldOf pd "type"
          audioDelta := some audioInt16ArrayBuffer
          audioFinal := some (mergeInt16Arrays (item.audioFinal.getD []) audioInt16ArrayBuffer)
          isStreaming := true }))) := by
  simp only [onAudioDelta, getProp_of_hasType h, Eff.eval_ok, pure_bind, decodeChunk]
  funext w
  cases hb : base64ToArrayBuffer (fieldOf pd "delta") with
  | error e => rfl
  | ok bytes =>
    cases hn : newInt16Array bytes with
    | error e =>
      simp [Eff.eval, bind, Except.bind, hn]
    | ok samples =>
      simp [Eff.eval, bind, Except.bind, hn]

theorem setCurrentSessionList_no_target (i : JSVal) (transform : Item → Except JSError Item)
    (w : World) (h : ∀ it ∈ w.items, jsStrictEq it.itemId i = false) :
    setCurrentSessionList (mapTargets i transform) w = (.ok (), w) := by
  rw [setCurrentSessionList_ok _ w w.currentSessionList (mapTargets_no_target i transform _ h)]

theorem isTarget_update (it : Item) (i : JSVal) (g : Item → Item)
    (hm : (g it).msgType = it.msgType) (hi : (g it).itemId = it.itemId) :
    (g it).isTarget i = it.isTarget i := by
  simp [Item.isTarget, hm, hi]

/-- An update whose transform cannot throw rewrites exactly the targets. -/
theorem outcome_update (i : JSVal) (g : Item → Item) (w : World) :
    (setCurrentSessionList (mapTargets i (fun item => pure (g item)))).outcome w
      = { world := updateTargets i g w, raised := none } := by
  unfold Eff.outcome
  rw [setCurrentSessionList_ok (mapTargets i (fun item => pure (g item))) w _
    (mapTargets_of_forall i (fun item => pure (g item)) g _ (fun _ _ _ => rfl))]
  rfl

/-- What `response.audio_transcript.done` does to a state. -/
theorem processEvent_transcriptDone (w : World) (pd : JSVal)
    (hty : HasType pd "response.audio_transcript.done") :
    processEvent w pd =
      { world := updateTargets (fieldOf pd "item_id") (fun it =>
          { it with
            eventId := fieldOf pd "event_id"
            eventName := .str "response.audio_transcript.done"
            textDelta := none
            textFinal := fieldOf pd "transcript"
            isStreaming := false }) w,
        raised := none } := by
  unfold processEvent
  rw [effectBody_transcriptDone hty, onTranscriptDone_eq hty, fieldOf_type hty]
  exact outcome_update _ _ w

/-- What a `response.audio_transcript.delta` carrying a string does to a state. -/
theorem processEvent_transcriptDelta (w : World) (pd : JSVal) (itemId delta : String)
    (h : IsTranscriptDelta pd itemId delta) :
    processEvent w pd =
      { world := updateTargets (.str itemId) (fun it =>
          { it with
            eventId := fieldOf pd "event_id"
            eventName := .str "response.audio_transcript.delta"
            textDelta := some (it.textDelta.getD "" ++ delta)
            isStreaming := true }) w,
        raised := none } := by
  obtain ⟨hty, hid, hd⟩ := h
  unfold processEvent
  rw [effectBody_transcriptDelta hty, onTranscriptDelta_eq hty, hid, hd, fieldOf_type hty]
  exact outcome_update _ _ w

/-- What a `response.audio.delta` carrying a decodable chunk does to a state. -/
theorem processEvent_audioDelta (w : World) (pd : JSVal) (itemId delta : String)
    (samples : Int16Array) (h : IsAudioDelta pd itemId delta)
    (hs : decodeChunk (.str delta) = .ok samples) :
    processEvent w pd =
      { world := updateTargets (.str itemId) (fun it =>
          { it with
            eventId := fieldOf pd "event_id"
            eventName := .str "response.audio.delta"
            audioDelta := some samples
            audioFinal := some (mergeInt16Arrays (it.audioFinal.getD []) samples)
            isStreaming := true }) w,
        raised := none } := by
  obtain ⟨hty, hid, hd⟩ := h
  unfold processEvent
  rw [effectBody_audioDelta hty, onAudioDelta_eq hty, hid, hd, fieldOf_type hty, hs, Eff.eval_ok,
    pure_bind]
  exact outcome_update _ _ w

/-- The hook body on a creation event, up to the reading of the content. -/
theorem onItemCreated_eq {pd : JSVal} {role : String} {id : JSVal} (h : IsCreation pd role id) :
    effectBody pd = (do
      let userContent ← Eff.eval (optionalAt0Text (contentOf pd))
      if jsStrictEq (.str role) (.str "assistant") then
        setCurrentSessionList (appendItem
          { msgType := .str "realtime"
            eventId := fieldOf pd "event_id"
            eventName := .str "conversation.item.created"
            itemId := id
            previousItemId := fieldOf pd "previous_item_id"
            role := .str role
            isStreaming := false })
      if jsStrictEq (.str role) (.str "user") then
        setCurrentSessionList (appendItem
          { msgType := .str "realtime"
            eventId := fieldOf pd "event_id"
            eventName := .str "conversation.item.created"
            itemId := id
            previousItemId := fieldOf pd "previous_item_id"
            role := .str role
            isStreaming := false
            textFinal := userContent })) := by
  obtain ⟨hty, props, hitem, hid, hr⟩ := h
  have hg : ∀ k, getProp (.obj props) k = .ok (fieldOf (.obj props) k) := fun k => rfl
  rw [effectBody_itemCreated hty]
  unfold onItemCreated contentOf
  simp only [getProp_of_hasType hty, Eff.eval_ok, pure_bind, hitem, fieldOf_type hty, hg, hid, hr]

/-- A creation event whose content can be read appends one item. -/
theorem processEvent_creation_ok (w : World) (pd : JSVal) (role : String) (id uc : JSVal)
    (h : IsCreation pd role id) (hrole : role = "assistant" ∨ role = "user")
    (huc : optionalAt0Text (contentOf pd) = .ok uc) :
    processEvent w pd =
      { world := pushItem
          { msgType := .str "realtime"
            eventId := fieldOf pd "event_id"
            eventName := .str "conversation.item.created"
            itemId := id
            previousItemId := fieldOf pd "previous_item_id"
            role := .str role
            isStreaming := false
            textFinal := if role = "user" then uc else .undefined } w,
        raised := none } := by
  unfold processEvent
  rw [onItemCreated_eq h, huc, Eff.eval_ok, pure_bind]
  rcases hrole with rfl | rfl
  · simp [jsStrictEq]
    rfl
  · simp [jsStrictEq]
    rfl

/-- A creation event whose content cannot be read throws and stores nothing. -/
theorem processEvent_creation_throws (w : World) (pd : JSVal) (role : String) (id : JSVal)
    (e : JSError) (h : IsCreation pd role id)
    (huc : optionalAt0Text (contentOf pd) = .error e) :
    processEvent w pd = { world := w, raised := some e } := by
  unfold processEvent
  rw [onItemCreated_eq h, huc]
  rfl

/-- Content in the wire form can be read. -/
theorem contentOk_readable (content : JSVal) (hc : ContentOk content) :
    ∃ uc, optionalAt0Text content = .ok uc := by
  rcases hc with hc | hc | ⟨first, rest, hc, h1, h2⟩
  · rw [hc]; exact ⟨_, rfl⟩
  · rw [hc]; exact ⟨_, rfl⟩
  · rw [hc]
    cases first with
    | undefined => exact absurd rfl h1
    | null => exact absurd rfl h2
    | _ => exact ⟨_, rfl⟩

/-- What a creation event in the wire form does to a state. -/
theorem processEvent_itemCreated (w : World) (pd : JSVal) (role : String) (id : JSVal)
    (h : IsItemCreated pd role id) (hrole : role = "assistant" ∨ role = "user") :
    processEvent w pd =
      { world := pushItem
          { msgType := .str "realtime"
            eventId := fieldOf pd "event_id"
            eventName := .str "conversation.item.created"
            itemId := id
            previousItemId := fieldOf pd "previous_item_id"
            role := .str role
            isStreaming := false
            textFinal := if role = "user" then userContentOf pd else .undefined } w,
        raised := none } := by
  obtain ⟨uc, huc⟩ := contentOk_readable _ h.2
  have huc' : userContentOf pd = uc := by
    unfold userContentOf
    rw [huc]
  rw [huc']
  exact processEvent_creation_ok w pd role id uc h.1 hrole huc

/-! ## Sequences of events -/

theorem processEvents_cons (w : World) (ev : JSVal) (rest : List JSVal) :
    processEvents w (ev :: rest) = processEvents (processEvent w ev).world rest := rfl

theorem processEvents_append (w : World) (l1 l2 : List JSVal) :
    processEvents w (l1 ++ l2) = processEvents (processEvents w l1) l2 := by
  unfold processEvents
  rw [List.foldl_append]

theorem allProcessed_cons_of_ok (w w1 : World) (ev : JSVal) (rest : List JSVal)
    (h : processEvent w ev = { world := w1, raised := none }) :
    allProcessed w (ev :: rest) = allProcessed w1 rest := by
  simp [allProcessed, h]

theorem allProcessed_append (w : World) (l1 l2 : List JSVal) :
    allProcessed w (l1 ++ l2) = (allProcessed w l1 && allProcessed (processEvents w l1) l2) := by
  induction l1 generalizing w with
  | nil => simp [allProcessed, processEvents]
  | cons ev rest ih =>
    simp only [List.cons_append, allProcessed, processEvents_cons]
    cases (processEvent w ev).raised with
    | none => exact ih _
    | some e => simp

theorem items_pushItem (item : Item) (w : World) : (pushItem item w).items = w.items ++ [item] := rfl

theorem items_updateTargets (i : JSVal) (g : Item → Item) (w : World) :
    (updateTargets i g w).items = w.items.map (fun it => if it.isTarget i then g it else it) := rfl

theorem isTarget_str_self (it : Item) (I : String) (hm : it.msgType = .str "realtime")
    (hi : it.itemId = .str I) : it.isTarget (.str I) = true := by
  simp [Item.isTarget, hm, hi, jsStrictEq]

/-- An update aimed at the last item, the earlier ones having other ids. -/
theorem map_targets_append_last (i : JSVal) (g : Item → Item) (old : List Item) (it : Item)
    (hold : ∀ x ∈ old, jsStrictEq x.itemId i = false) (hit : it.isTarget i = true) :
    (old ++ [it]).map (fun x => if x.isTarget i then g x else x) = old ++ [g it] := by
  rw [List.map_append]
  congr 1
  · conv_rhs => rw [← List.map_id old]
    apply List.map_congr_left
    intro x hx
    simp [Item.isTarget, hold x hx]
  · simp [hit]

/-- Creation events that are all processed append their ids in that order. -/
theorem creation_ids (w : World) (events : List JSVal) (ids : List JSVal)
    (hev : List.Forall₂
      (fun ev id => IsCreation ev "user" id ∨ IsCreation ev "assistant" id) events ids)
    (hall : allProcessed w events = true) :
    (processEvents w events).items.map (fun it => it.itemId)
      = w.items.map (fun it => it.itemId) ++ ids := by
  induction hev generalizing w with
  | nil => simp [processEvents]
  | @cons ev id evs ids hhead _ ih =>
    have hstep : (∃ item : Item, item.itemId = id ∧
        processEvent w ev = { world := pushItem item w, raised := none }) ∨
        ∃ e, processEvent w ev = { world := w, raised := some e } := by
      cases huc : optionalAt0Text (contentOf ev) with
      | ok uc =>
        left
        rcases hhead with h | h
        · exact ⟨_, rfl, processEvent_creation_ok w ev "user" id uc h (Or.inr rfl) huc⟩
        · exact ⟨_, rfl, processEvent_creation_ok w ev "assistant" id uc h (Or.inl rfl) huc⟩
      | error e =>
        right
        rcases hhead with h | h
        · exact ⟨e, processEvent_creation_throws w ev "user" id e h huc⟩
        · exact ⟨e, processEvent_creation_throws w ev "assistant" id e h huc⟩
    rcases hstep with ⟨item, hid, hp⟩ | ⟨e, hp⟩
    · rw [allProcessed_cons_of_ok w _ ev evs hp] at hall
      rw [processEvents_cons, hp, ih _ hall, items_pushItem, List.map_append]
      simp [hid]
    · simp [allProcessed, hp] at hall

/-- Creation events in the wire form are all processed. -/
theorem creation_all_processed (w : World) (events : List JSVal) (ids : List JSVal)
    (hev : List.Forall₂
      (fun ev id => IsCreation ev "user" id ∨ IsCreation ev "assistant" id) events ids)
    (hok : ∀ ev ∈ events, ContentOk (contentOf ev)) :
    allProcessed w events = true := by
  induction hev generalizing w with
  | nil => rfl
  | @cons ev id evs ids hhead _ ih =>
    have hc := hok ev (List.mem_cons_self ev evs)
    have hstep : ∃ item : Item, processEvent w ev = { world := pushItem item w, raised := none } := by
      rcases hhead with h | h
      · exact ⟨_, processEvent_itemCreated w ev "user" id ⟨h, hc⟩ (Or.inr rfl)⟩
      · exact ⟨_, processEvent_itemCreated w ev "assistant" id ⟨h, hc⟩ (Or.inl rfl)⟩
    obtain ⟨item, hp⟩ := hstep
    rw [allProcessed_cons_of_ok w _ ev evs hp]
    exact ih _ (fun ev1 h1 => hok ev1 (List.mem_cons_of_mem ev h1))

/-- Transcript deltas aimed at the last item keep the list in shape. -/
theorem transcript_deltas_on_last (I : String) (old : List Item) (events : List JSVal)
    (ds : List String) (hev : List.Forall₂ (fun ev d => IsTranscriptDelta ev I d) events ds)
    (hold : ∀ x ∈ old, jsStrictEq x.itemId (.str I) = false) (w : World) (it : Item)
    (hw : w.items = old ++ [it]) (hm : it.msgType = .str "realtime") (hi : it.itemId = .str I) :
    allProcessed w events = true ∧
    ∃ it1 : Item, (processEvents w events).items = old ++ [it1] ∧
      it1.msgType = .str "realtime" ∧ it1.itemId = .str I ∧ it1.role = it.role := by
  induction hev generalizing w it with
  | nil => exact ⟨rfl, it, hw, hm, hi, rfl⟩
  | @cons ev d evs ds hhead _ ih =>
    have hp := processEvent_transcriptDelta w ev I d hhead
    rw [allProcessed_cons_of_ok w _ ev evs hp, processEvents_cons, hp]
    have hitems := items_updateTargets (.str I) (fun it =>
          { it with
            eventId := fieldOf ev "event_id"
            eventName := .str "response.audio_transcript.delta"
            textDelta := some (it.textDelta.getD "" ++ d)
            isStreaming := true }) w
    rw [hw, map_targets_append_last _ _ old it hold (isTarget_str_self it I hm hi)] at hitems
    exact ih _ { it with
            eventId := fieldOf ev "event_id"
            eventName := .str "response.audio_transcript.delta"
            textDelta := some (it.textDelta.getD "" ++ d)
            isStreaming := true } hitems hm hi

theorem foldl_append_string (a : String) (l : List String) :
    l.foldl (fun r s => r ++ s) a = a ++ l.foldl (fun r s => r ++ s) "" := by
  induction l generalizing a with
  | nil => simp
  | cons x xs ih =>
    rw [List.foldl_cons, List.foldl_cons, ih (a ++ x), ih ("" ++ x), String.empty_append,
      String.append_assoc]

theorem string_join_cons (d : String) (ds : List String) :
    String.join (d :: ds) = d ++ String.join ds := by
  unfold String.join
  rw [List.foldl_cons, foldl_append_string, String.empty_append]

/-- One step of a pairwise relation between the items before and after. -/
theorem forall₂_after_map {R R1 : Item → Item → Prop} (f : Item → Item) (l l1 : List Item)
    (h : List.Forall₂ R1 (l.map f) l1) (himp : ∀ a b, R1 (f a) b → R a b) :
    List.Forall₂ R l l1 :=
  (List.forall₂_map_left_iff.mp h).imp himp

/-- Transcript deltas for `I` append their texts, in order, to every target. -/
theorem transcript_deltas_rel (I : String) (events : List JSVal) (ds : List String)
    (hev : List.Forall₂ (fun ev d => IsTranscriptDelta ev I d) events ds) (w : World) :
    allProcessed w events = true ∧
    List.Forall₂ (fun old new => old.isTarget (.str I) = true →
        new.textDelta = (if ds = [] then old.textDelta
          else some (old.textDelta.getD "" ++ String.join ds)) ∧
        new.isStreaming = (if ds = [] then old.isStreaming else true))
      w.items (processEvents w events).items := by
  induction hev generalizing w with
  | nil =>
    refine ⟨rfl, List.forall₂_same.mpr ?_⟩
    intro x _ _
    simp
  | @cons ev d evs ds hhead _ ih =>
    have hp := processEvent_transcriptDelta w ev I d hhead
    rw [allProcessed_cons_of_ok w _ ev evs hp, processEvents_cons, hp]
    refine ⟨(ih _).1, ?_⟩
    have h2 := (ih (updateTargets (.str I) (fun it =>
          { it with
            eventId := fieldOf ev "event_id"
            eventName := .str "response.audio_transcript.delta"
            textDelta := some (it.textDelta.getD "" ++ d)
            isStreaming := true }) w)).2
    rw [items_updateTargets] at h2
    refine forall₂_after_map _ _ _ h2 ?_
    intro a b hab ha
    simp only [ha, if_true] at hab
    have hb := hab (by simpa [Item.isTarget] using ha)
    simp only [Option.getD_some] at hb
    rw [hb.1, hb.2]
    by_cases hds : ds = []
    · subst hds
      simp [string_join_cons, String.join]
    · simp [hds, string_join_cons, String.append_assoc]

/-- Audio deltas for `I` append their samples, in order, to every target. -/
theorem audio_deltas_rel (I : String) (events : List JSVal) (chunks : List (String × Int16Array))
    (hev : List.Forall₂
      (fun ev c => IsAudioDelta ev I c.1 ∧ decodeChunk (.str c.1) = .ok c.2) events chunks)
    (w : World) :
    allProcessed w events = true ∧
    List.Forall₂ (fun old new => old.isTarget (.str I) = true →
        new.audioFinal = (if chunks = [] then old.audioFinal
          else some (old.audioFinal.getD [] ++ (chunks.map Prod.snd).flatten)))
      w.items (processEvents w events).items := by
  induction hev generalizing w with
  | nil =>
    refine ⟨rfl, List.forall₂_same.mpr ?_⟩
    intro x _ _
    simp
  | @cons ev c evs cs hhead _ ih =>
    have hp := processEvent_audioDelta w ev I c.1 c.2 hhead.1 hhead.2
    rw [allProcessed_cons_of_ok w _ ev evs hp, processEvents_cons, hp]
    refine ⟨(ih _).1, ?_⟩
    have h2 := (ih (updateTargets (.str I) (fun it =>
          { it with
            eventId := fieldOf ev "event_id"
            eventName := .str "response.audio.delta"
            audioDelta := some c.2
            audioFinal := some (mergeInt16Arrays (it.audioFinal.getD []) c.2)
            isStreaming := true }) w)).2
    rw [items_updateTargets] at h2
    refine forall₂_after_map _ _ _ h2 ?_
    intro a b hab ha
    simp only [ha, if_true] at hab
    have hb := hab (by simpa [Item.isTarget] using ha)
    simp only [Option.getD_some] at hb
    rw [hb]
    by_cases hcs : cs = []
    · subst hcs
      simp [mergeInt16Arrays]
    · simp [hcs, mergeInt16Arrays, List.append_assoc]

/-! ## Failures of `JSON.parse` -/

namespace JSON

theorem onlySyntax_ok {α : Type} (a : α) : OnlySyntax (Except.ok a : Except JSError α) := by
  intro e h
  cases h

theorem onlySyntax_error {α : Type} : OnlySyntax (Except.error .jsonSyntax : Except JSError α) := by
  intro e h
  injection h with h
  exact h.symm

theorem onlySyntax_ite {α : Type} (c : Prop) [Decidable c] (x y : Except JSError α)
    (hx : OnlySyntax x) (hy : OnlySyntax y) : OnlySyntax (if c then x else y) := by
  split
  · exact hx
  · exact hy

theorem onlySyntax_bind {α β : Type} (x : Except JSError α) (f : α → Except JSError β)
    (hx : OnlySyntax x) (hf : ∀ a, OnlySyntax (f a)) : OnlySyntax (x >>= f) := by
  cases x with
  | error e1 =>
    intro e h
    injection h with h
    rw [← h]
    exact hx e1 rfl
  | ok a => exact hf a

theorem onlySyntax_foldlM {σ α : Type} (f : σ → α → Except JSError σ)
    (hf : ∀ s a, OnlySyntax (f s a)) (l : List α) (s : σ) : OnlySyntax (l.foldlM f s) := by
  induction l generalizing s with
  | nil => exact onlySyntax_ok s
  | cons a rest ih =>
    rw [List.foldlM_cons]
    exact onlySyntax_bind _ _ (hf s a) ih

theorem onlySyntax_deliver (v : JSVal) (stack : List Open) : OnlySyntax (deliver v stack) := by
  unfold deliver
  split
  · exact onlySyntax_ok _
  · exact onlySyntax_ok _
  · exact onlySyntax_ok _
  · exact onlySyntax_error

theorem onlySyntax_buildStep (b : Build) (t : Token) : OnlySyntax (buildStep b t) := by
  unfold buildStep
  split <;> first
    | exact onlySyntax_deliver _ _
    | exact onlySyntax_ok _
    | exact onlySyntax_error

theorem onlySyntax_scanStart (c : Char) : OnlySyntax (scanStart c) := by
  unfold scanStart
  repeat' apply onlySyntax_ite
  all_goals first
    | exact onlySyntax_ok _
    | (split
       · exact onlySyntax_ok _
       · exact onlySyntax_error)

theorem onlySyntax_scanStep (st : Scan) (c : Char) : OnlySyntax (scanStep st c) := by
  unfold scanStep
  split
  · exact onlySyntax_scanStart c
  · exact onlySyntax_error
  · exact onlySyntax_ite _ _ _ (onlySyntax_ok _) onlySyntax_error
  · exact onlySyntax_ite _ _ _ (onlySyntax_ok _) onlySyntax_error
  · repeat' apply onlySyntax_ite
    all_goals first
      | exact onlySyntax_ok _
      | exact onlySyntax_error
  · repeat' apply onlySyntax_ite
    all_goals first
      | exact onlySyntax_ok _
      | exact onlySyntax_error
  · split <;> first
      | exact onlySyntax_ok _
      | exact onlySyntax_error
  · split
    · exact onlySyntax_ok _
    · apply onlySyntax_ite
      · have hs := onlySyntax_scanStart c
        split
        · exact onlySyntax_ok _
        · rename_i err heq
          intro e h
          injection h with h
          rw [← h]
          exact hs err heq
      · exact onlySyntax_error

theorem onlySyntax_scanEnd (st : Scan) : OnlySyntax (scanEnd st) := by
  unfold scanEnd
  split
  · exact onlySyntax_ok _
  · exact onlySyntax_ite _ _ _ (onlySyntax_ok _) onlySyntax_error
  · exact onlySyntax_error

theorem onlySyntax_readChar (r : Reader) (c : Char) : OnlySyntax (readChar r c) := by
  unfold readChar
  refine onlySyntax_bind _ _ (onlySyntax_scanStep _ _) ?_
  intro p
  refine onlySyntax_bind _ _ (onlySyntax_foldlM _ onlySyntax_buildStep _ _) ?_
  intro b
  exact onlySyntax_ok _

/-- Every failure of `JSON.parse` is a `SyntaxError`. -/
theorem parse_error (text : String) (e : JSError) (h : parse text = .error e) :
    e = .jsonSyntax := by
  have key : OnlySyntax (parse text) := by
    unfold parse
    refine onlySyntax_bind _ _ (onlySyntax_foldlM _ onlySyntax_readChar _ _) ?_
    intro r
    refine onlySyntax_bind _ _ (onlySyntax_scanEnd _) ?_
    intro toks
    refine onlySyntax_bind _ _ (onlySyntax_foldlM _ onlySyntax_buildStep _ _) ?_
    intro b
    split
    · exact onlySyntax_ok _
    · exact onlySyntax_error
  exact key e h

end JSON

/-! ## Frames -/

theorem processFrame_parse_error (w : World) (text : String) (e : JSError)
    (h : JSON.parse text = .error e) :
    processFrame w (some text) = { world := w, raised := some e } := by
  unfold processFrame useRealtimeMsgEffect Eff.outcome
  simp only [Option.getD_some, h]
  rfl

theorem processFrame_parse_ok (w : World) (text : String) (pd : JSVal)
    (h : JSON.parse text = .ok pd) :
    processFrame w (some text) = processEvent w pd := by
  unfold processFrame processEvent useRealtimeMsgEffect
  simp only [Option.getD_some, h, Eff.eval_ok, pure_bind]

/-! ## Frames of any type -/

theorem typeIs_of_getProp {pd ty : JSVal} (h : getProp pd "type" = .ok ty) (n : String) :
    typeIs pd n = pure (jsStrictEq ty (.str n)) := by
  unfold typeIs
  rw [h]
  rfl

theorem jsStrictEq_str_iff (ty : JSVal) (n : String) :
    jsStrictEq ty (.str n) = true ↔ ty = .str n := by
  cases ty <;> simp [jsStrictEq]

/-- A frame whose `type` cannot be read (`parsedData` is `null`) throws at the first test. -/
theorem effectBody_type_error {pd : JSVal} {e : JSError} (h : getProp pd "type" = .error e) :
    effectBody pd = Eff.eval (.error e) := by
  unfold effectBody typeIs
  rw [h]
  rfl

/-- A frame whose `type` is none of the nine types with an effect runs no handler. -/
theorem effectBody_other {pd ty : JSVal} (h : getProp pd "type" = .ok ty)
    (h1 : ty ≠ .str "session.created") (h2 : ty ≠ .str "conversation.item.created")
    (h3 : ty ≠ .str "response.audio_transcript.delta")
    (h4 : ty ≠ .str "response.audio_transcript.done")
    (h5 : ty ≠ .str "response.audio.delta") (h6 : ty ≠ .str "response.audio.done")
    (h7 : ty ≠ .str "conversation.item.input_audio_transcription.completed")
    (h8 : ty ≠ .str "input_audio_buffer.speech_started")
    (h9 : ty ≠ .str "response.created") :
    effectBody pd = pure () := by
  have f : ∀ n, ty ≠ .str n → jsStrictEq ty (.str n) = false := by
    intro n hn
    cases hb : jsStrictEq ty (.str n) with
    | false => rfl
    | true => exact absurd ((jsStrictEq_str_iff ty n).mp hb) hn
  simp [effectBody, typeIs_of_getProp h, f _ h1, f _ h2, f _ h3, f _ h4, f _ h5, f _ h6, f _ h7,
    f _ h8, f _ h9]

theorem getProp_total {v x : JSVal} {k : String} (h : getProp v k = .ok x) (k1 : String) :
    getProp v k1 = .ok (fieldOf v k1) := by
  cases v <;> first | rfl | (simp [getProp] at h)

theorem getProp_error_all {v : JSVal} {k : String} {e : JSError} (h : getProp v k = .error e)
    (k1 : String) : getProp v k1 = .error .typeError := by
  cases v <;> first | rfl | (simp [getProp] at h)

theorem arrayMap_forall₂ (g : Item → Except JSError Item) (l l1 : List Item)
    (h : arrayMap g l = .ok l1) : List.Forall₂ (fun x y => g x = .ok y) l l1 := by
  induction l generalizing l1 with
  | nil =>
    simp [arrayMap] at h
    subst h
    exact List.Forall₂.nil
  | cons x xs ih =>
    unfold arrayMap at h
    cases hx : g x with
    | error e => rw [hx] at h; simp [bind, Except.bind] at h
    | ok y =>
      cases hxs : arrayMap g xs with
      | error e => rw [hx, hxs] at h; simp [bind, Except.bind] at h
      | ok ys =>
        rw [hx, hxs] at h
        simp [bind, Except.bind, pure, Except.pure] at h
        subst h
        exact List.Forall₂.cons hx (ih ys hxs)

/-- A completed update relates the entries pairwise: a target to the result of the
transform, any other entry to itself. -/
theorem mapTargets_forall₂ (i : JSVal) (transform : Item → Except JSError Item)
    (prev next : Session) (h : mapTargets i transform prev = .ok next) :
    next.id = prev.id ∧
    List.Forall₂ (fun old new => (old.isTarget i = true ∧ transform old = .ok new) ∨
      (old.isTarget i = false ∧ new = old)) prev.message next.message := by
  unfold mapTargets at h
  cases hm : arrayMap
      (fun item => if item.isTarget i then transform item else .ok item) prev.message with
  | error e => rw [hm] at h; simp [bind, Except.bind] at h
  | ok msgs =>
    rw [hm] at h
    simp [bind, Except.bind, pure, Except.pure] at h
    subst h
    refine ⟨rfl, (arrayMap_forall₂ _ _ _ hm).imp ?_⟩
    intro old new hon
    by_cases ht : old.isTarget i = true
    · left
      simp only [ht, if_true] at hon
      exact ⟨ht, hon⟩
    · right
      simp only [ht] at hon
      simp at ht
      refine ⟨ht, ?_⟩
      simp at hon
      exact hon.symm

/-- What a store update through `prev.message.map` can leave: nothing stored and
an exception, or the same session with its entries related pairwise. -/
theorem setCurrentSessionList_mapTargets (i : JSVal) (transform : Item → Except JSError Item)
    (w : World) :
    (∃ e, setCurrentSessionList (mapTargets i transform) w = (.error e, w)) ∨
    ∃ next : List Item,
      setCurrentSessionList (mapTargets i transform) w
        = (.ok (), { w with currentSessionList := { w.currentSessionList with message := next } }) ∧
      List.Forall₂ (fun old new => (old.isTarget i = true ∧ transform old = .ok new) ∨
        (old.isTarget i = false ∧ new = old)) w.items next := by
  unfold setCurrentSessionList
  cases hm : mapTargets i transform w.currentSessionList with
  | error e => exact Or.inl ⟨e, rfl⟩
  | ok next =>
    right
    obtain ⟨hid, hrel⟩ := mapTargets_forall₂ i transform _ next hm
    refine ⟨next.message, ?_, hrel⟩
    simp only
    congr 2
    cases next
    simp at hid
    simp [hid]

/-- A `session.created` frame throws when `session` has no readable `id`, and
otherwise resets the session. -/
theorem processEvent_sessionCreated (w : World) (pd : JSVal) (hty : HasType pd "session.created") :
    (getProp (fieldOf pd "session") "id" = .error .typeError ∧
      processEvent w pd = { world := w, raised := some .typeError }) ∨
    (getProp (fieldOf pd "session") "id" = .ok (fieldOf (fieldOf pd "session") "id") ∧
      processEvent w pd
        = { world := resetSession (fieldOf (fieldOf pd "session") "id") w, raised := none }) := by
  unfold processEvent
  rw [effectBody_sessionCreated hty]
  unfold onSessionCreated
  simp only [getProp_of_hasType hty, Eff.eval_ok, pure_bind]
  cases hid : getProp (fieldOf pd "session") "id" with
  | error e =>
    left
    have he := getProp_error_all hid "id"
    rw [hid] at he
    injection he with he
    subst he
    exact ⟨rfl, rfl⟩
  | ok id =>
    right
    have hid2 := getProp_total hid "id"
    rw [hid] at hid2
    injection hid2 with hid2
    subst hid2
    refine ⟨rfl, ?_⟩
    simp only [Eff.eval_ok, pure_bind]
    unfold Eff.outcome setCurrentSessionList setCurrentSessionId
    simp [bind, hid, Except.bind, pure, Except.pure, resetSession]

/-- A `conversation.item.created` frame stores nothing or appends one item that
carries `parsedData.item.id`. -/
theorem processEvent_created_shape (w : World) (pd : JSVal)
    (hty : HasType pd "conversation.item.created") :
    (processEvent w pd).world = w ∨
    ∃ item : Item, item.itemId = creationIdOf pd ∧ item.msgType = .str "realtime" ∧
      processEvent w pd = { world := pushItem item w, raised := none } := by
  unfold processEvent
  rw [effectBody_itemCreated hty]
  unfold onItemCreated
  simp only [getProp_of_hasType hty, Eff.eval_ok, pure_bind]
  cases hid : getProp (fieldOf pd "item") "id" with
  | error e => exact Or.inl rfl
  | ok id =>
    have hg := getProp_total hid
    have hid2 := hg "id"
    rw [hid] at hid2
    injection hid2 with hid2
    subst hid2
    simp only [hg, Eff.eval_ok, pure_bind]
    cases huc : optionalAt0Text (fieldOf (fieldOf pd "item") "content") with
    | error e => exact Or.inl rfl
    | ok uc =>
      simp only [Eff.eval_ok, pure_bind]
      cases ha : jsStrictEq (fieldOf (fieldOf pd "item") "role") (.str "assistant") with
      | true =>
        have hr := (jsStrictEq_str_iff _ _).mp ha
        right
        refine ⟨{ msgType := .str "realtime"
                  eventId := fieldOf pd "event_id"
                  eventName := fieldOf pd "type"
                  itemId := creationIdOf pd
                  previousItemId := fieldOf pd "previous_item_id"
                  role := fieldOf (fieldOf pd "item") "role"
                  isStreaming := false }, rfl, rfl, ?_⟩
        simp [hr, jsStrictEq]
        rfl
      | false =>
        cases hu : jsStrictEq (fieldOf (fieldOf pd "item") "role") (.str "user") with
        | true =>
          right
          refine ⟨{ msgType := .str "realtime"
                    eventId := fieldOf pd "event_id"
                    eventName := fieldOf pd "type"
                    itemId := creationIdOf pd
                    previousItemId := fieldOf pd "previous_item_id"
                    role := fieldOf (fieldOf pd "item") "role"
                    isStreaming := false
                    textFinal := uc }, rfl, rfl, ?_⟩
          simp [hu]
          rfl
        | false =>
          left
          simp [hu]
          rfl

theorem outcome_mapTargets (i : JSVal) (transform : Item → Except JSError Item) (w : World)
    (ht : ∀ old new, transform old = .ok new →
      SameIdentity old new ∧ old.audioFinal.getD [] <+: new.audioFinal.getD []) :
    (∃ e, (setCurrentSessionList (mapTargets i transform)).outcome w
        = { world := w, raised := some e }) ∨
    ∃ next : List Item,
      (setCurrentSessionList (mapTargets i transform)).outcome w
        = { world := withItems next w, raised := none } ∧
      List.Forall₂ (UpdatedBy i) w.items next := by
  rcases setCurrentSessionList_mapTargets i transform w with ⟨e, he⟩ | ⟨next, hn, hrel⟩
  · left
    exact ⟨e, by unfold Eff.outcome; rw [he]⟩
  · right
    refine ⟨next, by unfold Eff.outcome; rw [hn]; rfl, hrel.imp ?_⟩
    intro old new h
    rcases h with ⟨h1, h2⟩ | ⟨h1, h2⟩
    · exact Or.inr ⟨h1, ht old new h2⟩
    · exact Or.inl ⟨h1, h2⟩

/-- An update frame stores nothing (and may throw), or rewrites the entries that
pass its guard, one by one. -/
theorem processEvent_update_shape (w : World) (pd : JSVal) (h : IsUpdateEvent pd) :
    (∃ e, processEvent w pd = { world := w, raised := some e }) ∨
    ∃ next : List Item,
      processEvent w pd = { world := withItems next w, raised := none } ∧
      List.Forall₂ (UpdatedBy (fieldOf pd "item_id")) w.items next := by
  unfold processEvent
  rcases h with h | h | h | h | h
  · rw [effectBody_audioDelta h, onAudioDelta_eq h]
    cases hd : decodeChunk (fieldOf pd "delta") with
    | error e => exact Or.inl ⟨e, rfl⟩
    | ok samples =>
      rw [Eff.eval_ok, pure_bind]
      apply outcome_mapTargets
      intro old new hon
      injection hon with hon
      subst hon
      exact ⟨⟨rfl, rfl, rfl, rfl⟩, by simp [mergeInt16Arrays]⟩
  · rw [effectBody_audioDone h, onAudioDone_eq h]
    apply outcome_mapTargets
    intro old new hon
    injection hon with hon
    subst hon
    exact ⟨⟨rfl, rfl, rfl, rfl⟩, List.prefix_refl _⟩
  · rw [effectBody_transcriptDelta h, onTranscriptDelta_eq h]
    apply outcome_mapTargets
    intro old new hon
    cases hc : jsConcat (old.textDelta.getD "") (fieldOf pd "delta") with
    | error e => rw [hc] at hon; simp [bind, Except.bind] at hon
    | ok s =>
      rw [hc] at hon
      simp only [bind, Except.bind, pure, Except.pure] at hon
      injection hon with hon
      subst hon
      exact ⟨⟨rfl, rfl, rfl, rfl⟩, List.prefix_refl _⟩
  · rw [effectBody_transcriptDone h, onTranscriptDone_eq h]
    apply outcome_mapTargets
    intro old new hon
    injection hon with hon
    subst hon
    exact ⟨⟨rfl, rfl, rfl, rfl⟩, List.prefix_refl _⟩
  · rw [effectBody_inputTranscription h, onInputTranscriptionCompleted_eq h]
    apply outcome_mapTargets
    intro old new hon
    injection hon with hon
    subst hon
    exact ⟨⟨rfl, rfl, rfl, rfl⟩, List.prefix_refl _⟩

/-- Every frame does one of five things: it stores nothing (it is inert, or it
throws before any store call); it calls `interrupt()` once; it resets the
session; it appends one item; it rewrites the entries that pass the guard of an
update handler. -/
theorem processEvent_shape (w : World) (pd : JSVal) :
    (processEvent w pd).world = w ∨
    ((HasType pd "input_audio_buffer.speech_started" ∨ HasType pd "response.created") ∧
      processEvent w pd
        = { world := { w with interruptCount := w.interruptCount + 1 }, raised := none }) ∨
    (HasType pd "session.created" ∧
      processEvent w pd
        = { world := resetSession (fieldOf (fieldOf pd "session") "id") w, raised := none }) ∨
    (HasType pd "conversation.item.created" ∧
      ∃ item : Item, item.itemId = creationIdOf pd ∧ item.msgType = .str "realtime" ∧
        processEvent w pd = { world := pushItem item w, raised := none }) ∨
    (IsUpdateEvent pd ∧
      ∃ next : List Item, processEvent w pd = { world := withItems next w, raised := none } ∧
        List.Forall₂ (UpdatedBy (fieldOf pd "item_id")) w.items next) := by
  cases hty : getProp pd "type" with
  | error e =>
    left
    unfold processEvent
    rw [effectBody_type_error hty]
    rfl
  | ok ty =>
    by_cases h1 : ty = .str "session.created"
    · subst h1
      rcases processEvent_sessionCreated w pd hty with ⟨_, h⟩ | ⟨_, h⟩
      · exact Or.inl (by rw [h])
      · exact Or.inr (Or.inr (Or.inl ⟨hty, h⟩))
    by_cases h2 : ty = .str "conversation.item.created"
    · subst h2
      rcases processEvent_created_shape w pd hty with h | h
      · exact Or.inl h
      · exact Or.inr (Or.inr (Or.inr (Or.inl ⟨hty, h⟩)))
    by_cases h3 : ty = .str "response.audio_transcript.delta"
    · subst h3
      have hu : IsUpdateEvent pd := (Or.inr (Or.inr (Or.inl hty)))
      rcases processEvent_update_shape w pd hu with ⟨e, he⟩ | hn
      · exact Or.inl (by rw [he])
      · exact Or.inr (Or.inr (Or.inr (Or.inr ⟨hu, hn⟩)))
    by_cases h4 : ty = .str "response.audio_transcript.done"
    · subst h4
      have hu : IsUpdateEvent pd := (Or.inr (Or.inr (Or.inr (Or.inl hty))))
      rcases processEvent_update_shape w pd hu with ⟨e, he⟩ | hn
      · exact Or.inl (by rw [he])
      · exact Or.inr (Or.inr (Or.inr (Or.inr ⟨hu, hn⟩)))
    by_cases h5 : ty = .str "response.audio.delta"
    · subst h5
      have hu : IsUpdateEvent pd := (Or.inl hty)
      rcases processEvent_update_shape w pd hu with ⟨e, he⟩ | hn
      · exact Or.inl (by rw [he])
      · exact Or.inr (Or.inr (Or.inr (Or.inr ⟨hu, hn⟩)))
    by_cases h6 : ty = .str "response.audio.done"
    · subst h6
      have hu : IsUpdateEvent pd := (Or.inr (Or.inl hty))
      rcases processEvent_update_shape w pd hu with ⟨e, he⟩ | hn
      · exact Or.inl (by rw [he])
      · exact Or.inr (Or.inr (Or.inr (Or.inr ⟨hu, hn⟩)))
    by_cases h7 : ty = .str "conversation.item.input_audio_transcription.completed"
    · subst h7
      have hu : IsUpdateEvent pd := (Or.inr (Or.inr (Or.inr (Or.inr hty))))
      rcases processEvent_update_shape w pd hu with ⟨e, he⟩ | hn
      · exact Or.inl (by rw [he])
      · exact Or.inr (Or.inr (Or.inr (Or.inr ⟨hu, hn⟩)))
    by_cases h8 : ty = .str "input_audio_buffer.speech_started"
    · subst h8
      refine Or.inr (Or.inl ⟨Or.inl hty, ?_⟩)
      unfold processEvent
      rw [effectBody_speechStarted hty]
      rfl
    by_cases h9 : ty = .str "response.created"
    · subst h9
      refine Or.inr (Or.inl ⟨Or.inr hty, ?_⟩)
      unfold processEvent
      rw [effectBody_responseCreated hty]
      rfl
    left
    unfold processEvent
    rw [effectBody_other hty h1 h2 h3 h4 h5 h6 h7 h8 h9]
    rfl

theorem isCreationFrame_of_hasType {pd : JSVal} (h : HasType pd "conversation.item.created") :
    isCreationFrame pd = true := by
  unfold isCreationFrame
  rw [h]
  rfl

theorem itemIds_of_forall₂ (i : JSVal) (l l1 : List Item) (h : List.Forall₂ (UpdatedBy i) l l1) :
    l1.map (fun it => it.itemId) = l.map (fun it => it.itemId) := by
  induction h with
  | nil => rfl
  | @cons old new olds news hhead _ ih =>
    simp only [List.map_cons, ih]
    rcases hhead with ⟨_, h⟩ | ⟨_, h, _⟩
    · rw [h]
    · rw [h.1]

/-- A frame keeps the list of item ids, empties it, or (a creation frame) adds the
id it carries at the end. -/
theorem itemIds_step (w : World) (pd : JSVal) :
    (processEvent w pd).world.itemIds = w.itemIds ∨
    (processEvent w pd).world.itemIds = [] ∨
    (isCreationFrame pd = true ∧
      (processEvent w pd).world.itemIds = w.itemIds ++ [creationIdOf pd]) := by
  rcases processEvent_shape w pd with h | ⟨_, h⟩ | ⟨_, h⟩ | ⟨hty, item, hid, _, h⟩ | ⟨_, next, h, hrel⟩
  · exact Or.inl (by rw [h])
  · exact Or.inl (by rw [h]; rfl)
  · exact Or.inr (Or.inl (by rw [h]; rfl))
  · refine Or.inr (Or.inr ⟨isCreationFrame_of_hasType hty, ?_⟩)
    rw [h]
    show (w.items ++ [item]).map _ = _
    rw [List.map_append, ← hid]
    rfl
  · left
    rw [h]
    exact itemIds_of_forall₂ _ _ _ hrel

theorem creationIds_cons (ev : JSVal) (rest : List JSVal) :
    creationIds (ev :: rest)
      = if isCreationFrame ev then creationIdOf ev :: creationIds rest else creationIds rest := by
  unfold creationIds
  by_cases h : isCreationFrame ev = true
  · simp [List.filter_cons, h]
  · simp [List.filter_cons, h]

/-- Uniqueness of the item ids is kept along a sequence whose creation frames carry
ids that differ from each other and from the ids already present. -/
theorem distinct_preserved (events : List JSVal) (w : World) (k : Nat)
    (hw : DistinctIds w.itemIds)
    (hcross : ∀ a ∈ w.itemIds, ∀ b ∈ creationIds events, jsStrictEq a b = false)
    (hev : DistinctIds (creationIds events)) :
    DistinctIds (processEvents w (events.take k)).itemIds := by
  induction events generalizing w k with
  | nil => simpa [processEvents] using hw
  | cons ev rest ih =>
    cases k with
    | zero => simpa [processEvents] using hw
    | succ k =>
      rw [List.take_succ_cons, processEvents_cons]
      have hsub : ∀ b ∈ creationIds rest, b ∈ creationIds (ev :: rest) := by
        intro b hb
        rw [creationIds_cons]
        split
        · exact List.mem_cons_of_mem _ hb
        · exact hb
      have hrest : DistinctIds (creationIds rest) := by
        rw [creationIds_cons] at hev
        split at hev
        · exact (List.pairwise_cons.mp hev).2
        · exact hev
      rcases itemIds_step w ev with h | h | ⟨hc, h⟩
      · apply ih
        · rw [h]; exact hw
        · rw [h]; exact fun a ha b hb => hcross a ha b (hsub b hb)
        · exact hrest
      · apply ih
        · rw [h]; exact List.Pairwise.nil
        · rw [h]; intro a ha; cases ha
        · exact hrest
      · rw [creationIds_cons, if_pos hc] at hev hcross
        apply ih
        · rw [h]
          unfold DistinctIds
          rw [List.pairwise_append]
          refine ⟨hw, List.pairwise_singleton _ _, ?_⟩
          intro a ha b hb
          rw [List.mem_singleton] at hb
          subst hb
          exact hcross a ha _ (List.mem_cons_self _ _)
        · rw [h]
          intro a ha b hb
          rw [List.mem_append, List.mem_singleton] at ha
          rcases ha with ha | ha
          · exact hcross a ha b (List.mem_cons_of_mem _ hb)
          · subst ha
            exact (List.pairwise_cons.mp hev).1 b hb
        · exact hrest

/-- A `response.audio.delta` frame whose chunk cannot be decoded throws and stores nothing. -/
theorem processEvent_audioDelta_error (w : World) (pd : JSVal) (e : JSError)
    (hty : HasType pd "response.audio.delta")
    (hd : decodeChunk (fieldOf pd "delta") = .error e) :
    processEvent w pd = { world := w, raised := some e } := by
  unfold processEvent
  rw [effectBody_audioDelta hty, onAudioDelta_eq hty, hd]
  rfl

/-- An update whose transform cannot throw raises nothing. -/
theorem outcome_update_raised (i : JSVal) (g : Item → Item) (w : World) :
    ((setCurrentSessionList (mapTargets i (fun item => pure (g item)))).outcome w).raised
      = none := by
  rw [outcome_update]

/-- What `response.audio.done` does to a state. -/
theorem processEvent_audioDone (w : World) (pd : JSVal) (hty : HasType pd "response.audio.done") :
    processEvent w pd =
      { world := updateTargets (fieldOf pd "item_id") (fun it =>
          { it with
            eventId := fieldOf pd "event_id"
            eventName := .str "response.audio.done"
            audioDelta := none
            isStreaming := false }) w,
        raised := none } := by
  unfold processEvent
  rw [effectBody_audioDone hty, onAudioDone_eq hty, fieldOf_type hty]
  exact outcome_update _ _ w

/-- What `conversation.item.input_audio_transcription.completed` does to a state. -/
theorem processEvent_inputTranscription (w : World) (pd : JSVal)
    (hty : HasType pd "conversation.item.input_audio_transcription.completed") :
    processEvent w pd =
      { world := updateTargets (fieldOf pd "item_id") (fun it =>
          { it with
            eventId := fieldOf pd "event_id"
            eventName := .str "conversation.item.input_audio_transcription.completed"
            textFinal := fieldOf pd "transcript" }) w,
        raised := none } := by
  unfold processEvent
  rw [effectBody_inputTranscription hty, onInputTranscriptionCompleted_eq hty, fieldOf_type hty]
  exact outcome_update _ _ w

/-- The entries before and after an update, pairwise. -/
theorem forall₂_updateTargets (i : JSVal) (g : Item → Item) (w : World) :
    List.Forall₂ (fun old new => (old.isTarget i = true → new = g old) ∧
      (old.isTarget i = false → new = old)) w.items (updateTargets i g w).items := by
  rw [items_updateTargets, List.forall₂_map_right_iff, List.forall₂_same]
  intro x _
  constructor
  · intro h
    simp [h]
  · intro h
    simp [h]


/-! ## Per-entry effect of a frame -/

theorem hasType_unique {pd : JSVal} {a b : String} (ha : HasType pd a) (hb : HasType pd b) :
    a = b := by
  unfold HasType at ha hb
  rw [ha] at hb
  injection hb with hb
  injection hb

theorem outcome_mapTargets_rel (P : Item → Item → Prop) (i : JSVal)
    (transform : Item → Except JSError Item) (w : World)
    (ht : ∀ old new, transform old = .ok new → P old new) :
    (∃ e, (setCurrentSessionList (mapTargets i transform)).outcome w
        = { world := w, raised := some e }) ∨
    ∃ next : List Item,
      (setCurrentSessionList (mapTargets i transform)).outcome w
        = { world := withItems next w, raised := none } ∧
      List.Forall₂ (fun old new => (old.isTarget i = false ∧ new = old) ∨
        (old.isTarget i = true ∧ P old new)) w.items next := by
  rcases setCurrentSessionList_mapTargets i transform w with ⟨e, he⟩ | ⟨next, hn, hrel⟩
  · left
    exact ⟨e, by unfold Eff.outcome; rw [he]⟩
  · right
    refine ⟨next, by unfold Eff.outcome; rw [hn]; rfl, hrel.imp ?_⟩
    intro old new h
    rcases h with ⟨h1, h2⟩ | ⟨h1, h2⟩
    · exact Or.inr ⟨h1, ht old new h2⟩
    · exact Or.inl ⟨h1, h2⟩

/-- An update frame stores nothing (and may throw), or rewrites the entries that
pass its guard, one by one, and leaves the others as they are. -/
theorem processEvent_update_rel (w : World) (pd : JSVal) (h : IsUpdateEvent pd) :
    (∃ e, processEvent w pd = { world := w, raised := some e }) ∨
    ∃ next : List Item,
      processEvent w pd = { world := withItems next w, raised := none } ∧
      List.Forall₂ (fun old new => (old.isTarget (fieldOf pd "item_id") = false ∧ new = old) ∨
        (old.isTarget (fieldOf pd "item_id") = true ∧ Rewritten pd old new)) w.items next := by
  unfold processEvent
  rcases h with h | h | h | h | h
  · rw [effectBody_audioDelta h, onAudioDelta_eq h]
    cases hd : decodeChunk (fieldOf pd "delta") with
    | error e => exact Or.inl ⟨e, rfl⟩
    | ok samples =>
      rw [Eff.eval_ok, pure_bind]
      apply outcome_mapTargets_rel
      intro old new hon
      injection hon with hon
      subst hon
      refine ⟨⟨rfl, rfl, rfl, rfl⟩, by simp [mergeInt16Arrays], fun _ => rfl, ?_, ?_⟩
      · rintro (h1 | h1) <;> exact absurd (hasType_unique h h1) (by decide)
      · intro h1
        exact absurd (hasType_unique h h1) (by decide)
  · rw [effectBody_audioDone h, onAudioDone_eq h]
    apply outcome_mapTargets_rel
    intro old new hon
    injection hon with hon
    subst hon
    refine ⟨⟨rfl, rfl, rfl, rfl⟩, List.prefix_refl _, ?_, fun _ => rfl, ?_⟩
    · rintro (h1 | h1) <;> exact absurd (hasType_unique h h1) (by decide)
    · intro h1
      exact absurd (hasType_unique h h1) (by decide)
  · rw [effectBody_transcriptDelta h, onTranscriptDelta_eq h]
    apply outcome_mapTargets_rel
    intro old new hon
    cases hc : jsConcat (old.textDelta.getD "") (fieldOf pd "delta") with
    | error e => rw [hc] at hon; simp [bind, Except.bind] at hon
    | ok s =>
      rw [hc] at hon
      simp only [bind, Except.bind, pure, Except.pure] at hon
      injection hon with hon
      subst hon
      refine ⟨⟨rfl, rfl, rfl, rfl⟩, List.prefix_refl _, fun _ => rfl, ?_, ?_⟩
      · rintro (h1 | h1) <;> exact absurd (hasType_unique h h1) (by decide)
      · intro h1
        exact absurd (hasType_unique h h1) (by decide)
  · rw [effectBody_transcriptDone h, onTranscriptDone_eq h]
    apply outcome_mapTargets_rel
    intro old new hon
    injection hon with hon
    subst hon
    refine ⟨⟨rfl, rfl, rfl, rfl⟩, List.prefix_refl _, ?_, fun _ => rfl, ?_⟩
    · rintro (h1 | h1) <;> exact absurd (hasType_unique h h1) (by decide)
    · intro h1
      exact absurd (hasType_unique h h1) (by decide)
  · rw [effectBody_inputTranscription h, onInputTranscriptionCompleted_eq h]
    apply outcome_mapTargets_rel
    intro old new hon
    injection hon with hon
    subst hon
    refine ⟨⟨rfl, rfl, rfl, rfl⟩, List.prefix_refl _, ?_, ?_, fun _ => rfl⟩
    · rintro (h1 | h1) <;> exact absurd (hasType_unique h h1) (by decide)
    · rintro (h1 | h1) <;> exact absurd (hasType_unique h h1) (by decide)

theorem hasType_iff_fieldOf (pd : JSVal) (name : String) :
    HasType pd name ↔ fieldOf pd "type" = .str name := by
  unfold HasType fieldOf
  cases h : getProp pd "type" with
  | error e => simp
  | ok v => simp

theorem jsStrictEq_str_left (n : String) (x : JSVal) :
    jsStrictEq (.str n) x = true ↔ x = .str n := by
  cases x <;> simp [jsStrictEq]
  exact eq_comm

theorem forall₂_getElem? {α β : Type} {R : α → β → Prop} {l : List α} {l1 : List β}
    (h : List.Forall₂ R l l1) (k : Nat) (a : α) (hk : l[k]? = some a) :
    ∃ b, l1[k]? = some b ∧ R a b := by
  induction h generalizing k with
  | nil => simp at hk
  | cons hab _ ih =>
    cases k with
    | zero =>
      simp only [List.getElem?_cons_zero, Option.some.injEq] at hk
      subst hk
      exact ⟨_, List.getElem?_cons_zero, hab⟩
    | succ k => simpa using ih k (by simpa using hk)

theorem getElem?_append_some {α : Type} (l extra : List α) (k : Nat) (a : α)
    (hk : l[k]? = some a) : (l ++ extra)[k]? = some a := by
  have hlt : k < l.length := by
    by_contra hge
    rw [List.getElem?_eq_none (by omega)] at hk
    cases hk
  rw [List.getElem?_append_left hlt]
  exact hk

theorem items_withItems (next : List Item) (w : World) : (withItems next w).items = next := rfl

/-- A frame other than `session.created` keeps every entry at its position, as it
is or rewritten by an update handler whose guard it passes. -/
theorem processEvent_item_at (w : World) (pd : JSVal) (k : Nat) (old : Item)
    (hns : ¬ HasType pd "session.created") (hk : w.items[k]? = some old) :
    ∃ new, (processEvent w pd).world.items[k]? = some new ∧ ItemStep pd old new := by
  rcases processEvent_shape w pd with h | ⟨_, h⟩ | ⟨hs, _⟩ | ⟨_, item, _, _, h⟩ | ⟨hu, _⟩
  · exact ⟨old, by rw [h]; exact hk, Or.inl rfl⟩
  · exact ⟨old, by rw [h]; exact hk, Or.inl rfl⟩
  · exact absurd hs hns
  · refine ⟨old, ?_, Or.inl rfl⟩
    rw [h]
    exact getElem?_append_some _ _ _ _ hk
  · rcases processEvent_update_rel w pd hu with ⟨e, he⟩ | ⟨next, hn, hrel⟩
    · exact ⟨old, by rw [he]; exact hk, Or.inl rfl⟩
    · obtain ⟨new, hnew, hr⟩ := forall₂_getElem? hrel k old hk
      refine ⟨new, by rw [hn]; exact hnew, ?_⟩
      rcases hr with ⟨_, h2⟩ | ⟨h1, h2⟩
      · exact Or.inl h2
      · exact Or.inr ⟨hu, h1, h2⟩

theorem isInterruptFrame_iff (pd : JSVal) :
    isInterruptFrame pd = true ↔
      (HasType pd "input_audio_buffer.speech_started" ∨ HasType pd "response.created") := by
  unfold isInterruptFrame
  rw [Bool.or_eq_true, jsStrictEq_str_iff, jsStrictEq_str_iff, hasType_iff_fieldOf,
    hasType_iff_fieldOf]

/-- One frame adds one call of `interrupt()` when its type is
`input_audio_buffer.speech_started` or `response.created`, and none otherwise. -/
theorem interruptCount_step (w : World) (pd : JSVal) :
    (processEvent w pd).world.interruptCount
      = w.interruptCount + (if isInterruptFrame pd then 1 else 0) := by
  by_cases hi : isInterruptFrame pd = true
  · rw [if_pos hi]
    have hb : effectBody pd = interrupt := by
      rcases (isInterruptFrame_iff pd).mp hi with h | h
      · exact effectBody_speechStarted h
      · exact effectBody_responseCreated h
    unfold processEvent
    rw [hb]
    rfl
  · rw [if_neg hi]
    rcases processEvent_shape w pd with h | ⟨hty, _⟩ | ⟨_, h⟩ | ⟨_, item, _, _, h⟩ |
      ⟨_, next, h, _⟩
    · rw [h]; rfl
    · exact absurd ((isInterruptFrame_iff pd).mpr hty) hi
    · rw [h]; rfl
    · rw [h]; rfl
    · rw [h]; rfl

theorem allProcessed_cons_true {w : World} {ev : JSVal} {rest : List JSVal}
    (h : allProcessed w (ev :: rest) = true) :
    (processEvent w ev).raised = none ∧ allProcessed (processEvent w ev).world rest = true := by
  unfold allProcessed at h
  cases hr : (processEvent w ev).raised with
  | none =>
    rw [hr] at h
    exact ⟨rfl, h⟩
  | some e =>
    rw [hr] at h
    cases h

theorem frameIs_of_type {pd : JSVal} {name : String} (T I : String) (hty : HasType pd name)
    (hi : fieldOf pd "item_id" = .str I) : frameIs pd T I = (name == T) := by
  unfold frameIs
  rw [fieldOf_type hty, hi]
  simp [jsStrictEq]

theorem frameIs_other_item {pd : JSVal} (T I : String)
    (hi : jsStrictEq (.str I) (fieldOf pd "item_id") = false) : frameIs pd T I = false := by
  unfold frameIs
  have h : jsStrictEq (fieldOf pd "item_id") (.str I) = false := by
    cases hb : jsStrictEq (fieldOf pd "item_id") (.str I) with
    | false => rfl
    | true =>
      rw [(jsStrictEq_str_iff _ _).mp hb] at hi
      simp [jsStrictEq] at hi
  rw [h, Bool.and_false]

theorem frameIs_not_update {pd : JSVal} (I : String) (hu : ¬ IsUpdateEvent pd) :
    isDeltaFor pd I = false ∧ isDoneFor pd I = false := by
  have f : ∀ T, ¬ HasType pd T → frameIs pd T I = false := by
    intro T hT
    unfold frameIs
    cases hb : jsStrictEq (fieldOf pd "type") (.str T) with
    | false => rfl
    | true => exact absurd ((hasType_iff_fieldOf pd T).mpr ((jsStrictEq_str_iff _ _).mp hb)) hT
  unfold isDeltaFor isDoneFor
  rw [f _ (fun h => hu (Or.inr (Or.inr (Or.inl h)))), f _ (fun h => hu (Or.inl h)),
    f _ (fun h => hu (Or.inr (Or.inr (Or.inr (Or.inl h))))), f _ (fun h => hu (Or.inr (Or.inl h)))]
  exact ⟨rfl, rfl⟩

/-- One frame other than `session.created`, processed without an exception, on an
entry for item `I`: the entry stays at its position and stays an entry for `I`; its
`isStreaming` is true after a delta for `I`, false after a done event for `I`, and
as before after any other frame. -/
theorem streaming_step (w : World) (pd : JSVal) (k : Nat) (old : Item) (I : String)
    (hns : ¬ HasType pd "session.created") (hok : (processEvent w pd).raised = none)
    (hk : w.items[k]? = some old) (ht : old.isTarget (.str I) = true) :
    ∃ new, (processEvent w pd).world.items[k]? = some new ∧ new.isTarget (.str I) = true ∧
      new.isStreaming
        = (if isDeltaFor pd I then true else if isDoneFor pd I then false else old.isStreaming) := by
  have ht2 := ht
  simp only [Item.isTarget, Bool.and_eq_true] at ht2
  have hid : old.itemId = .str I := (jsStrictEq_str_iff _ _).mp ht2.2
  by_cases hu : IsUpdateEvent pd
  · rcases processEvent_update_rel w pd hu with ⟨e, he⟩ | ⟨next, hn, hrel⟩
    · rw [he] at hok
      cases hok
    · obtain ⟨new, hnew, hr⟩ := forall₂_getElem? hrel k old hk
      refine ⟨new, by rw [hn]; exact hnew, ?_⟩
      rcases hr with ⟨h1, h2⟩ | ⟨h1, hsame, _, hdelta, hdone, hinput⟩
      · have hne : jsStrictEq (.str I) (fieldOf pd "item_id") = false := by
          simp only [Item.isTarget, ht2.1, Bool.true_and, hid] at h1
          exact h1
        subst h2
        refine ⟨ht, ?_⟩
        simp [isDeltaFor, isDoneFor, frameIs_other_item _ I hne]
      · have hx : fieldOf pd "item_id" = .str I := by
          simp only [Item.isTarget, ht2.1, Bool.true_and, hid] at h1
          exact (jsStrictEq_str_left _ _).mp h1
        have htn : new.isTarget (.str I) = true := by
          unfold Item.isTarget
          rw [hsame.1, hsame.2.2.2]
          exact ht
        refine ⟨htn, ?_⟩
        rcases hu with h | h | h | h | h
        · rw [hdelta (Or.inr h)]
          simp [isDeltaFor, frameIs_of_type _ I h hx]
        · rw [hdone (Or.inr h)]
          simp [isDeltaFor, isDoneFor, frameIs_of_type _ I h hx]
        · rw [hdelta (Or.inl h)]
          simp [isDeltaFor, frameIs_of_type _ I h hx]
        · rw [hdone (Or.inl h)]
          simp [isDeltaFor, isDoneFor, frameIs_of_type _ I h hx]
        · rw [hinput h]
          simp [isDeltaFor, isDoneFor, frameIs_of_type _ I h hx]
  · obtain ⟨new, hnew, hstep⟩ := processEvent_item_at w pd k old hns hk
    refine ⟨new, hnew, ?_⟩
    rcases hstep with h | ⟨h, _⟩
    · subst h
      refine ⟨ht, ?_⟩
      rw [(frameIs_not_update I hu).1, (frameIs_not_update I hu).2]
      rfl
    · exact absurd h hu

/-! ## Renders: the deps of the effect -/

theorem processFrame_of_decode (w : World) (data : Option String) :
    (processFrame w data).world
      = match decodeFrame data with
        | some pd => (processEvent w pd).world
        | none => w := by
  unfold processFrame processEvent useRealtimeMsgEffect decodeFrame
  cases hp : JSON.parse (data.getD "{}") with
  | error e => rfl
  | ok pd => simp only [Eff.eval_ok, pure_bind]

theorem processFrame_of_parse (w : World) (data : Option String) (pd : JSVal)
    (hp : JSON.parse (data.getD "{}") = .ok pd) :
    processFrame w data = processEvent w pd := by
  unfold processFrame processEvent useRealtimeMsgEffect
  simp only [hp, Eff.eval_ok, pure_bind]

theorem render_of_same (h : Hook) (data : Option String) (hs : h.lastData = some data) :
    render h data = h := by
  unfold render renderOutcome
  rw [if_pos hs, ← hs]

theorem renderOutcome_of_changed (h : Hook) (data : Option String)
    (hc : h.lastData ≠ some data) : renderOutcome h data = processFrame h.world data := by
  unfold renderOutcome
  rw [if_neg hc]

theorem renders_cons (h : Hook) (data : Option String) (rest : List (Option String)) :
    renders h (data :: rest) = renders (render h data) rest := rfl

/-- The store after a sequence of renders is the one that the runs of the effect
leave, one run for each frame whose payload is not that of the frame before and
decodes (a payload that does not decode throws before any store call). -/
theorem renders_world (h : Hook) (frames : List (Option String)) :
    (renders h frames).world = processEvents h.world (ranEvents h.lastData frames) := by
  induction frames generalizing h with
  | nil => rfl
  | cons data rest ih =>
    rw [renders_cons]
    by_cases hs : h.lastData = some data
    · rw [render_of_same h data hs, ih]
      unfold ranEvents
      rw [ranFrames, if_pos hs]
    · rw [ih]
      unfold ranEvents
      rw [ranFrames, if_neg hs, List.filterMap_cons]
      have hw : (render h data).world = (processFrame h.world data).world := by
        unfold render
        rw [renderOutcome_of_changed h data hs]
      have hl : (render h data).lastData = some data := rfl
      rw [hw, hl, processFrame_of_decode]
      cases decodeFrame data with
      | none => rfl
      | some pd => rfl

theorem ranFrames_of_noRepeat (lastData : Option (Option String)) (frames : List (Option String))
    (h : noRepeat lastData frames = true) : ranFrames lastData frames = frames := by
  induction frames generalizing lastData with
  | nil => rfl
  | cons data rest ih =>
    simp only [noRepeat, Bool.and_eq_true, decide_eq_true_eq] at h
    rw [ranFrames, if_neg h.1, ih _ h.2]

theorem ranFrames_sublist (lastData : Option (Option String)) (frames : List (Option String)) :
    (ranFrames lastData frames).Sublist frames := by
  induction frames generalizing lastData with
  | nil => exact List.Sublist.slnil
  | cons data rest ih =>
    rw [ranFrames]
    split
    · exact (ih _).cons _
    · exact (ih _).cons₂ _

theorem filterMap_decode_of_parse (texts : List String) (events : List JSVal)
    (hp : List.Forall₂ (fun text ev => JSON.parse text = .ok ev) texts events) :
    (texts.map some).filterMap decodeFrame = events := by
  induction hp with
  | nil => rfl
  | @cons text ev texts events h _ ih =>
    rw [List.map_cons, List.filterMap_cons]
    have hd : decodeFrame (some text) = some ev := by
      unfold decodeFrame
      rw [Option.getD_some, h]
    rw [hd, ih]

/-- Frames that decode and of which none carries the payload of the frame before:
the effect runs once on each. -/
theorem renders_of_noRepeat (h : Hook) (texts : List String) (events : List JSVal)
    (hp : List.Forall₂ (fun text ev => JSON.parse text = .ok ev) texts events)
    (hnr : noRepeat h.lastData (texts.map some) = true) :
    (renders h (texts.map some)).world = processEvents h.world events := by
  rw [renders_world]
  unfold ranEvents
  rw [ranFrames_of_noRepeat _ _ hnr, filterMap_decode_of_parse texts events hp]

theorem allRendered_of_noRepeat (h : Hook) (texts : List String) (events : List JSVal)
    (hp : List.Forall₂ (fun text ev => JSON.parse text = .ok ev) texts events)
    (hnr : noRepeat h.lastData (texts.map some) = true) :
    allRendered h (texts.map some) = allProcessed h.world events := by
  induction hp generalizing h with
  | nil => rfl
  | @cons text ev texts events hpe _ ih =>
    simp only [List.map_cons, noRepeat, Bool.and_eq_true, decide_eq_true_eq] at hnr
    have ho : renderOutcome h (some text) = processEvent h.world ev := by
      rw [renderOutcome_of_changed h _ hnr.1]
      exact processFrame_of_parse _ _ _ (by rw [Option.getD_some]; exact hpe)
    rw [List.map_cons, allRendered, allProcessed, ho]
    cases hr : (processEvent h.world ev).raised with
    | some e => rfl
    | none =>
      have hw : (render h (some text)).world = (processEvent h.world ev).world := by
        unfold render
        rw [ho]
      have ih2 := ih (render h (some text)) hnr.2
      rw [hw] at ih2
      exact ih2

/-- Splits a list of frames, each of which decodes to some event with a property,
into its list of events. -/
theorem forall₂_decoded {γ : Type} (P : JSVal → γ → Prop) (texts : List String) (cs : List γ)
    (h : List.Forall₂ (fun text c => ∃ ev, JSON.parse text = .ok ev ∧ P ev c) texts cs) :
    ∃ events, List.Forall₂ (fun text ev => JSON.parse text = .ok ev) texts events ∧
      List.Forall₂ P events cs := by
  induction h with
  | nil => exact ⟨[], List.Forall₂.nil, List.Forall₂.nil⟩
  | cons hhead _ ih =>
    obtain ⟨ev, hpe, hP⟩ := hhead
    obtain ⟨events, h1, h2⟩ := ih
    exact ⟨ev :: events, List.Forall₂.cons hpe h1, List.Forall₂.cons hP h2⟩

theorem forall₂_left_all {α β : Type} {P : α → Prop} {Q : α → β → Prop} {l : List α}
    {l1 : List β} (h : List.Forall₂ (fun a b => Q a b ∧ P a) l l1) : ∀ a ∈ l, P a := by
  induction h with
  | nil =>
    intro a ha
    cases ha
  | cons hhead _ ih =>
    intro a ha
    rcases List.mem_cons.mp ha with rfl | ha
    · exact hhead.2
    · exact ih a ha

theorem creationIds_sublist {l1 l2 : List JSVal} (h : l1.Sublist l2) :
    (creationIds l1).Sublist (creationIds l2) := by
  unfold creationIds
  exact (h.filter _).map _

theorem ranEvents_take_sublist (lastData : Option (Option String))
    (frames : List (Option String)) (k : Nat) :
    (ranEvents lastData (frames.take k)).Sublist (frames.filterMap decodeFrame) := by
  unfold ranEvents
  exact ((ranFrames_sublist _ _).trans (List.take_sublist k frames)).filterMap _

/-! ## Runs of the effect body on sequences of events -/

/-- Runs of the effect body on a creation event for an assistant item `I` whose
content can be read, then on transcript delta events for `I` carrying the texts
`ds`, then on the transcript done event for `I` carrying `T`, from a session whose
items do not contain the id `I`: nothing is raised, and the earlier items are
followed by one item `I` with `textFinal = T`, `textDelta` absent and
`isStreaming = false`. -/
theorem transcript_assembly (w : World) (I : String) (created done : JSVal)
    (deltas : List JSVal) (ds : List String) (T : JSVal)
    (hfresh : ∀ it ∈ w.items, jsStrictEq it.itemId (.str I) = false)
    (hcreated : IsItemCreated created "assistant" (.str I))
    (hdeltas : List.Forall₂ (fun ev d => IsTranscriptDelta ev I d) deltas ds)
    (hdone : IsTranscriptDone done I T) :
    allProcessed w (created :: (deltas ++ [done])) = true ∧
    ∃ item : Item,
      (processEvents w (created :: (deltas ++ [done]))).items = w.items ++ [item] ∧
      item.itemId = .str I ∧ item.role = .str "assistant" ∧
      item.textFinal = T ∧ item.textDelta = none ∧ item.isStreaming = false := by
  obtain ⟨new, hnm, hni, hnr, hc⟩ : ∃ new : Item, new.msgType = .str "realtime" ∧
      new.itemId = .str I ∧ new.role = .str "assistant" ∧
      processEvent w created = { world := pushItem new w, raised := none } :=
    ⟨_, rfl, rfl, rfl, processEvent_itemCreated w created "assistant" (.str I) hcreated (Or.inl rfl)⟩
  obtain ⟨hall, it1, hitems, hm, hi, hr⟩ :=
    transcript_deltas_on_last I w.items deltas ds hdeltas hfresh (pushItem new w) new
      (items_pushItem new w) hnm hni
  obtain ⟨hty, hid, ht⟩ := hdone
  have hd := processEvent_transcriptDone (processEvents (pushItem new w) deltas) done hty
  rw [hid, ht] at hd
  have hlast : allProcessed (processEvents (pushItem new w) deltas) [done] = true := by
    rw [allProcessed_cons_of_ok _ _ done [] hd]
    rfl
  refine ⟨?_, ?_⟩
  · rw [allProcessed_cons_of_ok w _ created _ hc, allProcessed_append, hall, hlast]
    rfl
  · rw [processEvents_cons, hc, processEvents_append, processEvents_cons, hd]
    refine ⟨{ it1 with
        eventId := fieldOf done "event_id"
        eventName := .str "response.audio_transcript.done"
        textDelta := none
        textFinal := T
        isStreaming := false }, ?_, hi, hr.trans hnr, rfl, rfl, rfl⟩
    show (updateTargets _ _ _).items = _
    rw [items_updateTargets, hitems,
      map_targets_append_last _ _ w.items it1 hfresh (isTarget_str_self it1 I hm hi)]

/-- Runs of the effect body on transcript delta events for `I` carrying the texts
`d1..dn` (`n >= 1`): nothing is raised, and every item `I` (an entry that passes
the guard of the handler) has `textDelta` equal to its previous `textDelta` (the
empty text when absent) followed by `d1 ++ ... ++ dn`, and `isStreaming = true`;
when `textDelta` was absent it is exactly `d1 ++ ... ++ dn`, and the previous
`textDelta` is a prefix of the new one. -/
theorem text_delta_accumulation (w : World) (I : String) (events : List JSVal) (ds : List String)
    (hev : List.Forall₂ (fun ev d => IsTranscriptDelta ev I d) events ds) (hne : ds ≠ []) :
    allProcessed w events = true ∧
    List.Forall₂ (fun old new => old.isTarget (.str I) = true →
        new.textDelta = some (old.textDelta.getD "" ++ String.join ds) ∧
        new.isStreaming = true ∧
        (old.textDelta = none → new.textDelta = some (String.join ds)) ∧
        (old.textDelta.getD "").toList <+: (new.textDelta.getD "").toList)
      w.items (processEvents w events).items := by
  obtain ⟨hall, hrel⟩ := transcript_deltas_rel I events ds hev w
  refine ⟨hall, hrel.imp ?_⟩
  intro old new h ht
  obtain ⟨h1, h2⟩ := h ht
  simp only [hne, if_false] at h1 h2
  refine ⟨h1, h2, ?_, ?_⟩
  · intro hnone
    rw [h1, hnone]
    simp
  · rw [h1]
    simp [String.data_append]

/-- Runs of the effect body on creation events with role `user` or `assistant`,
from a session with no items: when none raises, the ids of the resulting items are
the ids of the events, in order; and none raises when the content of each is
absent or a list that has a first entry. -/
theorem creation_order (w : World) (events : List JSVal) (ids : List JSVal)
    (hempty : w.items = [])
    (hev : List.Forall₂
      (fun ev id => IsCreation ev "user" id ∨ IsCreation ev "assistant" id) events ids) :
    (allProcessed w events = true →
      (processEvents w events).items.map (fun it => it.itemId) = ids) ∧
    ((∀ ev ∈ events, ContentOk (contentOf ev)) → allProcessed w events = true) := by
  refine ⟨fun hall => ?_, creation_all_processed w events ids hev⟩
  have h := creation_ids w events ids hev hall
  rw [hempty] at h
  simpa using h

/-- Runs of the effect body on `response.audio.delta` events for `I` carrying
decodable chunks `c1..cn`: nothing is raised, and every item `I` (an entry that
passes the guard of the handler) has `audioFinal` equal to its previous
`audioFinal` (the empty sequence when absent) followed by
`decode(c1) ++ ... ++ decode(cn)`. -/
theorem audio_accumulation (w : World) (I : String) (events : List JSVal)
    (chunks : List (String × Int16Array))
    (hev : List.Forall₂
      (fun ev c => IsAudioDelta ev I c.1 ∧ decodeChunk (.str c.1) = .ok c.2) events chunks) :
    allProcessed w events = true ∧
    List.Forall₂ (fun old new => old.isTarget (.str I) = true →
        new.audioFinal.getD [] = old.audioFinal.getD [] ++ (chunks.map Prod.snd).flatten ∧
        (chunks ≠ [] →
          new.audioFinal = some (old.audioFinal.getD [] ++ (chunks.map Prod.snd).flatten)))
      w.items (processEvents w events).items := by
  obtain ⟨hall, hrel⟩ := audio_deltas_rel I events chunks hev w
  refine ⟨hall, hrel.imp ?_⟩
  intro old new h ht
  have h1 := h ht
  by_cases hc : chunks = []
  · subst hc
    simp at h1
    simp [h1]
  · simp only [hc, if_false] at h1
    simp [h1]

/-- Runs of the effect body on a `session.created` event whose `session.id` can be
read, then on events no two creation events of which carry the same item id: no
two items of the session have the same `itemId`, after every run. -/
theorem unique_ids_when_creations_distinct (w : World) (sc : JSVal) (id : JSVal)
    (events : List JSVal) (k : Nat) (hsc : IsSessionCreated sc id)
    (hev : DistinctIds (creationIds events)) :
    DistinctIds (processEvents w (sc :: events.take k)).itemIds := by
  rw [processEvents_cons]
  have hreset : (processEvent w sc).world.itemIds = [] := by
    rcases processEvent_sessionCreated w sc hsc.1 with ⟨h, _⟩ | ⟨_, h⟩
    · rw [hsc.2] at h
      cases h
    · rw [h]
      rfl
  apply distinct_preserved events _ k
  · rw [hreset]
    exact List.Pairwise.nil
  · rw [hreset]
    intro a ha
    cases ha
  · exact hev

/-- Runs of the effect body on a sequence of events: the number of `interrupt()`
calls made is the number of events of the sequence whose `type` is
`input_audio_buffer.speech_started` or `response.created`. -/
theorem interrupt_count_over_trace (w : World) (events : List JSVal) :
    (processEvents w events).interruptCount
      = w.interruptCount + (events.filter isInterruptFrame).length := by
  induction events generalizing w with
  | nil => rfl
  | cons ev rest ih =>
    rw [processEvents_cons, ih, interruptCount_step, List.filter_cons]
    by_cases hi : isInterruptFrame ev = true
    · simp only [hi, if_true, List.length_cons]
      omega
    · simp only [hi, if_false, Bool.false_eq_true]
      omega

set_option maxRecDepth 1000000 in
/-- C1: the assembly sequence for the item `I2` whose creation frame carries an empty
content list, received in a session that holds the item `I1` only:
`{"type":"conversation.item.created","event_id":"E1","item":{"id":"I2",
"role":"assistant","content":[]},"previous_item_id":null}`, then the transcript
deltas `He` and `llo` for `I2`, then the transcript done frame for `I2` with
`Hello`. The first frame is a creation event for the assistant item `I2`; it throws
a `TypeError` and appends nothing, the three later frames find no item `I2`, and
the session is left as it was: there is no item `I2` with `textFinal = "Hello"`. -/
theorem assembly_after_empty_content_creation :
    JSON.parse (emptyContentFrameText "E1" "I2" "assistant")
      = .ok (itemCreatedEmptyContentEvent "E1" "I2" "assistant") ∧
    IsCreation (itemCreatedEmptyContentEvent "E1" "I2" "assistant") "assistant" (.str "I2") ∧
    oneItemWorld.itemIds = [.str "I1"] ∧
    processFrame oneItemWorld (some (emptyContentFrameText "E1" "I2" "assistant"))
      = { world := oneItemWorld, raised := some .typeError } ∧
    processFrames oneItemWorld
      [some (emptyContentFrameText "E1" "I2" "assistant"),
        some (frameText [("type", "response.audio_transcript.delta"), ("event_id", "E2"),
          ("item_id", "I2"), ("delta", "He")]),
        some (frameText [("type", "response.audio_transcript.delta"), ("event_id", "E3"),
          ("item_id", "I2"), ("delta", "llo")]),
        some (frameText [("type", "response.audio_transcript.done"), ("event_id", "E4"),
          ("item_id", "I2"), ("transcript", "Hello")])] = oneItemWorld :=
  ⟨rfl, ⟨rfl, _, rfl, rfl, rfl⟩, rfl, rfl, rfl⟩

set_option maxRecDepth 1000000 in
/-- C2, counterexample: the payload
`{"type":"response.audio_transcript.delta","event_id":"E2","item_id":"I1","delta":"ha"}`
received twice in a row, in a state whose item `I1` has `textDelta` absent: both
frames are delta events for `I1` with the delta `ha`, nothing is raised, and
`textDelta` is `ha`, not `haha`: the effect does not run on the second frame. -/
theorem repeated_delta_frame_appended_once :
    JSON.parse (frameText [("type", "response.audio_transcript.delta"), ("event_id", "E2"),
      ("item_id", "I1"), ("delta", "ha")]) = .ok (transcriptDeltaEvent "E2" "I1" "ha") ∧
    IsTranscriptDelta (transcriptDeltaEvent "E2" "I1" "ha") "I1" "ha" ∧
    oneItemWorld.items.map (fun it => (it.itemId, it.textDelta)) = [(.str "I1", none)] ∧
    allFramesProcessed oneItemWorld
      [some (frameText [("type", "response.audio_transcript.delta"), ("event_id", "E2"),
        ("item_id", "I1"), ("delta", "ha")]),
       some (frameText [("type", "response.audio_transcript.delta"), ("event_id", "E2"),
        ("item_id", "I1"), ("delta", "ha")])] = true ∧
    (processFrames oneItemWorld
      [some (frameText [("type", "response.audio_transcript.delta"), ("event_id", "E2"),
        ("item_id", "I1"), ("delta", "ha")]),
       some (frameText [("type", "response.audio_transcript.delta"), ("event_id", "E2"),
        ("item_id", "I1"), ("delta", "ha")])]).items.map
      (fun it => (it.itemId, it.textDelta, it.isStreaming)) = [(.str "I1", some "ha", true)] :=
  ⟨rfl, ⟨rfl, rfl, rfl⟩, rfl, rfl, rfl⟩

/-- C2, amended: for every state of the hook, when transcript delta frames for `I`
carrying the texts `d1..dn` (`n >= 1`) arrive, no other frame in between and none
of them with the payload of the frame just before it, nothing is raised and every
item `I` (an entry that passes the guard of the handler) has `textDelta` equal to
its previous `textDelta` (the empty text when absent) followed by
`d1 ++ ... ++ dn`, and `isStreaming = true`; when `textDelta` was absent it is
exactly `d1 ++ ... ++ dn`, and the previous `textDelta` is a prefix of the new
one (`n = 1` is one frame). -/
theorem text_deltas_of_distinct_frames (h : Hook) (I : String) (texts : List String)
    (ds : List String)
    (hev : List.Forall₂
      (fun text d => ∃ ev, JSON.parse text = .ok ev ∧ IsTranscriptDelta ev I d) texts ds)
    (hne : ds ≠ []) (hnr : noRepeat h.lastData (texts.map some) = true) :
    allRendered h (texts.map some) = true ∧
    List.Forall₂ (fun old new => old.isTarget (.str I) = true →
        new.textDelta = some (old.textDelta.getD "" ++ String.join ds) ∧
        new.isStreaming = true ∧
        (old.textDelta = none → new.textDelta = some (String.join ds)) ∧
        (old.textDelta.getD "").toList <+: (new.textDelta.getD "").toList)
      h.world.items (renders h (texts.map some)).world.items := by
  obtain ⟨events, hp, hd⟩ := forall₂_decoded _ texts ds hev
  rw [renders_of_noRepeat h texts events hp hnr, allRendered_of_noRepeat h texts events hp hnr]
  exact text_delta_accumulation h.world I events ds hd hne

set_option maxRecDepth 1000000 in
theorem text_deltas_of_distinct_frames_witness :
    List.Forall₂
      (fun text d => ∃ ev, JSON.parse text = .ok ev ∧ IsTranscriptDelta ev "I1" d)
      [frameText [("type", "response.audio_transcript.delta"), ("event_id", "E2"),
        ("item_id", "I1"), ("delta", "He")],
       frameText [("type", "response.audio_transcript.delta"), ("event_id", "E3"),
        ("item_id", "I1"), ("delta", "llo")]] ["He", "llo"] ∧
    noRepeat none
      ([frameText [("type", "response.audio_transcript.delta"), ("event_id", "E2"),
        ("item_id", "I1"), ("delta", "He")],
       frameText [("type", "response.audio_transcript.delta"), ("event_id", "E3"),
        ("item_id", "I1"), ("delta", "llo")]].map some) = true ∧
    (renders { world := oneItemWorld, lastData := none }
      ([frameText [("type", "response.audio_transcript.delta"), ("event_id", "E2"),
        ("item_id", "I1"), ("delta", "He")],
       frameText [("type", "response.audio_transcript.delta"), ("event_id", "E3"),
        ("item_id", "I1"), ("delta", "llo")]].map some)).world.items.map
      (fun it => (it.textDelta, it.isStreaming)) = [(some "Hello", true)] ∧
    allRendered { world := oneItemWorld, lastData := none }
      ([frameText [("type", "response.audio_transcript.delta"), ("event_id", "E2"),
        ("item_id", "I1"), ("delta", "He")],
       frameText [("type", "response.audio_transcript.delta"), ("event_id", "E3"),
        ("item_id", "I1"), ("delta", "llo")]].map some) = true :=
  have hev : List.Forall₂
      (fun text d => ∃ ev, JSON.parse text = .ok ev ∧ IsTranscriptDelta ev "I1" d)
      [frameText [("type", "response.audio_transcript.delta"), ("event_id", "E2"),
        ("item_id", "I1"), ("delta", "He")],
       frameText [("type", "response.audio_transcript.delta"), ("event_id", "E3"),
        ("item_id", "I1"), ("delta", "llo")]] ["He", "llo"] :=
    List.Forall₂.cons ⟨transcriptDeltaEvent "E2" "I1" "He", rfl, rfl, rfl, rfl⟩
      (List.Forall₂.cons ⟨transcriptDeltaEvent "E3" "I1" "llo", rfl, rfl, rfl, rfl⟩
        List.Forall₂.nil)
  ⟨hev, rfl, rfl,
    (text_deltas_of_distinct_frames { world := oneItemWorld, lastData := none } "I1" _ _ hev
      (by simp) rfl).1⟩

set_option maxRecDepth 1000000 in
/-- C3, counterexample: from a session with no items, the creation payload
`{"type":"conversation.item.created","event_id":"E1","item":{"id":"I1",
"role":"assistant"},"previous_item_id":null}` received twice in a row leaves one
item `I1`, not two (the effect does not run on the second frame); and the creation
payload for `I1` whose content is the empty list, followed by a creation payload
for `I2`, leaves the item `I2` alone (the first frame throws and appends nothing). -/
theorem creation_frames_not_all_appended :
    JSON.parse (itemCreatedFrameText "E1" "I1" "assistant")
      = .ok (itemCreatedEvent "E1" "I1" "assistant") ∧
    emptyWorld.items = [] ∧
    allFramesProcessed emptyWorld [some (itemCreatedFrameText "E1" "I1" "assistant"),
      some (itemCreatedFrameText "E1" "I1" "assistant")] = true ∧
    (processFrames emptyWorld [some (itemCreatedFrameText "E1" "I1" "assistant"),
      some (itemCreatedFrameText "E1" "I1" "assistant")]).itemIds = [.str "I1"] ∧
    JSON.parse (emptyContentFrameText "E1" "I1" "user")
      = .ok (itemCreatedEmptyContentEvent "E1" "I1" "user") ∧
    (processFrames emptyWorld [some (emptyContentFrameText "E1" "I1" "user"),
      some (itemCreatedFrameText "E2" "I2" "assistant")]).itemIds = [.str "I2"] :=
  ⟨rfl, rfl, rfl, rfl, rfl, rfl⟩

/-- C3, amended: for every state of the hook with no items and every sequence of
creation frames with role `user` or `assistant`, each with a content that is
absent or a list that has a first entry and none with the payload of the frame
just before it, nothing is raised and the ids of the resulting items are the ids
of the frames, in the order of arrival. -/
theorem creation_order_of_distinct_frames (h : Hook) (texts : List String) (ids : List JSVal)
    (hempty : h.world.items = [])
    (hev : List.Forall₂
      (fun text id => ∃ ev, JSON.parse text = .ok ev ∧
        ((IsCreation ev "user" id ∨ IsCreation ev "assistant" id) ∧ ContentOk (contentOf ev)))
      texts ids)
    (hnr : noRepeat h.lastData (texts.map some) = true) :
    allRendered h (texts.map some) = true ∧
    (renders h (texts.map some)).world.itemIds = ids := by
  obtain ⟨events, hp, hd⟩ := forall₂_decoded _ texts ids hev
  rw [renders_of_noRepeat h texts events hp hnr, allRendered_of_noRepeat h texts events hp hnr]
  have hc := creation_order h.world events ids hempty (hd.imp (fun _ _ hx => hx.1))
  have hall := hc.2 (forall₂_left_all hd)
  exact ⟨hall, hc.1 hall⟩

set_option maxRecDepth 1000000 in
theorem creation_order_of_distinct_frames_witness :
    emptyWorld.items = [] ∧
    List.Forall₂
      (fun text id => ∃ ev, JSON.parse text = .ok ev ∧
        ((IsCreation ev "user" id ∨ IsCreation ev "assistant" id) ∧ ContentOk (contentOf ev)))
      [itemCreatedFrameText "E1" "I1" "user", itemCreatedFrameText "E2" "I2" "assistant"]
      [.str "I1", .str "I2"] ∧
    noRepeat none ([itemCreatedFrameText "E1" "I1" "user",
      itemCreatedFrameText "E2" "I2" "assistant"].map some) = true ∧
    allRendered { world := emptyWorld, lastData := none }
      ([itemCreatedFrameText "E1" "I1" "user",
        itemCreatedFrameText "E2" "I2" "assistant"].map some) = true ∧
    (renders { world := emptyWorld, lastData := none }
      ([itemCreatedFrameText "E1" "I1" "user",
        itemCreatedFrameText "E2" "I2" "assistant"].map some)).world.itemIds
      = [.str "I1", .str "I2"] :=
  have hev : List.Forall₂
      (fun text id => ∃ ev, JSON.parse text = .ok ev ∧
        ((IsCreation ev "user" id ∨ IsCreation ev "assistant" id) ∧ ContentOk (contentOf ev)))
      [itemCreatedFrameText "E1" "I1" "user", itemCreatedFrameText "E2" "I2" "assistant"]
      [.str "I1", .str "I2"] :=
    List.Forall₂.cons
      ⟨itemCreatedEvent "E1" "I1" "user", rfl, Or.inl ⟨rfl, _, rfl, rfl, rfl⟩, Or.inl rfl⟩
      (List.Forall₂.cons
        ⟨itemCreatedEvent "E2" "I2" "assistant", rfl, Or.inr ⟨rfl, _, rfl, rfl, rfl⟩, Or.inl rfl⟩
        List.Forall₂.nil)
  ⟨rfl, hev, rfl,
    (creation_order_of_distinct_frames { world := emptyWorld, lastData := none } _ _ rfl hev rfl).1,
    (creation_order_of_distinct_frames { world := emptyWorld, lastData := none } _ _ rfl hev rfl).2⟩

/-- C4: an event of one of the five update types whose `item_id` is `===` to the
`itemId` of no item leaves the state as it was: same session id, same items, no
item created (also when the audio chunk of a `response.audio.delta` cannot be
decoded). -/
theorem unknown_item_noop (w : World) (pd : JSVal) (hty : IsUpdateEvent pd)
    (hno : ∀ it ∈ w.items, jsStrictEq it.itemId (fieldOf pd "item_id") = false) :
    (processEvent w pd).world = w := by
  unfold processEvent Eff.outcome
  rcases hty with h | h | h | h | h
  · rw [effectBody_audioDelta h, onAudioDelta_eq h]
    cases hd : decodeChunk (fieldOf pd "delta") with
    | error e => rfl
    | ok samples =>
      rw [Eff.eval_ok, pure_bind, setCurrentSessionList_no_target _ _ w hno]
  · rw [effectBody_audioDone h, onAudioDone_eq h, setCurrentSessionList_no_target _ _ w hno]
  · rw [effectBody_transcriptDelta h, onTranscriptDelta_eq h, setCurrentSessionList_no_target _ _ w hno]
  · rw [effectBody_transcriptDone h, onTranscriptDone_eq h, setCurrentSessionList_no_target _ _ w hno]
  · rw [effectBody_inputTranscription h, onInputTranscriptionCompleted_eq h,
      setCurrentSessionList_no_target _ _ w hno]

theorem unknown_item_noop_witness :
    IsUpdateEvent (audioDeltaEvent "E1" "I9" "AQACAA==") ∧
    (∀ it ∈ oneItemWorld.items,
      jsStrictEq it.itemId (fieldOf (audioDeltaEvent "E1" "I9" "AQACAA==") "item_id") = false) ∧
    (processEvent oneItemWorld (audioDeltaEvent "E1" "I9" "AQACAA==")).world = oneItemWorld :=
  ⟨Or.inl rfl, by decide, unknown_item_noop _ _ (Or.inl rfl) (by decide)⟩

/-- C5: in every state, processing `input_audio_buffer.speech_started` or
`response.created` raises nothing, invokes `interrupt()` exactly once and leaves
the session id and the items unchanged. -/
theorem interrupt_once (w : World) (pd : JSVal)
    (hty : HasType pd "input_audio_buffer.speech_started" ∨ HasType pd "response.created") :
    (processEvent w pd).raised = none ∧
    (processEvent w pd).world.interruptCount = w.interruptCount + 1 ∧
    (processEvent w pd).world.currentSessionId = w.currentSessionId ∧
    (processEvent w pd).world.currentSessionList = w.currentSessionList := by
  unfold processEvent
  rcases hty with h | h
  · rw [effectBody_speechStarted h]
    exact ⟨rfl, rfl, rfl, rfl⟩
  · rw [effectBody_responseCreated h]
    exact ⟨rfl, rfl, rfl, rfl⟩

theorem interrupt_once_witness :
    (HasType (bareEvent "input_audio_buffer.speech_started") "input_audio_buffer.speech_started" ∨
      HasType (bareEvent "input_audio_buffer.speech_started") "response.created") ∧
    emptyWorld.items = [] ∧
    (processEvent emptyWorld (bareEvent "input_audio_buffer.speech_started")).world.interruptCount
      = emptyWorld.interruptCount + 1 :=
  ⟨Or.inl rfl, rfl,
    (interrupt_once emptyWorld (bareEvent "input_audio_buffer.speech_started") (Or.inl rfl)).2.1⟩

/-- C6: processing a `response.audio_transcript.done` event twice in a row gives
the same state, and the same outcome, as processing it once. -/
theorem transcript_done_idempotent (w : World) (pd : JSVal)
    (hty : HasType pd "response.audio_transcript.done") :
    processEvent (processEvent w pd).world pd = processEvent w pd := by
  rw [processEvent_transcriptDone w pd hty, processEvent_transcriptDone _ pd hty]
  simp only [updateTargets, List.map_map]
  congr 3
  apply List.map_congr_left
  intro it _
  by_cases ht : it.isTarget (fieldOf pd "item_id") = true
  · simp [ht, Item.isTarget] 
    simp [Item.isTarget] at ht
    simp [ht]
  · simp [ht]

theorem transcript_done_idempotent_witness :
    HasType (transcriptDoneEvent "E7" "I1" "Hi") "response.audio_transcript.done" ∧
    processEvent (processEvent oneItemWorld (transcriptDoneEvent "E7" "I1" "Hi")).world
        (transcriptDoneEvent "E7" "I1" "Hi")
      = processEvent oneItemWorld (transcriptDoneEvent "E7" "I1" "Hi") :=
  ⟨rfl, transcript_done_idempotent oneItemWorld (transcriptDoneEvent "E7" "I1" "Hi") rfl⟩

/-- C7, counterexample: the payload text `not json` is not well-formed JSON, and
processing it raises the `SyntaxError` of `JSON.parse`; no empty-object event is
substituted. -/
theorem malformed_frame_raises :
    JSON.parse "not json" = .error .jsonSyntax ∧
    (processFrame emptyWorld (some "not json")).raised = some .jsonSyntax :=
  ⟨rfl, rfl⟩

/-- C7, amended: for every state and every payload text that is not well-formed
JSON (`JSON.parse` returns no value for it), processing the frame raises the
`SyntaxError` of `JSON.parse` and leaves the whole state as it was: the session
id and the items are not altered and `interrupt()` is not invoked. -/
theorem malformed_frame_raises_state_kept (w : World) (text : String)
    (h : ∀ v, JSON.parse text ≠ .ok v) :
    (processFrame w (some text)).raised = some .jsonSyntax ∧
    (processFrame w (some text)).world = w ∧
    (processFrame w (some text)).world.items = w.items ∧
    (processFrame w (some text)).world.interruptCount = w.interruptCount := by
  cases hp : JSON.parse text with
  | ok v => exact absurd hp (h v)
  | error e =>
    have he := JSON.parse_error text e hp
    subst he
    rw [processFrame_parse_error w text _ hp]
    exact ⟨rfl, rfl, rfl, rfl⟩

theorem malformed_frame_raises_state_kept_witness :
    (∀ v, JSON.parse "" ≠ .ok v) ∧
    (processFrame oneItemWorld (some "")).raised = some .jsonSyntax ∧
    (processFrame oneItemWorld (some "")).world = oneItemWorld ∧
    (processFrame oneItemWorld (some "")).world.items = oneItemWorld.items ∧
    (processFrame oneItemWorld (some "")).world.interruptCount = oneItemWorld.interruptCount :=
  have hbad : ∀ v, JSON.parse "" ≠ .ok v := fun _ hv =>
    Except.noConfusion ((show JSON.parse "" = .error .jsonSyntax from rfl).symm.trans hv)
  ⟨hbad, malformed_frame_raises_state_kept oneItemWorld "" hbad⟩

set_option maxRecDepth 1000000 in
/-- C8: from any prior state, the six frames of the end-to-end scenario all process
without an exception and leave session `S1` with exactly two items, `I1` then
`I2`; `I1.textFinal` is `Hi`, `I2.audioFinal` is the PCM16 sequence `[1, 2, 3, 4]`,
`I2.audioDelta` is absent and `I2.isStreaming` is false. -/
theorem end_to_end_scenario (w : World) :
    allFramesProcessed w scenarioFrames = true ∧
    processFrames w scenarioFrames =
      { currentSessionId := .str "S1",
        currentSessionList :=
          { id := .str "S1",
            message := [
              { msgType := .str "realtime", eventId := .str "E2",
                eventName := .str "conversation.item.created", itemId := .str "I1",
                previousItemId := .null, role := .str "user", isStreaming := false,
                textFinal := .str "Hi", textDelta := none, audioDelta := none, audioFinal := none },
              { msgType := .str "realtime", eventId := .str "E6",
                eventName := .str "response.audio.done", itemId := .str "I2",
                previousItemId := .str "I1", role := .str "assistant", isStreaming := false,
                textFinal := .undefined, textDelta := none, audioDelta := none,
                audioFinal := some [1, 2, 3, 4] }] },
        interruptCount := w.interruptCount } :=
  ⟨rfl, rfl⟩

set_option maxRecDepth 1000000 in
/-- C9, counterexample: the payload
`{"type":"response.audio.delta","event_id":"E4","item_id":"I1","delta":"AQACAA=="}`
received twice in a row, in a state whose item `I1` has `audioFinal` absent: both
frames are audio delta events for `I1` whose chunk decodes to `[1, 2]`, nothing is
raised, and `audioFinal` is `[1, 2]`, not `[1, 2, 1, 2]`: the effect does not run
on the second frame. -/
theorem repeated_audio_frame_merged_once :
    JSON.parse (frameText [("type", "response.audio.delta"), ("event_id", "E4"),
      ("item_id", "I1"), ("delta", "AQACAA==")]) = .ok (audioDeltaEvent "E4" "I1" "AQACAA==") ∧
    IsAudioDelta (audioDeltaEvent "E4" "I1" "AQACAA==") "I1" "AQACAA==" ∧
    decodeChunk (.str "AQACAA==") = .ok [1, 2] ∧
    oneItemWorld.items.map (fun it => (it.itemId, it.audioFinal)) = [(.str "I1", none)] ∧
    allFramesProcessed oneItemWorld
      [some (frameText [("type", "response.audio.delta"), ("event_id", "E4"),
        ("item_id", "I1"), ("delta", "AQACAA==")]),
       some (frameText [("type", "response.audio.delta"), ("event_id", "E4"),
        ("item_id", "I1"), ("delta", "AQACAA==")])] = true ∧
    (processFrames oneItemWorld
      [some (frameText [("type", "response.audio.delta"), ("event_id", "E4"),
        ("item_id", "I1"), ("delta", "AQACAA==")]),
       some (frameText [("type", "response.audio.delta"), ("event_id", "E4"),
        ("item_id", "I1"), ("delta", "AQACAA==")])]).items.map
      (fun it => (it.itemId, it.audioFinal)) = [(.str "I1", some [1, 2])] :=
  ⟨rfl, ⟨rfl, rfl, rfl⟩, rfl, rfl, rfl, rfl⟩

/-- C9, amended: for every state of the hook, when `response.audio.delta` frames
for `I` carrying decodable chunks `c1..cn` arrive in that order, none of them with
the payload of the frame just before it, nothing is raised and every item `I` (an
entry that passes the guard of the handler) has `audioFinal` equal to its previous
`audioFinal` (the empty sequence when absent) followed by
`decode(c1) ++ ... ++ decode(cn)`. -/
theorem audio_of_distinct_frames (h : Hook) (I : String) (texts : List String)
    (chunks : List (String × Int16Array))
    (hev : List.Forall₂
      (fun text c => ∃ ev, JSON.parse text = .ok ev ∧
        (IsAudioDelta ev I c.1 ∧ decodeChunk (.str c.1) = .ok c.2)) texts chunks)
    (hnr : noRepeat h.lastData (texts.map some) = true) :
    allRendered h (texts.map some) = true ∧
    List.Forall₂ (fun old new => old.isTarget (.str I) = true →
        new.audioFinal.getD [] = old.audioFinal.getD [] ++ (chunks.map Prod.snd).flatten ∧
        (chunks ≠ [] →
          new.audioFinal = some (old.audioFinal.getD [] ++ (chunks.map Prod.snd).flatten)))
      h.world.items (renders h (texts.map some)).world.items := by
  obtain ⟨events, hp, hd⟩ := forall₂_decoded _ texts chunks hev
  rw [renders_of_noRepeat h texts events hp hnr, allRendered_of_noRepeat h texts events hp hnr]
  exact audio_accumulation h.world I events chunks hd

set_option maxRecDepth 1000000 in
theorem audio_of_distinct_frames_witness :
    List.Forall₂
      (fun text c => ∃ ev, JSON.parse text = .ok ev ∧
        (IsAudioDelta ev "I1" c.1 ∧ decodeChunk (.str c.1) = .ok c.2))
      [frameText [("type", "response.audio.delta"), ("event_id", "E4"),
        ("item_id", "I1"), ("delta", "AQACAA==")],
       frameText [("type", "response.audio.delta"), ("event_id", "E5"),
        ("item_id", "I1"), ("delta", "AwAEAA==")]]
      [("AQACAA==", [1, 2]), ("AwAEAA==", ([3, 4] : Int16Array))] ∧
    noRepeat none
      ([frameText [("type", "response.audio.delta"), ("event_id", "E4"),
        ("item_id", "I1"), ("delta", "AQACAA==")],
       frameText [("type", "response.audio.delta"), ("event_id", "E5"),
        ("item_id", "I1"), ("delta", "AwAEAA==")]].map some) = true ∧
    (renders { world := oneItemWorld, lastData := none }
      ([frameText [("type", "response.audio.delta"), ("event_id", "E4"),
        ("item_id", "I1"), ("delta", "AQACAA==")],
       frameText [("type", "response.audio.delta"), ("event_id", "E5"),
        ("item_id", "I1"), ("delta", "AwAEAA==")]].map some)).world.items.map
      (fun it => it.audioFinal) = [some [1, 2, 3, 4]] ∧
    allRendered { world := oneItemWorld, lastData := none }
      ([frameText [("type", "response.audio.delta"), ("event_id", "E4"),
        ("item_id", "I1"), ("delta", "AQACAA==")],
       frameText [("type", "response.audio.delta"), ("event_id", "E5"),
        ("item_id", "I1"), ("delta", "AwAEAA==")]].map some) = true :=
  have hev : List.Forall₂
      (fun text c => ∃ ev, JSON.parse text = .ok ev ∧
        (IsAudioDelta ev "I1" c.1 ∧ decodeChunk (.str c.1) = .ok c.2))
      [frameText [("type", "response.audio.delta"), ("event_id", "E4"),
        ("item_id", "I1"), ("delta", "AQACAA==")],
       frameText [("type", "response.audio.delta"), ("event_id", "E5"),
        ("item_id", "I1"), ("delta", "AwAEAA==")]]
      [("AQACAA==", [1, 2]), ("AwAEAA==", ([3, 4] : Int16Array))] :=
    List.Forall₂.cons ⟨audioDeltaEvent "E4" "I1" "AQACAA==", rfl, ⟨rfl, rfl, rfl⟩, rfl⟩
      (List.Forall₂.cons ⟨audioDeltaEvent "E5" "I1" "AwAEAA==", rfl, ⟨rfl, rfl, rfl⟩, rfl⟩
        List.Forall₂.nil)
  ⟨hev, rfl, rfl,
    (audio_of_distinct_frames { world := oneItemWorld, lastData := none } "I1" _ _ hev rfl).1⟩

/-- C10: merging `c1`, `c2`, `c3` one by one from the empty sequence gives
`merge(merge(c1, c2), c3)`, which is `merge(c1, merge(c2, c3))`; the empty sequence
is a left and right identity; the merged sequence has the samples of the first
operand, in order, followed by those of the second. -/
theorem merge_associative (c1 c2 c3 : Int16Array) :
    mergeInt16Arrays (mergeInt16Arrays (mergeInt16Arrays [] c1) c2) c3
      = mergeInt16Arrays (mergeInt16Arrays c1 c2) c3 ∧
    mergeInt16Arrays (mergeInt16Arrays c1 c2) c3 = mergeInt16Arrays c1 (mergeInt16Arrays c2 c3) ∧
    mergeInt16Arrays [] c1 = c1 ∧ mergeInt16Arrays c1 [] = c1 ∧
    (mergeInt16Arrays c1 c2).length = c1.length + c2.length ∧
    (mergeInt16Arrays c1 c2).take c1.length = c1 ∧
    (mergeInt16Arrays c1 c2).drop c1.length = c2 := by
  simp [mergeInt16Arrays, List.append_assoc]

set_option maxRecDepth 1000000 in
/-- C11, counterexample: a `session.created` frame followed by two creation frames
that carry the same id `I1` (and differ in their `event_id`): the three frames are
processed without an exception and leave two items with the id `I1`. -/
theorem duplicate_creation_breaks_uniqueness :
    allFramesProcessed emptyWorld [some (sessionCreatedFrameText "S1"),
      some (itemCreatedFrameText "E1" "I1" "assistant"),
      some (itemCreatedFrameText "E2" "I1" "assistant")] = true ∧
    (processFrames emptyWorld [some (sessionCreatedFrameText "S1"),
      some (itemCreatedFrameText "E1" "I1" "assistant"),
      some (itemCreatedFrameText "E2" "I1" "assistant")]).itemIds = [.str "I1", .str "I1"] ∧
    ¬ DistinctIds (processFrames emptyWorld [some (sessionCreatedFrameText "S1"),
      some (itemCreatedFrameText "E1" "I1" "assistant"),
      some (itemCreatedFrameText "E2" "I1" "assistant")]).itemIds := by
  refine ⟨rfl, rfl, ?_⟩
  intro h
  have h2 : (processFrames emptyWorld [some (sessionCreatedFrameText "S1"),
      some (itemCreatedFrameText "E1" "I1" "assistant"),
      some (itemCreatedFrameText "E2" "I1" "assistant")]).itemIds
      = [.str "I1", .str "I1"] := rfl
  rw [h2] at h
  have h3 := (List.pairwise_cons.mp h).1 (.str "I1") (List.mem_cons_self _ _)
  exact absurd h3 (by decide)

/-- C11, amended: for every state of the hook and every sequence of frames that
starts with a `session.created` frame on which the effect runs without an
exception (its payload is not the one of the frame before it, and its
`session.id` can be read), and in which no two `conversation.item.created` frames
carry the same item id, no two items of the session have the same `itemId`, at
every point of the sequence. -/
theorem unique_ids_of_distinct_creation_frames (h : Hook) (scText : String) (sc : JSVal)
    (frames : List (Option String)) (k : Nat)
    (hparse : JSON.parse scText = .ok sc) (hty : HasType sc "session.created")
    (hrun : h.lastData ≠ some (some scText))
    (hok : (renderOutcome h (some scText)).raised = none)
    (hev : DistinctIds (creationIds (frames.filterMap decodeFrame))) :
    DistinctIds (renders h (some scText :: frames.take k)).world.itemIds := by
  rw [renders_cons, renders_world]
  have ho : renderOutcome h (some scText) = processEvent h.world sc := by
    rw [renderOutcome_of_changed h _ hrun]
    exact processFrame_of_parse _ _ _ (by rw [Option.getD_some]; exact hparse)
  have hw : (render h (some scText)).world = (processEvent h.world sc).world := by
    unfold render
    rw [ho]
  rw [ho] at hok
  have hreset : (processEvent h.world sc).world.itemIds = [] := by
    rcases processEvent_sessionCreated h.world sc hty with ⟨_, hx⟩ | ⟨_, hx⟩
    · rw [hx] at hok
      cases hok
    · rw [hx]
      rfl
  rw [hw]
  have hd := distinct_preserved (ranEvents (render h (some scText)).lastData (frames.take k))
    (processEvent h.world sc).world
    (ranEvents (render h (some scText)).lastData (frames.take k)).length
    (by rw [hreset]; exact List.Pairwise.nil)
    (by
      rw [hreset]
      intro a ha
      cases ha)
    (List.Pairwise.sublist (creationIds_sublist (ranEvents_take_sublist _ frames k)) hev)
  rw [List.take_length] at hd
  exact hd

set_option maxRecDepth 1000000 in
theorem unique_ids_of_distinct_creation_frames_witness :
    JSON.parse (sessionCreatedFrameText "S1") = .ok (sessionCreatedEvent "S1") ∧
    HasType (sessionCreatedEvent "S1") "session.created" ∧
    (renderOutcome { world := oneItemWorld, lastData := none }
      (some (sessionCreatedFrameText "S1"))).raised = none ∧
    DistinctIds (creationIds
      ([some (itemCreatedFrameText "E1" "I1" "user"),
        some (frameText [("type", "response.audio_transcript.delta"), ("event_id", "E2"),
          ("item_id", "I1"), ("delta", "He")]),
        some (itemCreatedFrameText "E3" "I2" "assistant")].filterMap decodeFrame)) ∧
    (renders { world := oneItemWorld, lastData := none }
      (some (sessionCreatedFrameText "S1") ::
        [some (itemCreatedFrameText "E1" "I1" "user"),
          some (frameText [("type", "response.audio_transcript.delta"), ("event_id", "E2"),
            ("item_id", "I1"), ("delta", "He")]),
          some (itemCreatedFrameText "E3" "I2" "assistant")].take 3)).world.itemIds
      = [.str "I1", .str "I2"] ∧
    DistinctIds (renders { world := oneItemWorld, lastData := none }
      (some (sessionCreatedFrameText "S1") ::
        [some (itemCreatedFrameText "E1" "I1" "user"),
          some (frameText [("type", "response.audio_transcript.delta"), ("event_id", "E2"),
            ("item_id", "I1"), ("delta", "He")]),
          some (itemCreatedFrameText "E3" "I2" "assistant")].take 3)).world.itemIds :=
  have hd : DistinctIds (creationIds
      ([some (itemCreatedFrameText "E1" "I1" "user"),
        some (frameText [("type", "response.audio_transcript.delta"), ("event_id", "E2"),
          ("item_id", "I1"), ("delta", "He")]),
        some (itemCreatedFrameText "E3" "I2" "assistant")].filterMap decodeFrame)) := by
    show List.Pairwise _ [JSVal.str "I1", JSVal.str "I2"]
    simp [jsStrictEq]
  ⟨rfl, rfl, rfl, hd, rfl,
    unique_ids_of_distinct_creation_frames { world := oneItemWorld, lastData := none }
      (sessionCreatedFrameText "S1") (sessionCreatedEvent "S1") _ 3 rfl rfl (by decide) rfl hd⟩

/-- C12, counterexample: in a state that contains item `I1`, a creation frame with
`item.id = I1` changes the items: a second item with the id `I1` is appended. -/
theorem duplicate_creation_appends :
    oneItemWorld.itemIds = [.str "I1"] ∧
    (processEvent oneItemWorld (itemCreatedEvent "E9" "I1" "assistant")).raised = none ∧
    (processEvent oneItemWorld (itemCreatedEvent "E9" "I1" "assistant")).world.itemIds
      = [.str "I1", .str "I1"] :=
  ⟨rfl, rfl, rfl⟩

/-- C12, amended: for every state that already contains an item with the id `I`,
processing a creation frame with `item.id = I` (role `user` or `assistant`) whose
content is absent or a list that has a first entry does not raise and appends a
second item with the id `I`, so that two items then share the id `I`; whatever the
content of the frame (an empty content list makes it throw), the existing items
keep their place and their fields. -/
theorem duplicate_creation_keeps_existing (w : World) (pd : JSVal) (role I : String)
    (hpresent : ∃ it ∈ w.items, it.itemId = .str I)
    (hcreated : IsCreation pd role (.str I)) (hrole : role = "assistant" ∨ role = "user") :
    (ContentOk (contentOf pd) →
      (processEvent w pd).raised = none ∧
      (∃ item : Item, (processEvent w pd).world.items = w.items ++ [item] ∧
        item.itemId = .str I) ∧
      ¬ DistinctIds (processEvent w pd).world.itemIds) ∧
    (∃ extra : List Item, (processEvent w pd).world.items = w.items ++ extra) := by
  constructor
  · intro hcontent
    rw [processEvent_itemCreated w pd role (.str I) ⟨hcreated, hcontent⟩ hrole]
    refine ⟨rfl, ⟨_, rfl, rfl⟩, ?_⟩
    obtain ⟨it, hit, hid⟩ := hpresent
    intro hd
    have hd2 : DistinctIds (w.itemIds ++ [JSVal.str I]) := by
      have : (pushItem
            { msgType := .str "realtime"
              eventId := fieldOf pd "event_id"
              eventName := .str "conversation.item.created"
              itemId := .str I
              previousItemId := fieldOf pd "previous_item_id"
              role := .str role
              isStreaming := false
              textFinal := if role = "user" then userContentOf pd else .undefined } w).itemIds
          = w.itemIds ++ [JSVal.str I] := by
        show (w.items ++ [_]).map _ = _
        rw [List.map_append]
        rfl
      rw [← this]
      exact hd
    have hmem : JSVal.str I ∈ w.itemIds := by
      rw [← hid]
      exact List.mem_map_of_mem _ hit
    have h3 := (List.pairwise_append.mp hd2).2.2 _ hmem _ (List.mem_singleton_self _)
    simp [jsStrictEq] at h3
  · rcases processEvent_created_shape w pd hcreated.1 with h | ⟨item, _, _, h⟩
    · exact ⟨[], by rw [h, List.append_nil]⟩
    · exact ⟨[item], by rw [h]; rfl⟩

theorem duplicate_creation_keeps_existing_witness :
    (∃ it ∈ oneItemWorld.items, it.itemId = .str "I1") ∧
    IsCreation (itemCreatedEvent "E9" "I1" "user") "user" (.str "I1") ∧
    ContentOk (contentOf (itemCreatedEvent "E9" "I1" "user")) ∧
    (processEvent oneItemWorld (itemCreatedEvent "E9" "I1" "user")).raised = none ∧
    (processEvent oneItemWorld (itemCreatedEvent "E9" "I1" "user")).world.itemIds
      = [.str "I1", .str "I1"] ∧
    IsCreation (itemCreatedEmptyContentEvent "E9" "I1" "user") "user" (.str "I1") ∧
    (processEvent oneItemWorld (itemCreatedEmptyContentEvent "E9" "I1" "user")).raised
      = some .typeError ∧
    ∃ extra : List Item,
      (processEvent oneItemWorld (itemCreatedEmptyContentEvent "E9" "I1" "user")).world.items
        = oneItemWorld.items ++ extra :=
  have hp : ∃ it ∈ oneItemWorld.items, it.itemId = .str "I1" :=
    ⟨sampleItem "I1", List.mem_cons_self _ _, rfl⟩
  ⟨hp, ⟨rfl, _, rfl, rfl, rfl⟩, Or.inl rfl,
    ((duplicate_creation_keeps_existing oneItemWorld (itemCreatedEvent "E9" "I1" "user")
      "user" "I1" hp ⟨rfl, _, rfl, rfl, rfl⟩ (Or.inr rfl)).1 (Or.inl rfl)).1, rfl,
    ⟨rfl, _, rfl, rfl, rfl⟩, rfl,
    (duplicate_creation_keeps_existing oneItemWorld (itemCreatedEmptyContentEvent "E9" "I1" "user")
      "user" "I1" hp ⟨rfl, _, rfl, rfl, rfl⟩ (Or.inr rfl)).2⟩

/-- C13, counterexample: the chunk `AQAC` decodes to three bytes, which is not a whole
number of 16-bit samples; processing the frame raises the `RangeError` of
`new Int16Array`, the referenced item `I1` being present. -/
theorem undecodable_audio_raises :
    decodeChunk (.str "AQAC") = .error .rangeError ∧
    (∃ it ∈ oneItemWorld.items, it.isTarget (.str "I1") = true) ∧
    (processEvent oneItemWorld (audioDeltaEvent "E1" "I1" "AQAC")).raised = some .rangeError :=
  ⟨rfl, ⟨sampleItem "I1", List.mem_cons_self _ _, rfl⟩, rfl⟩

/-- C13, amended: for every state and every `response.audio.delta` frame whose delta
cannot be decoded to PCM16, processing the frame raises the exception of the
decoding and leaves the state unchanged (the mutation of the event does not
apply), also when the referenced item is present. -/
theorem undecodable_audio_raises_state_kept (w : World) (pd : JSVal) (e : JSError)
    (hty : HasType pd "response.audio.delta")
    (hd : decodeChunk (fieldOf pd "delta") = .error e) :
    (processEvent w pd).raised = some e ∧ (processEvent w pd).world = w := by
  rw [processEvent_audioDelta_error w pd e hty hd]
  exact ⟨rfl, rfl⟩

theorem undecodable_audio_raises_state_kept_witness :
    HasType (audioDeltaEvent "E1" "I1" "!!!!") "response.audio.delta" ∧
    decodeChunk (fieldOf (audioDeltaEvent "E1" "I1" "!!!!") "delta") = .error .decodeError ∧
    (processEvent oneItemWorld (audioDeltaEvent "E1" "I1" "!!!!")).raised = some .decodeError ∧
    (processEvent oneItemWorld (audioDeltaEvent "E1" "I1" "!!!!")).world = oneItemWorld :=
  ⟨rfl, rfl,
    undecodable_audio_raises_state_kept oneItemWorld (audioDeltaEvent "E1" "I1" "!!!!")
      .decodeError rfl rfl⟩

/-- C14, counterexample: the payload text `{"type":"session.created"}` is well-formed
JSON that carries only `type`; processing it raises a `TypeError`
(`parsedData.session` is `undefined`), and so does the bare
`conversation.item.created` frame. -/
theorem bare_session_created_raises :
    JSON.parse "\x7b\"type\":\"session.created\"\x7d" = .ok (bareEvent "session.created") ∧
    (processFrame emptyWorld (some "\x7b\"type\":\"session.created\"\x7d")).raised
      = some .typeError ∧
    (processFrame emptyWorld (some "\x7b\"type\":\"conversation.item.created\"\x7d")).raised
      = some .typeError :=
  ⟨rfl, rfl, rfl⟩

/-- C14, amended: for every state, a frame that carries only its `type` is processed
without an exception for every event type of the wire contract other than
`session.created`, `conversation.item.created` and `response.audio.delta`; the
bare `session.created` and `conversation.item.created` frames raise a
`TypeError` and store nothing. -/
theorem bare_frames (w : World) :
    (∀ t ∈ bareSafeTypes, (processEvent w (bareEvent t)).raised = none) ∧
    processEvent w (bareEvent "session.created") = { world := w, raised := some .typeError } ∧
    processEvent w (bareEvent "conversation.item.created")
      = { world := w, raised := some .typeError } := by
  refine ⟨?_, rfl, rfl⟩
  intro t ht
  simp only [bareSafeTypes, List.mem_cons, List.mem_singleton, List.not_mem_nil, or_false] at ht
  rcases ht with rfl | rfl | rfl | rfl | rfl | rfl | rfl | rfl
  · have h : HasType (bareEvent "response.audio_transcript.delta")
        "response.audio_transcript.delta" := rfl
    unfold processEvent
    rw [effectBody_transcriptDelta h, onTranscriptDelta_eq h]
    exact outcome_update_raised _ (fun item => { item with
        eventId := .undefined
        eventName := .str "response.audio_transcript.delta"
        textDelta := some (item.textDelta.getD "" ++ "undefined")
        isStreaming := true }) w
  · have h : HasType (bareEvent "response.audio_transcript.done")
        "response.audio_transcript.done" := rfl
    rw [processEvent_transcriptDone w _ h]
  · have h : HasType (bareEvent "response.audio.done") "response.audio.done" := rfl
    unfold processEvent
    rw [effectBody_audioDone h, onAudioDone_eq h]
    exact outcome_update_raised _ _ w
  · have h : HasType (bareEvent "conversation.item.input_audio_transcription.completed")
        "conversation.item.input_audio_transcription.completed" := rfl
    unfold processEvent
    rw [effectBody_inputTranscription h, onInputTranscriptionCompleted_eq h]
    exact outcome_update_raised _ _ w
  · rfl
  · rfl
  · rfl
  · rfl

/-- C15: for every prior state and every session id `S`, after a `session.created`
frame with `session.id = S` the recorded session id is `S`, the session is
exactly `{id: S, message: []}`, `interrupt()` has not been invoked and nothing is
raised. -/
theorem session_created_resets (w : World) (pd : JSVal) (S : JSVal)
    (hsc : IsSessionCreated pd S) :
    (processEvent w pd).raised = none ∧
    (processEvent w pd).world.currentSessionId = S ∧
    (processEvent w pd).world.currentSessionList = { id := S, message := [] } ∧
    (processEvent w pd).world.interruptCount = w.interruptCount := by
  rcases processEvent_sessionCreated w pd hsc.1 with ⟨h, _⟩ | ⟨h1, h⟩
  · rw [hsc.2] at h
    cases h
  · rw [hsc.2] at h1
    injection h1 with h1
    rw [h, ← h1]
    exact ⟨rfl, rfl, rfl, rfl⟩

theorem session_created_resets_witness :
    IsSessionCreated (sessionCreatedEvent "S1") (.str "S1") ∧
    oneItemWorld.items ≠ [] ∧
    (processEvent oneItemWorld (sessionCreatedEvent "S1")).raised = none ∧
    (processEvent oneItemWorld (sessionCreatedEvent "S1")).world.currentSessionId = .str "S1" ∧
    (processEvent oneItemWorld (sessionCreatedEvent "S1")).world.currentSessionList
      = { id := .str "S1", message := [] } ∧
    (processEvent oneItemWorld (sessionCreatedEvent "S1")).world.interruptCount
      = oneItemWorld.interruptCount :=
  ⟨⟨rfl, rfl⟩, by simp [oneItemWorld, World.items],
    session_created_resets oneItemWorld (sessionCreatedEvent "S1") (.str "S1") ⟨rfl, rfl⟩⟩

/-- C16: for every state, a creation frame with role `assistant` and `item.id = I`
whose content is the empty list throws a `TypeError` and leaves the state as it
was, so that no item is appended. On every other creation frame with role
`assistant` that is processed, the previous items are left unchanged and are
followed by exactly one new item: `itemId = I`, role `assistant`,
`previousItemId` and `eventId` those of the frame, `eventName` the type of the
frame, `isStreaming = false`, and `textFinal`, `textDelta`, `audioDelta`,
`audioFinal` absent; the frame is processed (nothing is raised) when its content
is absent or a list that has a first entry. -/
theorem assistant_item_creation (w : World) (pd : JSVal) (I : JSVal)
    (hcreated : IsCreation pd "assistant" I) :
    (contentOf pd = .arr [] → processEvent w pd = { world := w, raised := some .typeError }) ∧
    ((processEvent w pd).raised = none →
      (processEvent w pd).world.items = w.items ++
        [{ msgType := .str "realtime"
           eventId := fieldOf pd "event_id"
           eventName := .str "conversation.item.created"
           itemId := I
           previousItemId := fieldOf pd "previous_item_id"
           role := .str "assistant"
           isStreaming := false
           textFinal := .undefined
           textDelta := none
           audioDelta := none
           audioFinal := none }]) ∧
    (ContentOk (contentOf pd) → (processEvent w pd).raised = none) := by
  refine ⟨?_, ?_, ?_⟩
  · intro hc
    exact processEvent_creation_throws w pd "assistant" I .typeError hcreated (by rw [hc]; rfl)
  · intro hr
    cases huc : optionalAt0Text (contentOf pd) with
    | error e =>
      rw [processEvent_creation_throws w pd "assistant" I e hcreated huc] at hr
      cases hr
    | ok uc =>
      rw [processEvent_creation_ok w pd "assistant" I uc hcreated (Or.inl rfl) huc]
      rfl
  · intro hc
    rw [processEvent_itemCreated w pd "assistant" I ⟨hcreated, hc⟩ (Or.inl rfl)]

set_option maxRecDepth 1000000 in
theorem assistant_item_creation_witness :
    JSON.parse (emptyContentFrameText "E3" "I2" "assistant")
      = .ok (itemCreatedEmptyContentEvent "E3" "I2" "assistant") ∧
    IsCreation (itemCreatedEmptyContentEvent "E3" "I2" "assistant") "assistant" (.str "I2") ∧
    contentOf (itemCreatedEmptyContentEvent "E3" "I2" "assistant") = .arr [] ∧
    oneItemWorld.itemIds = [.str "I1"] ∧
    processEvent oneItemWorld (itemCreatedEmptyContentEvent "E3" "I2" "assistant")
      = { world := oneItemWorld, raised := some .typeError } ∧
    IsCreation (itemCreatedEvent "E3" "I2" "assistant") "assistant" (.str "I2") ∧
    (processEvent oneItemWorld (itemCreatedEvent "E3" "I2" "assistant")).raised = none ∧
    (processEvent oneItemWorld (itemCreatedEvent "E3" "I2" "assistant")).world.items
      = oneItemWorld.items ++
        [{ msgType := .str "realtime"
           eventId := fieldOf (itemCreatedEvent "E3" "I2" "assistant") "event_id"
           eventName := .str "conversation.item.created"
           itemId := .str "I2"
           previousItemId := fieldOf (itemCreatedEvent "E3" "I2" "assistant") "previous_item_id"
           role := .str "assistant"
           isStreaming := false
           textFinal := .undefined
           textDelta := none
           audioDelta := none
           audioFinal := none }] :=
  ⟨rfl, ⟨rfl, _, rfl, rfl, rfl⟩, rfl, rfl,
    (assistant_item_creation oneItemWorld (itemCreatedEmptyContentEvent "E3" "I2" "assistant")
      (.str "I2") ⟨rfl, _, rfl, rfl, rfl⟩).1 rfl,
    ⟨rfl, _, rfl, rfl, rfl⟩, rfl,
    (assistant_item_creation oneItemWorld (itemCreatedEvent "E3" "I2" "assistant") (.str "I2")
      ⟨rfl, _, rfl, rfl, rfl⟩).2.1 rfl⟩

/-- C17: for every state, a creation frame with role `user` and `item.id = I` whose
content is the empty list throws a `TypeError` and leaves the state as it was, so
that no item is appended. A creation frame with role `user` whose content is
absent, or a list that has a first entry, raises nothing and leaves the previous
items, unchanged, followed by exactly one new item with `itemId = I`, role `user`,
`isStreaming = false`, `textDelta` absent, and `textFinal` absent when the content
field is absent, equal to the `text` of the first entry of the content list when
the content is a list that has a first entry. -/
theorem user_item_creation (w : World) (pd : JSVal) (I : JSVal)
    (hcreated : IsCreation pd "user" I) :
    (contentOf pd = .arr [] → processEvent w pd = { world := w, raised := some .typeError }) ∧
    (contentOf pd = .undefined →
      processEvent w pd =
        { world := pushItem
            { msgType := .str "realtime"
              eventId := fieldOf pd "event_id"
              eventName := .str "conversation.item.created"
              itemId := I
              previousItemId := fieldOf pd "previous_item_id"
              role := .str "user"
              isStreaming := false
              textFinal := .undefined
              textDelta := none
              audioDelta := none
              audioFinal := none } w,
          raised := none }) ∧
    (∀ first rest, contentOf pd = .arr (first :: rest) → first ≠ .undefined → first ≠ .null →
      processEvent w pd =
        { world := pushItem
            { msgType := .str "realtime"
              eventId := fieldOf pd "event_id"
              eventName := .str "conversation.item.created"
              itemId := I
              previousItemId := fieldOf pd "previous_item_id"
              role := .str "user"
              isStreaming := false
              textFinal := fieldOf first "text"
              textDelta := none
              audioDelta := none
              audioFinal := none } w,
          raised := none }) := by
  refine ⟨?_, ?_, ?_⟩
  · intro hc
    exact processEvent_creation_throws w pd "user" I .typeError hcreated (by rw [hc]; rfl)
  · intro hc
    have huc : optionalAt0Text (contentOf pd) = .ok .undefined := by rw [hc]; rfl
    rw [processEvent_creation_ok w pd "user" I .undefined hcreated (Or.inr rfl) huc]
    rfl
  · intro first rest hc h1 h2
    have huc : optionalAt0Text (contentOf pd) = .ok (fieldOf first "text") := by
      rw [hc]
      cases first with
      | undefined => exact absurd rfl h1
      | null => exact absurd rfl h2
      | _ => rfl
    rw [processEvent_creation_ok w pd "user" I _ hcreated (Or.inr rfl) huc]
    rfl

theorem user_item_creation_witness :
    IsCreation (itemCreatedEmptyContentEvent "E2" "I2" "user") "user" (.str "I2") ∧
    contentOf (itemCreatedEmptyContentEvent "E2" "I2" "user") = .arr [] ∧
    oneItemWorld.itemIds = [.str "I1"] ∧
    processEvent oneItemWorld (itemCreatedEmptyContentEvent "E2" "I2" "user")
      = { world := oneItemWorld, raised := some .typeError } ∧
    IsCreation (itemCreatedTextEvent "E2" "I2" "user" "Hi") "user" (.str "I2") ∧
    (processEvent oneItemWorld (itemCreatedTextEvent "E2" "I2" "user" "Hi")).raised = none ∧
    (processEvent oneItemWorld (itemCreatedTextEvent "E2" "I2" "user" "Hi")).world.items.map
      (fun it => (it.itemId, it.textFinal)) = [(.str "I1", .undefined), (.str "I2", .str "Hi")] :=
  have h := (user_item_creation oneItemWorld (itemCreatedTextEvent "E2" "I2" "user" "Hi")
    (.str "I2") ⟨rfl, _, rfl, rfl, rfl⟩).2.2
      (.obj [("type", .str "input_text"), ("text", .str "Hi")]) [] rfl (by simp) (by simp)
  ⟨⟨rfl, _, rfl, rfl, rfl⟩, rfl, rfl,
    (user_item_creation oneItemWorld (itemCreatedEmptyContentEvent "E2" "I2" "user") (.str "I2")
      ⟨rfl, _, rfl, rfl, rfl⟩).1 rfl,
    ⟨rfl, _, rfl, rfl, rfl⟩, by rw [h], by rw [h]; rfl⟩
/-- C18: for every state and every decodable chunk `c`, processing
`response.audio.delta(item_id=I, delta=c)` raises nothing and leaves every item `I`
(an entry that passes the guard of the handler) with `audioDelta = decode(c)`
whatever it held before, `audioFinal` equal to its previous `audioFinal` (the
empty sequence when absent) followed by `decode(c)`, `isStreaming = true`,
`eventId` and `eventName` those of the frame, and `textFinal` and `textDelta`
unchanged; every other entry is unchanged. -/
theorem single_audio_delta (w : World) (pd : JSVal) (I c : String) (samples : Int16Array)
    (hev : IsAudioDelta pd I c) (hc : decodeChunk (.str c) = .ok samples) :
    (processEvent w pd).raised = none ∧
    List.Forall₂ (fun old new =>
        (old.isTarget (.str I) = true →
          new.audioDelta = some samples ∧
          new.audioFinal = some (old.audioFinal.getD [] ++ samples) ∧
          new.isStreaming = true ∧
          new.eventId = fieldOf pd "event_id" ∧
          new.eventName = .str "response.audio.delta" ∧
          new.textFinal = old.textFinal ∧ new.textDelta = old.textDelta) ∧
        (old.isTarget (.str I) = false → new = old))
      w.items (processEvent w pd).world.items := by
  rw [processEvent_audioDelta w pd I c samples hev hc]
  refine ⟨rfl, (forall₂_updateTargets _ _ w).imp ?_⟩
  intro old new h
  refine ⟨fun ht => ?_, h.2⟩
  rw [h.1 ht]
  exact ⟨rfl, rfl, rfl, rfl, rfl, rfl, rfl⟩

theorem single_audio_delta_witness :
    IsAudioDelta (audioDeltaEvent "E5" "I1" "AwAEAA==") "I1" "AwAEAA==" ∧
    decodeChunk (.str "AwAEAA==") = .ok [3, 4] ∧
    (processEvent (processEvent oneItemWorld (audioDeltaEvent "E4" "I1" "AQACAA==")).world
      (audioDeltaEvent "E5" "I1" "AwAEAA==")).raised = none ∧
    (processEvent oneItemWorld (audioDeltaEvent "E4" "I1" "AQACAA==")).world.items.map
      (fun it => (it.audioDelta, it.audioFinal)) = [(some [1, 2], some [1, 2])] ∧
    (processEvent (processEvent oneItemWorld (audioDeltaEvent "E4" "I1" "AQACAA==")).world
      (audioDeltaEvent "E5" "I1" "AwAEAA==")).world.items.map
      (fun it => (it.audioDelta, it.audioFinal, it.isStreaming))
      = [(some [3, 4], some [1, 2, 3, 4], true)] :=
  ⟨⟨rfl, rfl, rfl⟩, rfl,
    (single_audio_delta (processEvent oneItemWorld (audioDeltaEvent "E4" "I1" "AQACAA==")).world
      (audioDeltaEvent "E5" "I1" "AwAEAA==") "I1" "AwAEAA==" [3, 4] ⟨rfl, rfl, rfl⟩ rfl).1,
    rfl, rfl⟩

/-- C19: for every state, `response.audio.done(item_id=I)` raises nothing and, on
every item `I`, sets `audioDelta` to absent and `isStreaming` to false and leaves
`audioFinal`, `textDelta` and `textFinal` unchanged;
`response.audio_transcript.done(item_id=I, transcript=T)` raises nothing and, on
every item `I`, sets `textDelta` to absent, `textFinal` to `T` and `isStreaming`
to false and leaves `audioDelta` and `audioFinal` unchanged. -/
theorem done_clears_own_channel (w : World) (audioDone transcriptDone : JSVal) (I : String)
    (T : JSVal) (had : IsAudioDone audioDone I) (htd : IsTranscriptDone transcriptDone I T) :
    ((processEvent w audioDone).raised = none ∧
      List.Forall₂ (fun old new => old.isTarget (.str I) = true →
          new.audioDelta = none ∧ new.isStreaming = false ∧
          new.audioFinal = old.audioFinal ∧ new.textDelta = old.textDelta ∧
          new.textFinal = old.textFinal)
        w.items (processEvent w audioDone).world.items) ∧
    ((processEvent w transcriptDone).raised = none ∧
      List.Forall₂ (fun old new => old.isTarget (.str I) = true →
          new.textDelta = none ∧ new.textFinal = T ∧ new.isStreaming = false ∧
          new.audioDelta = old.audioDelta ∧ new.audioFinal = old.audioFinal)
        w.items (processEvent w transcriptDone).world.items) := by
  constructor
  · rw [processEvent_audioDone w audioDone had.1, had.2]
    refine ⟨rfl, (forall₂_updateTargets _ _ w).imp ?_⟩
    intro old new h ht
    rw [h.1 ht]
    exact ⟨rfl, rfl, rfl, rfl, rfl⟩
  · rw [processEvent_transcriptDone w transcriptDone htd.1, htd.2.1, htd.2.2]
    refine ⟨rfl, (forall₂_updateTargets _ _ w).imp ?_⟩
    intro old new h ht
    rw [h.1 ht]
    exact ⟨rfl, rfl, rfl, rfl, rfl⟩

theorem done_clears_own_channel_witness :
    IsAudioDone (audioDoneEvent "E6" "I1") "I1" ∧
    IsTranscriptDone (transcriptDoneEvent "E7" "I1" "Hello") "I1" (.str "Hello") ∧
    streamingWorld.items.map
      (fun it => (it.textDelta, it.textFinal, it.audioDelta, it.audioFinal, it.isStreaming))
      = [(some "He", .undefined, some [1, 2], some [1, 2], true)] ∧
    (processEvent streamingWorld (audioDoneEvent "E6" "I1")).world.items.map
      (fun it => (it.textDelta, it.textFinal, it.audioDelta, it.audioFinal, it.isStreaming))
      = [(some "He", .undefined, none, some [1, 2], false)] ∧
    (processEvent streamingWorld (transcriptDoneEvent "E7" "I1" "Hello")).world.items.map
      (fun it => (it.textDelta, it.textFinal, it.audioDelta, it.audioFinal, it.isStreaming))
      = [(none, .str "Hello", some [1, 2], some [1, 2], false)] ∧
    (processEvent streamingWorld (audioDoneEvent "E6" "I1")).raised = none :=
  ⟨⟨rfl, rfl⟩, ⟨rfl, rfl, rfl⟩, rfl, rfl, rfl,
    (done_clears_own_channel streamingWorld (audioDoneEvent "E6" "I1")
      (transcriptDoneEvent "E7" "I1" "Hello") "I1" (.str "Hello") ⟨rfl, rfl⟩ ⟨rfl, rfl, rfl⟩).1.1⟩

/-- C20, counterexample: item `I1` is created and receives a transcript delta, so that
it is streaming; `conversation.item.input_audio_transcription.completed` for `I1`
then sets `textFinal` and leaves `isStreaming` true. -/
theorem input_transcription_keeps_streaming :
    allProcessed emptyWorld [itemCreatedEvent "E1" "I1" "user",
      transcriptDeltaEvent "E2" "I1" "He", inputTranscriptionEvent "E3" "I1" "Hi"] = true ∧
    (processEvents emptyWorld [itemCreatedEvent "E1" "I1" "user",
      transcriptDeltaEvent "E2" "I1" "He", inputTranscriptionEvent "E3" "I1" "Hi"]).items.map
      (fun it => (it.itemId, it.textFinal, it.isStreaming))
      = [(.str "I1", .str "Hi", true)] :=
  ⟨rfl, rfl⟩

/-- C20, amended: for every state, processing
`conversation.item.input_audio_transcription.completed(item_id=I, transcript=T)`
raises nothing and leaves every item `I` with `textFinal = T` and with
`isStreaming` as it was, so that the item is finalized (`isStreaming = false`)
when it was not streaming before; `textDelta` and the audio fields are unchanged. -/
theorem input_transcription_sets_text (w : World) (pd : JSVal) (I : String) (T : JSVal)
    (hev : IsInputTranscription pd I T) :
    (processEvent w pd).raised = none ∧
    List.Forall₂ (fun old new => old.isTarget (.str I) = true →
        new.textFinal = T ∧ new.isStreaming = old.isStreaming ∧
        (old.isStreaming = false → new.isStreaming = false) ∧
        new.textDelta = old.textDelta ∧ new.audioDelta = old.audioDelta ∧
        new.audioFinal = old.audioFinal)
      w.items (processEvent w pd).world.items := by
  rw [processEvent_inputTranscription w pd hev.1, hev.2.1, hev.2.2]
  refine ⟨rfl, (forall₂_updateTargets _ _ w).imp ?_⟩
  intro old new h ht
  rw [h.1 ht]
  exact ⟨rfl, rfl, fun h => h, rfl, rfl, rfl⟩

theorem input_transcription_sets_text_witness :
    IsInputTranscription (inputTranscriptionEvent "E3" "I1" "Hi") "I1" (.str "Hi") ∧
    (processEvent oneItemWorld (inputTranscriptionEvent "E3" "I1" "Hi")).raised = none ∧
    (processEvent oneItemWorld (inputTranscriptionEvent "E3" "I1" "Hi")).world.items.map
      (fun it => (it.itemId, it.textFinal, it.isStreaming))
      = [(.str "I1", .str "Hi", false)] :=
  ⟨⟨rfl, rfl, rfl⟩,
    (input_transcription_sets_text oneItemWorld (inputTranscriptionEvent "E3" "I1" "Hi") "I1"
      (.str "Hi") ⟨rfl, rfl, rfl⟩).1, rfl⟩

/-- C21, counterexample: after a creation of `I1`, a text delta, an audio delta and
`response.audio_transcript.done`, all for `I1` and all processed without an
exception, the audio channel of `I1` is open (it received a delta and no
`response.audio.done`), `audioDelta` still holds the last chunk, and `isStreaming`
is false. -/
theorem done_on_other_channel_clears_streaming :
    allProcessed emptyWorld
      [itemCreatedEvent "E1" "I1" "assistant", transcriptDeltaEvent "E2" "I1" "He",
        audioDeltaEvent "E3" "I1" "AQACAA==", transcriptDoneEvent "E4" "I1" "He"] = true ∧
    channelOpen "response.audio.delta" "response.audio.done" "I1"
      [itemCreatedEvent "E1" "I1" "assistant", transcriptDeltaEvent "E2" "I1" "He",
        audioDeltaEvent "E3" "I1" "AQACAA==", transcriptDoneEvent "E4" "I1" "He"] = true ∧
    (processEvents emptyWorld
      [itemCreatedEvent "E1" "I1" "assistant", transcriptDeltaEvent "E2" "I1" "He",
        audioDeltaEvent "E3" "I1" "AQACAA==", transcriptDoneEvent "E4" "I1" "He"]).items.map
      (fun it => (it.itemId, it.audioDelta, it.isStreaming))
      = [(.str "I1", some [1, 2], false)] :=
  ⟨rfl, rfl, rfl⟩

/-- C21, amended: for every session state, every item `I` of it and every sequence
of frames that holds no `session.created` and is processed without an exception,
the item is still at its position after the sequence and its `isStreaming` is true
exactly when the most recent delta or done event for `I`, on either channel, was a
delta (when the sequence holds neither, `isStreaming` is as before). So the flag is
true whenever `I` has received a delta with no later done event on either channel,
and a done event on one channel clears it while the other channel is open. -/
theorem streaming_tracks_last_event (w : World) (events : List JSVal) (k : Nat) (old : Item)
    (I : String) (hk : w.items[k]? = some old) (ht : old.isTarget (.str I) = true)
    (hns : ∀ ev ∈ events, ¬ HasType ev "session.created")
    (hok : allProcessed w events = true) :
    ∃ new, (processEvents w events).items[k]? = some new ∧ new.itemId = .str I ∧
      new.isStreaming = lastWasDelta I old.isStreaming events := by
  induction events generalizing w old with
  | nil =>
    refine ⟨old, hk, ?_, rfl⟩
    simp only [Item.isTarget, Bool.and_eq_true] at ht
    exact (jsStrictEq_str_iff _ _).mp ht.2
  | cons ev rest ih =>
    obtain ⟨hok1, hok2⟩ := allProcessed_cons_true hok
    obtain ⟨mid, hmid, htm, hsm⟩ :=
      streaming_step w ev k old I (hns ev (List.mem_cons_self _ _)) hok1 hk ht
    obtain ⟨new, hnew, hid, hs⟩ :=
      ih (processEvent w ev).world mid hmid htm (fun e he => hns e (List.mem_cons_of_mem _ he)) hok2
    refine ⟨new, by rw [processEvents_cons]; exact hnew, hid, ?_⟩
    rw [hs, hsm]
    rfl

theorem streaming_tracks_last_event_witness :
    oneItemWorld.items[0]? = some (sampleItem "I1") ∧
    (sampleItem "I1").isTarget (.str "I1") = true ∧
    (∀ ev ∈ [transcriptDeltaEvent "E2" "I1" "He", audioDeltaEvent "E3" "I1" "AQACAA==",
        transcriptDoneEvent "E4" "I1" "He", audioDeltaEvent "E5" "I1" "AwA="],
      ¬ HasType ev "session.created") ∧
    allProcessed oneItemWorld
      [transcriptDeltaEvent "E2" "I1" "He", audioDeltaEvent "E3" "I1" "AQACAA==",
        transcriptDoneEvent "E4" "I1" "He", audioDeltaEvent "E5" "I1" "AwA="] = true ∧
    lastWasDelta "I1" false
      [transcriptDeltaEvent "E2" "I1" "He", audioDeltaEvent "E3" "I1" "AQACAA==",
        transcriptDoneEvent "E4" "I1" "He", audioDeltaEvent "E5" "I1" "AwA="] = true ∧
    (processEvents oneItemWorld
      [transcriptDeltaEvent "E2" "I1" "He", audioDeltaEvent "E3" "I1" "AQACAA==",
        transcriptDoneEvent "E4" "I1" "He", audioDeltaEvent "E5" "I1" "AwA="]).items.map
      (fun it => (it.itemId, it.isStreaming)) = [(.str "I1", true)] ∧
    ∃ new, (processEvents oneItemWorld
        [transcriptDeltaEvent "E2" "I1" "He", audioDeltaEvent "E3" "I1" "AQACAA==",
          transcriptDoneEvent "E4" "I1" "He", audioDeltaEvent "E5" "I1" "AwA="]).items[0]?
        = some new ∧ new.itemId = .str "I1" ∧
      new.isStreaming = lastWasDelta "I1" (sampleItem "I1").isStreaming
        [transcriptDeltaEvent "E2" "I1" "He", audioDeltaEvent "E3" "I1" "AQACAA==",
          transcriptDoneEvent "E4" "I1" "He", audioDeltaEvent "E5" "I1" "AwA="] :=
  have hns : ∀ ev ∈ [transcriptDeltaEvent "E2" "I1" "He", audioDeltaEvent "E3" "I1" "AQACAA==",
      transcriptDoneEvent "E4" "I1" "He", audioDeltaEvent "E5" "I1" "AwA="],
      ¬ HasType ev "session.created" := by
    intro ev hev hty
    simp only [List.mem_cons, List.mem_singleton, List.not_mem_nil, or_false] at hev
    rcases hev with rfl | rfl | rfl | rfl
    · exact absurd (hasType_unique hty
        (rfl : HasType (transcriptDeltaEvent "E2" "I1" "He") "response.audio_transcript.delta"))
        (by decide)
    · exact absurd (hasType_unique hty
        (rfl : HasType (audioDeltaEvent "E3" "I1" "AQACAA==") "response.audio.delta"))
        (by decide)
    · exact absurd (hasType_unique hty
        (rfl : HasType (transcriptDoneEvent "E4" "I1" "He") "response.audio_transcript.done"))
        (by decide)
    · exact absurd (hasType_unique hty
        (rfl : HasType (audioDeltaEvent "E5" "I1" "AwA=") "response.audio.delta"))
        (by decide)
  ⟨rfl, rfl, hns, rfl, rfl, rfl,
    streaming_tracks_last_event oneItemWorld _ 0 (sampleItem "I1") "I1" rfl rfl hns rfl⟩

/-- C22: for every session state and every JSON-object frame whose `type` is none
of the nine types that have an effect (so `input_audio_buffer.speech_stopped`,
`response.done`, an absent `type`, any other string, and any `type` that is not a
string), processing raises nothing and leaves the whole state as it was: the
session id, the item list and the number of `interrupt()` calls. -/
theorem diagnostic_and_unknown_inert (w : World) (props : List (String × JSVal))
    (h : ∀ n ∈ effectTypes, fieldOf (.obj props) "type" ≠ .str n) :
    processEvent w (.obj props) = { world := w, raised := none } := by
  have hty : getProp (.obj props) "type" = .ok (fieldOf (.obj props) "type") := rfl
  unfold processEvent
  rw [effectBody_other hty (h _ (by simp [effectTypes])) (h _ (by simp [effectTypes]))
    (h _ (by simp [effectTypes])) (h _ (by simp [effectTypes])) (h _ (by simp [effectTypes]))
    (h _ (by simp [effectTypes])) (h _ (by simp [effectTypes])) (h _ (by simp [effectTypes]))
    (h _ (by simp [effectTypes]))]
  rfl

theorem diagnostic_and_unknown_inert_witness :
    (∀ n ∈ effectTypes,
      fieldOf (.obj [("type", .str "input_audio_buffer.speech_stopped")]) "type" ≠ .str n) ∧
    (∀ n ∈ effectTypes, fieldOf (.obj [("type", .str "response.done")]) "type" ≠ .str n) ∧
    (∀ n ∈ effectTypes, fieldOf (.obj [("event_id", .str "E1")]) "type" ≠ .str n) ∧
    processEvent streamingWorld (.obj [("type", .str "input_audio_buffer.speech_stopped")])
      = { world := streamingWorld, raised := none } ∧
    processEvent streamingWorld (.obj [("type", .str "response.done")])
      = { world := streamingWorld, raised := none } ∧
    processEvent streamingWorld (.obj [("event_id", .str "E1")])
      = { world := streamingWorld, raised := none } :=
  have h1 : ∀ n ∈ effectTypes,
      fieldOf (.obj [("type", .str "input_audio_buffer.speech_stopped")]) "type" ≠ .str n := by
    intro n hn heq
    have hs : "input_audio_buffer.speech_stopped" = n := by injection heq
    subst hs
    revert hn
    decide
  have h2 : ∀ n ∈ effectTypes, fieldOf (.obj [("type", .str "response.done")]) "type" ≠ .str n := by
    intro n hn heq
    have hs : "response.done" = n := by injection heq
    subst hs
    revert hn
    decide
  have h3 : ∀ n ∈ effectTypes, fieldOf (.obj [("event_id", .str "E1")]) "type" ≠ .str n := by
    intro n _ heq
    cases heq
  ⟨h1, h2, h3, diagnostic_and_unknown_inert streamingWorld _ h1,
    diagnostic_and_unknown_inert streamingWorld _ h2,
    diagnostic_and_unknown_inert streamingWorld _ h3⟩

/-- C23: for every session state and every frame other than `session.created`
(whatever else it is, and whether or not it throws), the list of item ids before
the frame is a prefix of the list of item ids after it. -/
theorem items_append_only (w : World) (pd : JSVal) (h : ¬ HasType pd "session.created") :
    w.itemIds <+: (processEvent w pd).world.itemIds := by
  rcases processEvent_shape w pd with h1 | ⟨_, h1⟩ | ⟨hs, _⟩ | ⟨_, item, _, _, h1⟩ |
    ⟨_, next, h1, hrel⟩
  · rw [h1]
  · rw [h1]
    exact List.prefix_refl _
  · exact absurd hs h
  · rw [h1]
    unfold World.itemIds
    rw [items_pushItem, List.map_append]
    exact List.prefix_append _ _
  · rw [h1]
    have hids : (withItems next w).itemIds = w.itemIds := by
      unfold World.itemIds
      rw [items_withItems]
      exact itemIds_of_forall₂ _ _ _ hrel
    rw [hids]

theorem items_append_only_witness :
    ¬ HasType (itemCreatedEvent "E9" "I2" "assistant") "session.created" ∧
    oneItemWorld.itemIds = [.str "I1"] ∧
    (processEvent oneItemWorld (itemCreatedEvent "E9" "I2" "assistant")).world.itemIds
      = [.str "I1", .str "I2"] ∧
    oneItemWorld.itemIds
      <+: (processEvent oneItemWorld (itemCreatedEvent "E9" "I2" "assistant")).world.itemIds :=
  have h : ¬ HasType (itemCreatedEvent "E9" "I2" "assistant") "session.created" := by
    intro hty
    have hs := hasType_unique hty (rfl : HasType (itemCreatedEvent "E9" "I2" "assistant")
      "conversation.item.created")
    revert hs
    decide
  ⟨h, rfl, rfl, items_append_only oneItemWorld (itemCreatedEvent "E9" "I2" "assistant") h⟩

/-- C24: for every session state and every update event (`response.audio.delta`,
`response.audio.done`, `response.audio_transcript.delta`,
`response.audio_transcript.done` or
`conversation.item.input_audio_transcription.completed`) with `item_id = I`, the
number of items is unchanged and every item whose `itemId` is not `I` is the same
before and after; when the item ids are unique, at most one position of the list
holds a modified item. -/
theorem update_touches_matching_only (w : World) (pd : JSVal) (I : String)
    (hu : IsUpdateEvent pd) (hi : fieldOf pd "item_id" = .str I) :
    (processEvent w pd).world.items.length = w.items.length ∧
    List.Forall₂ (fun old new => old.itemId ≠ .str I → new = old)
      w.items (processEvent w pd).world.items ∧
    (DistinctIds w.itemIds →
      ∀ (j k : Nat) (a a1 b b1 : Item),
        w.items[j]? = some a → (processEvent w pd).world.items[j]? = some a1 → a1 ≠ a →
        w.items[k]? = some b → (processEvent w pd).world.items[k]? = some b1 → b1 ≠ b →
        j = k) := by
  have hrel : List.Forall₂ (fun old new => new = old ∨ old.itemId = .str I)
      w.items (processEvent w pd).world.items := by
    rcases processEvent_update_rel w pd hu with ⟨e, he⟩ | ⟨next, hn, hrel⟩
    · rw [he]
      exact List.forall₂_same.mpr (fun _ _ => Or.inl rfl)
    · rw [hn, items_withItems]
      refine hrel.imp ?_
      intro old new h
      rcases h with ⟨_, h2⟩ | ⟨h1, _⟩
      · exact Or.inl h2
      · right
        rw [hi] at h1
        simp only [Item.isTarget, Bool.and_eq_true] at h1
        exact (jsStrictEq_str_iff _ _).mp h1.2
  refine ⟨hrel.length_eq.symm, hrel.imp ?_, ?_⟩
  · intro old new h hne
    rcases h with h | h
    · exact h
    · exact absurd h hne
  · intro hd j k a a1 b b1 hja hja1 hna hkb hkb1 hnb
    obtain ⟨a2, ha2, hra⟩ := forall₂_getElem? hrel j a hja
    obtain ⟨b2, hb2, hrb⟩ := forall₂_getElem? hrel k b hkb
    rw [hja1] at ha2
    rw [hkb1] at hb2
    cases ha2
    cases hb2
    have hai : a.itemId = .str I := hra.resolve_left hna
    have hbi : b.itemId = .str I := hrb.resolve_left hnb
    have hida : w.itemIds[j]? = some (.str I) := by
      unfold World.itemIds
      rw [List.getElem?_map, hja, Option.map_some', hai]
    have hidb : w.itemIds[k]? = some (.str I) := by
      unfold World.itemIds
      rw [List.getElem?_map, hkb, Option.map_some', hbi]
    by_contra hjk
    have key : ∀ (x y : Nat), x < y → w.itemIds[x]? = some (.str I) →
        w.itemIds[y]? = some (.str I) → False := by
      intro x y hxy hx hy
      have hylt : y < w.itemIds.length := by
        by_contra hge
        rw [List.getElem?_eq_none (by omega)] at hy
        cases hy
      have hxlt : x < w.itemIds.length := by omega
      have hp := (List.pairwise_iff_getElem.mp hd) x y hxlt hylt hxy
      rw [List.getElem?_eq_getElem hxlt] at hx
      rw [List.getElem?_eq_getElem hylt] at hy
      injection hx with hx
      injection hy with hy
      rw [hx, hy] at hp
      simp [jsStrictEq] at hp
    rcases Nat.lt_or_gt_of_ne hjk with hlt | hgt
    · exact key j k hlt hida hidb
    · exact key k j hgt hidb hida

theorem update_touches_matching_only_witness :
    IsUpdateEvent (transcriptDeltaEvent "E2" "I2" "He") ∧
    (processEvents emptyWorld
        [itemCreatedEvent "E0" "I1" "user", itemCreatedEvent "E1" "I2" "assistant"]).items.map
      (fun it => (it.textDelta, it.isStreaming)) = [(none, false), (none, false)] ∧
    (processEvent (processEvents emptyWorld
        [itemCreatedEvent "E0" "I1" "user", itemCreatedEvent "E1" "I2" "assistant"])
      (transcriptDeltaEvent "E2" "I2" "He")).world.items.map
      (fun it => (it.textDelta, it.isStreaming)) = [(none, false), (some "He", true)] ∧
    (processEvent (processEvents emptyWorld
        [itemCreatedEvent "E0" "I1" "user", itemCreatedEvent "E1" "I2" "assistant"])
      (transcriptDeltaEvent "E2" "I2" "He")).world.items.length
      = (processEvents emptyWorld
        [itemCreatedEvent "E0" "I1" "user", itemCreatedEvent "E1" "I2" "assistant"]).items.length :=
  ⟨Or.inr (Or.inr (Or.inl rfl)), rfl, rfl,
    (update_touches_matching_only (processEvents emptyWorld
        [itemCreatedEvent "E0" "I1" "user", itemCreatedEvent "E1" "I2" "assistant"])
      (transcriptDeltaEvent "E2" "I2" "He") "I2" (Or.inr (Or.inr (Or.inl rfl))) rfl).1⟩

/-- C25: when the socket has no last message, or the last message has no data,
the text handed to the decoder is the empty-object text, the decoded event is the
empty object, and for every session state processing raises nothing and leaves the
whole state as it was: the session id, the item list and the number of
`interrupt()` calls. -/
theorem absent_payload_noop (w : World) :
    JSON.parse ((none : Option String).getD "{}") = .ok (.obj []) ∧
    processFrame w none = { world := w, raised := none } :=
  ⟨rfl, rfl⟩

/-- C26: for every session state, every item of it and every frame other than
`session.created` (whether or not it throws), the item is still at its position
after the frame, with the same `itemId`, and its `audioFinal` before the frame,
read as the empty sequence when absent, is a prefix of its `audioFinal` after the
frame; so the length of `audioFinal` never decreases. -/
theorem audioFinal_append_only (w : World) (pd : JSVal) (k : Nat) (old : Item)
    (hns : ¬ HasType pd "session.created") (hk : w.items[k]? = some old) :
    ∃ new, (processEvent w pd).world.items[k]? = some new ∧ new.itemId = old.itemId ∧
      old.audioFinal.getD [] <+: new.audioFinal.getD [] ∧
      (old.audioFinal.getD []).length ≤ (new.audioFinal.getD []).length := by
  obtain ⟨new, hnew, hstep⟩ := processEvent_item_at w pd k old hns hk
  refine ⟨new, hnew, ?_⟩
  rcases hstep with h | ⟨_, _, hid, hpre, _⟩
  · rw [h]
    exact ⟨rfl, List.prefix_refl _, le_refl _⟩
  · exact ⟨hid.1, hpre, hpre.length_le⟩

theorem audioFinal_append_only_witness :
    ¬ HasType (audioDeltaEvent "E4" "I1" "AwA=") "session.created" ∧
    streamingWorld.items.map (fun it => it.audioFinal) = [some [1, 2]] ∧
    (processEvent streamingWorld (audioDeltaEvent "E4" "I1" "AwA=")).world.items.map
      (fun it => it.audioFinal) = [some [1, 2, 3]] ∧
    ∃ old, streamingWorld.items[0]? = some old ∧
      ∃ new, (processEvent streamingWorld (audioDeltaEvent "E4" "I1" "AwA=")).world.items[0]?
          = some new ∧ new.itemId = old.itemId ∧
        old.audioFinal.getD [] <+: new.audioFinal.getD [] ∧
        (old.audioFinal.getD []).length ≤ (new.audioFinal.getD []).length :=
  have h : ¬ HasType (audioDeltaEvent "E4" "I1" "AwA=") "session.created" := by
    intro hty
    have hs := hasType_unique hty
      (rfl : HasType (audioDeltaEvent "E4" "I1" "AwA=") "response.audio.delta")
    revert hs
    decide
  ⟨h, rfl, rfl, _, rfl,
    audioFinal_append_only streamingWorld (audioDeltaEvent "E4" "I1" "AwA=") 0 _ h rfl⟩

set_option maxRecDepth 1000000 in
/-- C27: the payload `emptyContentFrame`, a `conversation.item.created` frame with
`role = "user"` whose `content` is present and is the empty list, decodes to the
event `itemCreatedEmptyContentEvent "E1" "I1" "user"`, and in every session state
processing it (or the same event with any ids and any role) throws a `TypeError`
and appends nothing: `content?.at(0)` is `undefined` and `.text` is read on it. -/
theorem empty_content_creation_raises (w : World) :
    JSON.parse emptyContentFrame = .ok (itemCreatedEmptyContentEvent "E1" "I1" "user") ∧
    processFrame w (some emptyContentFrame) = { world := w, raised := some .typeError } ∧
    ∀ eventId id role : String,
      processEvent w (itemCreatedEmptyContentEvent eventId id role)
        = { world := w, raised := some .typeError } := by
  have hp : JSON.parse emptyContentFrame = .ok (itemCreatedEmptyContentEvent "E1" "I1" "user") :=
    rfl
  have hev : ∀ eventId id role : String,
      processEvent w (itemCreatedEmptyContentEvent eventId id role)
        = { world := w, raised := some .typeError } := by
    intro eventId id role
    exact processEvent_creation_throws w _ role (.str id) .typeError
      ⟨rfl, _, rfl, rfl, rfl⟩ rfl
  exact ⟨hp, by rw [processFrame_parse_ok w _ _ hp]; exact hev _ _ _, hev⟩

/-- C28, counterexample: the payload `null` is well-formed JSON that is not an
object; it decodes to `null`, and processing it throws a `TypeError` (the read of
`parsedData.type`). -/
theorem null_payload_raises :
    JSON.parse "null" = .ok .null ∧
    processFrame emptyWorld (some "null") = { world := emptyWorld, raised := some .typeError } :=
  ⟨rfl, rfl⟩

/-- C28, amended: for every session state and every payload that decodes to a JSON
boolean, number, string or array, processing raises nothing and leaves the whole
state as it was (the session id, the item list and the number of `interrupt()`
calls); a payload that decodes to `null` throws a `TypeError` and also leaves the
whole state as it was. -/
theorem non_object_payload (w : World) (text : String) (pd : JSVal)
    (hp : JSON.parse text = .ok pd) :
    (((∃ b, pd = .bool b) ∨ (∃ n, pd = .num n) ∨ (∃ s, pd = .str s) ∨ (∃ xs, pd = .arr xs)) →
      processFrame w (some text) = { world := w, raised := none }) ∧
    (pd = .null → processFrame w (some text) = { world := w, raised := some .typeError }) := by
  rw [processFrame_parse_ok w text pd hp]
  constructor
  · intro h
    have hty : getProp pd "type" = .ok .undefined := by
      rcases h with ⟨b, rfl⟩ | ⟨n, rfl⟩ | ⟨s, rfl⟩ | ⟨xs, rfl⟩ <;> rfl
    unfold processEvent
    rw [effectBody_other hty (by simp) (by simp) (by simp) (by simp) (by simp) (by simp)
      (by simp) (by simp) (by simp)]
    rfl
  · intro h
    subst h
    rfl

theorem non_object_payload_witness :
    JSON.parse "true" = .ok (.bool true) ∧
    JSON.parse "5" = .ok (.num { neg := false, digits := 5, exp := 0 }) ∧
    JSON.parse "\"session.created\"" = .ok (.str "session.created") ∧
    JSON.parse "[]" = .ok (.arr []) ∧
    JSON.parse "null" = .ok .null ∧
    processFrame streamingWorld (some "true") = { world := streamingWorld, raised := none } ∧
    processFrame streamingWorld (some "5") = { world := streamingWorld, raised := none } ∧
    processFrame streamingWorld (some "\"session.created\"")
      = { world := streamingWorld, raised := none } ∧
    processFrame streamingWorld (some "[]") = { world := streamingWorld, raised := none } ∧
    processFrame streamingWorld (some "null")
      = { world := streamingWorld, raised := some .typeError } :=
  ⟨rfl, rfl, rfl, rfl, rfl,
    (non_object_payload streamingWorld "true" (.bool true) rfl).1 (Or.inl ⟨_, rfl⟩),
    (non_object_payload streamingWorld "5" _ rfl).1 (Or.inr (Or.inl ⟨_, rfl⟩)),
    (non_object_payload streamingWorld "\"session.created\"" (.str "session.created") rfl).1
      (Or.inr (Or.inr (Or.inl ⟨_, rfl⟩))),
    (non_object_payload streamingWorld "[]" (.arr []) rfl).1 (Or.inr (Or.inr (Or.inr ⟨_, rfl⟩))),
    (non_object_payload streamingWorld "null" .null rfl).2 rfl⟩

set_option maxRecDepth 1000000 in
/-- C29, counterexample: the payload `{"type":"response.created"}` received twice in
a row. Both frames are JSON objects of type `response.created`, nothing is raised,
and `interrupt()` is called once, not twice: the effect does not run on the second
frame. -/
theorem repeated_interrupt_frame_counted_once :
    [some (frameText [("type", "response.created")]),
      some (frameText [("type", "response.created")])].map decodeFrame
      = [some (frameEvent [("type", "response.created")]),
          some (frameEvent [("type", "response.created")])] ∧
    isInterruptFrame (frameEvent [("type", "response.created")]) = true ∧
    allFramesProcessed emptyWorld
      [some (frameText [("type", "response.created")]),
        some (frameText [("type", "response.created")])] = true ∧
    emptyWorld.interruptCount = 0 ∧
    (processFrames emptyWorld
      [some (frameText [("type", "response.created")]),
        some (frameText [("type", "response.created")])]).interruptCount = 1 :=
  ⟨rfl, rfl, rfl, rfl, rfl⟩

/-- C29, amended: for every state of the hook and every finite sequence of frames,
the number of `interrupt()` calls made is the number of frames of type
`input_audio_buffer.speech_started` or `response.created` among the frames on
which the effect runs, which are the frames whose payload is not that of the frame
just before them; when no frame of the sequence repeats the payload of the frame
before it, it is the number of frames of those two types in the sequence. Frames
of any other type, and frames that throw, call `interrupt()` zero times. -/
theorem interrupt_count_over_frames (h : Hook) (frames : List (Option String)) :
    (renders h frames).world.interruptCount
      = h.world.interruptCount + ((ranEvents h.lastData frames).filter isInterruptFrame).length ∧
    (noRepeat h.lastData frames = true →
      (renders h frames).world.interruptCount
        = h.world.interruptCount
          + ((frames.filterMap decodeFrame).filter isInterruptFrame).length) := by
  have h1 : (renders h frames).world.interruptCount
      = h.world.interruptCount
        + ((ranEvents h.lastData frames).filter isInterruptFrame).length := by
    rw [renders_world]
    exact interrupt_count_over_trace h.world _
  refine ⟨h1, fun hnr => ?_⟩
  rw [h1]
  unfold ranEvents
  rw [ranFrames_of_noRepeat _ _ hnr]

set_option maxRecDepth 1000000 in
theorem interrupt_count_over_frames_witness :
    (renders { world := emptyWorld, lastData := none }
      [some (frameText [("type", "input_audio_buffer.speech_started")]),
        some (frameText [("type", "response.created")]),
        some (frameText [("type", "response.created")]),
        some (frameText [("type", "response.done")]),
        some (frameText [("type", "response.created")])]).world.interruptCount = 3 ∧
    ((ranEvents none
      [some (frameText [("type", "input_audio_buffer.speech_started")]),
        some (frameText [("type", "response.created")]),
        some (frameText [("type", "response.created")]),
        some (frameText [("type", "response.done")]),
        some (frameText [("type", "response.created")])]).filter isInterruptFrame).length = 3 ∧
    (renders { world := emptyWorld, lastData := none }
      [some (frameText [("type", "input_audio_buffer.speech_started")]),
        some (frameText [("type", "response.created")]),
        some (frameText [("type", "response.created")]),
        some (frameText [("type", "response.done")]),
        some (frameText [("type", "response.created")])]).world.interruptCount
      = emptyWorld.interruptCount + ((ranEvents none
        [some (frameText [("type", "input_audio_buffer.speech_started")]),
          some (frameText [("type", "response.created")]),
          some (frameText [("type", "response.created")]),
          some (frameText [("type", "response.done")]),
          some (frameText [("type", "response.created")])]).filter isInterruptFrame).length :=
  ⟨rfl, rfl,
    (interrupt_count_over_frames { world := emptyWorld, lastData := none }
      [some (frameText [("type", "input_audio_buffer.speech_started")]),
        some (frameText [("type", "response.created")]),
        some (frameText [("type", "response.created")]),
        some (frameText [("type", "response.done")]),
        some (frameText [("type", "response.created")])]).1⟩

/-- C30: for every session state and every update event (`response.audio.delta`,
`response.audio.done`, `response.audio_transcript.delta`,
`response.audio_transcript.done` or
`conversation.item.input_audio_transcription.completed`), whether or not it
throws, the list of items keeps its length and every item keeps its `itemId`,
`role`, `previousItemId` and `msgType`. -/
theorem identity_fields_immutable (w : World) (pd : JSVal) (hu : IsUpdateEvent pd) :
    List.Forall₂ SameIdentity w.items (processEvent w pd).world.items := by
  rcases processEvent_update_rel w pd hu with ⟨e, he⟩ | ⟨next, hn, hrel⟩
  · rw [he]
    exact List.forall₂_same.mpr (fun _ _ => ⟨rfl, rfl, rfl, rfl⟩)
  · rw [hn, items_withItems]
    refine hrel.imp ?_
    intro old new h
    rcases h with ⟨_, h2⟩ | ⟨_, h2, _⟩
    · rw [h2]
      exact ⟨rfl, rfl, rfl, rfl⟩
    · exact h2

theorem identity_fields_immutable_witness :
    IsUpdateEvent (transcriptDoneEvent "E7" "I1" "Hello") ∧
    streamingWorld.items.map
      (fun it => (it.itemId, it.role, it.previousItemId, it.msgType, it.eventId, it.textFinal))
      = [(.str "I1", .str "assistant", .null, .str "realtime", .str "E3", .undefined)] ∧
    (processEvent streamingWorld (transcriptDoneEvent "E7" "I1" "Hello")).world.items.map
      (fun it => (it.itemId, it.role, it.previousItemId, it.msgType, it.eventId, it.textFinal))
      = [(.str "I1", .str "assistant", .null, .str "realtime", .str "E7", .str "Hello")] ∧
    List.Forall₂ SameIdentity streamingWorld.items
      (processEvent streamingWorld (transcriptDoneEvent "E7" "I1" "Hello")).world.items :=
  ⟨Or.inr (Or.inr (Or.inr (Or.inl rfl))), rfl, rfl,
    identity_fields_immutable streamingWorld (transcriptDoneEvent "E7" "I1" "Hello")
      (Or.inr (Or.inr (Or.inr (Or.inl rfl))))⟩

end RealtimeMsg
